import Mathlib

/-!
Shallow embedding of the history-sync clustering engine of the
core-rs-albatross repository
(consensus/src/sync/history/sync_clustering.rs and sync_stream.rs),
together with theorems checking the natural-language specification
against the code.

Machine integers (usize) are modelled as Nat; the saturating u32
operations on peer cluster counts are modelled as Nat operations
(saturation at u32::MAX is never reached in any statement below).
Fallible operations (Rust indexing and unwrap/expect, which panic)
are modelled with Option: a result of none models a panic.
-/

set_option synthInstance.maxSize 4000

namespace HistorySyncModel

/-- Election-block hashes are opaque 32-byte values; the tests of the
repository build them from an epoch number and a fork tag, so a pair of
naturals is a faithful executable model. -/
abbrev Hash := Nat × Nat

/-- Peer identifiers are opaque; a natural number suffices. -/
abbrev PeerId := Nat

/-- Modelled from the spec: result type of cluster processing
(spec section 9, Typed sum results; cluster.rs is not among the given
source files). Variants EpochSuccessful, Error and NoMoreEpochs. -/
inductive SyncClusterResult where
  | epochSuccessful
  | error
  | noMoreEpochs
deriving Repr, DecidableEq

/-- Modelled from the spec: the Cluster entity of spec section 3
(cluster.rs is not among the given source files). A stable id, the
first epoch number, the ordered epoch hashes, the peer set (stored as a
duplicate-free list, kept that way by add_peer), and the monotonic
count of epochs already committed. The opaque streaming state is not
modelled. -/
structure SyncCluster where
  id : Nat
  first_epoch_number : Nat
  epoch_ids : List Hash
  peers : List PeerId
  num_epochs_finished : Nat
deriving Repr, DecidableEq

/-- Modelled from the spec: add_peer is idempotent and ignores
duplicates (spec section 4.2). -/
def SyncCluster.add_peer (c : SyncCluster) (p : PeerId) : SyncCluster :=
  if p ∈ c.peers then c else { c with peers := c.peers ++ [p] }

/-- Modelled from the spec: split_off at an index keeps the prefix in
the receiver, moves the suffix to a new cluster with a fresh id and the
same peer set (spec section 4.2). The fresh id is passed in explicitly
because the shallow embedding threads the monotonic id counter through
the engine state. The new cluster has not committed any epochs. -/
def SyncCluster.split_off (c : SyncCluster) (at_idx : Nat) (fresh : Nat) :
    SyncCluster × SyncCluster :=
  ({ c with epoch_ids := c.epoch_ids.take at_idx },
   { id := fresh
     first_epoch_number := c.first_epoch_number + at_idx
     epoch_ids := c.epoch_ids.drop at_idx
     peers := c.peers
     num_epochs_finished := 0 })

/-- Modelled from the spec: remove_front drops the first n epoch ids
and advances first_epoch_number by exactly n (spec sections 4.2
and 8, invariant 3). -/
def SyncCluster.remove_front (c : SyncCluster) (n : Nat) : SyncCluster :=
  { c with
    epoch_ids := c.epoch_ids.drop n
    first_epoch_number := c.first_epoch_number + n
    num_epochs_finished := c.num_epochs_finished - n }

/-- Modelled from the spec: the scheduler ordering of spec section 4.2.
Prefer larger first_epoch_number + number of ids, break ties by smaller
first_epoch_number, then larger peer count, then the stable cluster id
(smaller, i.e. older, id preferred). The current_epoch argument is kept
to match the signature of compare in the spec. -/
def SyncCluster.compareTo (a b : SyncCluster) (current_epoch : Nat) : Ordering :=
  let _ := current_epoch
  (compare (a.first_epoch_number + a.epoch_ids.length)
           (b.first_epoch_number + b.epoch_ids.length)).then
  ((compare b.first_epoch_number a.first_epoch_number).then
  ((compare a.peers.length b.peers.length).then
   (compare b.id a.id)))

/-- The EpochIds summary, from sync.rs (the struct itself is not among
the given source files; its fields are fixed by spec section 3 and by
every use in sync_clustering.rs). -/
structure EpochIds where
  locator_found : Bool
  ids : List Hash
  checkpoint_id : Option Hash
  first_epoch_number : Nat
  sender : PeerId
deriving Repr, DecidableEq

/-- Modelled from the spec: the checkpoint, if present, belongs to
epoch first_epoch_number + number of ids (spec section 3). -/
def EpochIds.get_checkpoint_epoch (e : EpochIds) : Nat :=
  e.first_epoch_number + e.ids.length

/-- The job queue entries of sync.rs. The pending-commit future of
PushBatchSet is irrelevant to the queue bookkeeping and is not
modelled; the outcome of polling it is passed in where needed. -/
inductive Job where
  | pushBatchSet (cluster_id : Nat) (batch_set_id : Hash)
  | finishCluster (cluster : SyncCluster) (result : SyncClusterResult)
deriving Repr, DecidableEq

/-- Cluster id carried by a job (used by evict_jobs_by_cluster). -/
def Job.clusterId : Job → Nat
  | .pushBatchSet cid _ => cid
  | .finishCluster c _ => c.id

/-- The engine state: the fields of the HistorySync struct that the
clustering code reads and writes. The peer bookkeeping map from peer
id to cluster count is modelled as a function to Option Nat; to_probe
records the peers for which a fresh request_epoch_ids was scheduled
(the add_peer call of HistorySync); next_id is the monotonic cluster
id counter of spec section 9. -/
structure SyncState where
  epoch_clusters : List SyncCluster
  checkpoint_clusters : List SyncCluster
  active_cluster : Option SyncCluster
  job_queue : List Job
  peers : PeerId → Option Nat
  to_probe : List PeerId
  next_id : Nat

/-- The empty engine. -/
def SyncState.init : SyncState :=
  { epoch_clusters := []
    checkpoint_clusters := []
    active_cluster := none
    job_queue := []
    peers := fun _ => none
    to_probe := []
    next_id := 0 }

/-- Map update: HashMap insert (replaces any existing value). -/
def setA (m : PeerId → Option Nat) (p : PeerId) (v : Nat) : PeerId → Option Nat :=
  fun q => if q = p then some v else m q

/-- Map removal: HashMap remove. -/
def eraseA (m : PeerId → Option Nat) (p : PeerId) : PeerId → Option Nat :=
  fun q => if q = p then none else m q

/-- Outcome of the Step A truncation of cluster_epoch_ids
(sync_clustering.rs lines 119-139): either the sender is emitted
early, or processing continues with the truncated EpochIds. -/
inductive StepAOutcome where
  | emit (sender : PeerId)
  | go (e : EpochIds)
deriving Repr, DecidableEq

/-- Step A of cluster_epoch_ids, translated from sync_clustering.rs
lines 119-139. our_epoch and our_id are the epoch number and hash of
the election head read from the blockchain. Rust indexing
ids[our_epoch - first] is modelled with a checked get; none models the
out-of-range panic. -/
def stepA (our_id : Hash) (our_epoch : Nat) (e : EpochIds) : Option StepAOutcome :=
  if ¬ e.ids.isEmpty ∧ e.first_epoch_number ≤ our_epoch then
    if our_epoch - e.first_epoch_number ≤ e.ids.length then
      some (.emit e.sender)
    else
      match e.ids.get? (our_epoch - e.first_epoch_number) with
      | none => none
      | some peers_epoch_id =>
        if our_id ≠ peers_epoch_id then
          some (.emit e.sender)
        else
          some (.go { e with
            ids := e.ids.drop (our_epoch - e.first_epoch_number + 1)
            first_epoch_number := our_epoch + 1 })
  else
    some (.go e)

/-- The inner loop of Step B (sync_clustering.rs lines 156-169): scan
the job queue for the next PushBatchSet whose batch-set id equals the
given id, skipping everything before it. Returns the consumed prefix
of the queue (including the matching job), the cluster id of the
match, and the remaining suffix; none when the queue runs out. -/
def scanJobs (jobs : List Job) (id : Hash) : Option (List Job × Nat × List Job) :=
  match jobs with
  | [] => none
  | j :: rest =>
    match j with
    | .pushBatchSet cid bid =>
      if bid = id then some ([j], cid, rest)
      else (scanJobs rest id).map (fun x => (j :: x.1, x.2.1, x.2.2))
    | .finishCluster _ _ =>
      (scanJobs rest id).map (fun x => (j :: x.1, x.2.1, x.2.2))

/-- The outer loop of Step B (sync_clustering.rs lines 153-170): walk
the ids and the job queue in parallel; count the matched ids and
record the cluster id of the last match. Returns the count, the last
cluster id, the consumed queue prefix and the remaining queue suffix
(the suffix is empty when the jobs ran out before the ids did). -/
def matchJobs (jobs : List Job) (ids : List Hash) (num cid : Nat) :
    Nat × Nat × List Job × List Job :=
  match ids with
  | [] => (num, cid, [], jobs)
  | id :: rest =>
    match scanJobs jobs id with
    | none => (num, cid, jobs, [])
    | some (consumed, cid2, remaining) =>
      let r := matchJobs remaining rest (num + 1) cid2
      (r.1, r.2.1, consumed ++ r.2.2.1, r.2.2.2)

/-- The find_map of Step B (sync_clustering.rs lines 177-180): look
for the first FinishCluster job with the recorded cluster id in the
remaining queue; if found, add the sender to its cluster in place
(lines 184-186) and return the updated queue suffix. -/
def findFinish (sender : PeerId) (cid : Nat) (jobs : List Job) :
    Option (List Job) :=
  match jobs with
  | [] => none
  | .finishCluster c r :: rest =>
    if c.id = cid then some (.finishCluster (c.add_peer sender) r :: rest)
    else (findFinish sender cid rest).map (fun t => Job.finishCluster c r :: t)
  | j :: rest =>
    (findFinish sender cid rest).map (fun t => j :: t)

/-- The state threaded through the Step C loop: the id index into the
remaining peer ids, the buffered new clusters, the number of clusters
the sender was added to, and the fresh-id counter. -/
structure StepCAcc where
  id_index : Nat
  new_clusters : List SyncCluster
  num_clusters : Nat
  next_id : Nat
deriving Repr, DecidableEq

/-- Step C of cluster_epoch_ids (sync_clustering.rs lines 218-294),
run over the chain of epoch_clusters and active_cluster, which the
source iterates with iter_mut and mutates in place; the embedding
returns the updated chain (same length) together with the loop
accumulator. first and ids are the first_epoch_number and ids of the
(post Step A and B) EpochIds; note that the source keeps using the
fixed first_epoch_number for the overlap test and the start offset
even after id_index has advanced. -/
def stepC (first : Nat) (ids : List Hash) (sender : PeerId) :
    List SyncCluster → StepCAcc → List SyncCluster × StepCAcc
  | [], acc => ([], acc)
  | c :: cs, acc =>
    if c.first_epoch_number ≤ first ∧
        first < c.first_epoch_number + c.epoch_ids.length then
      let start_offset := first - c.first_epoch_number
      let len := min (c.epoch_ids.length - start_offset)
                     (ids.length - acc.id_index)
      let win1 := (c.epoch_ids.drop start_offset).take len
      let win2 := (ids.drop acc.id_index).take len
      let match_until := (win1.zip win2).findIdx (fun ab => ab.1 ≠ ab.2)
      if match_until > 0 then
        if match_until < c.epoch_ids.length - start_offset then
          let split_at := start_offset + match_until
          if c.num_epochs_finished > split_at then
            -- Cluster already processed past the split point: skip the
            -- matched ids without adding the peer (lines 258-272).
            let acc := { acc with id_index := acc.id_index + match_until }
            if acc.id_index ≥ ids.length then (c :: cs, acc)
            else
              let r := stepC first ids sender cs acc
              (c :: r.1, r.2)
          else
            -- Split the cluster, buffer the new half, then add the
            -- peer to the truncated half (lines 274-291).
            let p := c.split_off split_at acc.next_id
            let acc := { acc with
              new_clusters := acc.new_clusters ++ [p.2]
              next_id := acc.next_id + 1 }
            let c1 := p.1.add_peer sender
            let acc := { acc with
              num_clusters := acc.num_clusters + 1
              id_index := acc.id_index + match_until }
            if acc.id_index ≥ ids.length then (c1 :: cs, acc)
            else
              let r := stepC first ids sender cs acc
              (c1 :: r.1, r.2)
        else
          -- Full overlap matched: add the peer without splitting
          -- (lines 281-291).
          let c1 := c.add_peer sender
          let acc := { acc with
            num_clusters := acc.num_clusters + 1
            id_index := acc.id_index + match_until }
          if acc.id_index ≥ ids.length then (c1 :: cs, acc)
          else
            let r := stepC first ids sender cs acc
            (c1 :: r.1, r.2)
      else
        let r := stepC first ids sender cs acc
        (c :: r.1, r.2)
    else
      let r := stepC first ids sender cs acc
      (c :: r.1, r.2)

/-- The Step E search over checkpoint_clusters (sync_clustering.rs
lines 317-335): find the first cluster with exactly one epoch id equal
to the checkpoint id at the checkpoint epoch, and add the sender to it
in place. Returns none when no cluster in the list matches. -/
def stepEFind (ck : Hash) (checkpoint_epoch : Nat) (sender : PeerId) :
    List SyncCluster → Option (List SyncCluster)
  | [] => none
  | c :: cs =>
    if c.first_epoch_number = checkpoint_epoch ∧ c.epoch_ids.length = 1 ∧
        c.epoch_ids.head? = some ck then
      some (c.add_peer sender :: cs)
    else
      (stepEFind ck checkpoint_epoch sender cs).map (fun t => c :: t)

/-- Step E of cluster_epoch_ids (sync_clustering.rs lines 310-351):
when a checkpoint id is present, search checkpoint_clusters chained
with active_cluster for a cluster with exactly that single id at the
checkpoint epoch, adding the sender to the first match; otherwise
append a fresh one-element checkpoint cluster holding only the sender.
Returns the updated checkpoint_clusters, active cluster and loop
accumulator. -/
def stepE (ck : Option Hash) (checkpoint_epoch : Nat) (sender : PeerId)
    (ckpts : List SyncCluster) (active : Option SyncCluster) (acc : StepCAcc) :
    List SyncCluster × Option SyncCluster × StepCAcc :=
  match ck with
  | none => (ckpts, active, acc)
  | some c =>
    match stepEFind c checkpoint_epoch sender ckpts with
    | some ckpts2 =>
      (ckpts2, active, { acc with num_clusters := acc.num_clusters + 1 })
    | none =>
      match active with
      | some a =>
        if a.first_epoch_number = checkpoint_epoch ∧
            a.epoch_ids.length = 1 ∧ a.epoch_ids.head? = some c then
          (ckpts, some (a.add_peer sender),
           { acc with num_clusters := acc.num_clusters + 1 })
        else
          (ckpts ++
            [({ id := acc.next_id
                first_epoch_number := checkpoint_epoch
                epoch_ids := [c]
                peers := [sender]
                num_epochs_finished := 0 } : SyncCluster)], active,
           { acc with num_clusters := acc.num_clusters + 1
                      next_id := acc.next_id + 1 })
      | none =>
        (ckpts ++
          [({ id := acc.next_id
              first_epoch_number := checkpoint_epoch
              epoch_ids := [c]
              peers := [sender]
              num_epochs_finished := 0 } : SyncCluster)], none,
         { acc with num_clusters := acc.num_clusters + 1
                    next_id := acc.next_id + 1 })

/-- The bookkeeping loop of Step F (sync_clustering.rs lines 357-368):
for every peer of every buffered new cluster, increment its cluster
count in the map. The source panics when such a peer is missing from
the map; none models that panic. The u32 saturating_add is modelled as
Nat addition. -/
def bumpPeers (m : PeerId → Option Nat) :
    List SyncCluster → Option (PeerId → Option Nat)
  | [] => some m
  | c :: cs =>
    match bumpPeersOfCluster m c.peers with
    | none => none
    | some m2 => bumpPeers m2 cs
where
  bumpPeersOfCluster (m : PeerId → Option Nat) :
      List PeerId → Option (PeerId → Option Nat)
    | [] => some m
    | p :: ps =>
      match m p with
      | none => none
      | some v => bumpPeersOfCluster (setA m p (v + 1)) ps

/-- The full cluster_epoch_ids routine (sync_clustering.rs lines
106-374), as a function of the blockchain election head (hash and
epoch number), the engine state and the incoming EpochIds. Returns the
new state and the optional emitted peer; none models a panic. -/
def cluster_epoch_ids (our_id : Hash) (our_epoch : Nat) (st : SyncState)
    (e0 : EpochIds) : Option (SyncState × Option PeerId) :=
  match stepA our_id our_epoch e0 with
  | none => none
  | some (.emit p) => some (st, some p)
  | some (.go e1) =>
    -- Step B: skip ids that are already queued for commit.
    let idList := e1.ids ++ e1.checkpoint_id.toList
    let m := matchJobs st.job_queue idList 0 0
    let num_ids_to_remove := m.1
    let cluster_id := m.2.1
    let consumed := m.2.2.1
    let remaining := m.2.2.2
    if num_ids_to_remove > e1.ids.length ∨
        (num_ids_to_remove = e1.ids.length ∧ e1.checkpoint_id = none) then
      match findFinish e1.sender cluster_id remaining with
      | some remaining2 =>
        some ({ st with
          job_queue := consumed ++ remaining2
          peers := setA st.peers e1.sender 1 }, none)
      | none => some (st, some e1.sender)
    else
      let e := { e1 with
        ids := e1.ids.drop num_ids_to_remove
        first_epoch_number := e1.first_epoch_number + num_ids_to_remove }
      let checkpoint_epoch := e.get_checkpoint_epoch
      let sender := e.sender
      -- Step C over epoch_clusters chained with active_cluster.
      let chain := st.epoch_clusters ++ st.active_cluster.toList
      let r := stepC e.first_epoch_number e.ids sender chain
        { id_index := 0, new_clusters := [], num_clusters := 0
          next_id := st.next_id }
      let chain2 := r.1
      let acc := r.2
      let epoch2 := chain2.take st.epoch_clusters.length
      let active2 := (chain2.drop st.epoch_clusters.length).head?
      -- Step D: remaining ids become a new cluster (lines 297-308).
      let acc2 :=
        if acc.id_index < e.ids.length then
          { acc with
            new_clusters := acc.new_clusters ++
              [{ id := acc.next_id
                 first_epoch_number := e.first_epoch_number + acc.id_index
                 epoch_ids := e.ids.drop acc.id_index
                 peers := [sender]
                 num_epochs_finished := 0 }]
            next_id := acc.next_id + 1 }
        else acc
      -- Step E: cluster the checkpoint id (lines 310-351).
      let r2 := stepE e.checkpoint_id checkpoint_epoch sender
        st.checkpoint_clusters active2 acc2
      let ckpts3 := r2.1
      let active3 := r2.2.1
      let acc3 := r2.2.2
      -- Step F: bookkeeping (lines 353-371).
      let peers1 := setA st.peers sender acc3.num_clusters
      match bumpPeers peers1 acc3.new_clusters with
      | none => none
      | some peers2 =>
        some ({ st with
          epoch_clusters := epoch2 ++ acc3.new_clusters
          checkpoint_clusters := ckpts3
          active_cluster := active3
          peers := peers2
          next_id := acc3.next_id }, none)

/-- The per-peer body of finish_cluster (sync_clustering.rs lines
447-475), folded over the peer list of the finished cluster. The u32
saturating_sub is Nat subtraction. A peer missing from the bookkeeping
map is a panic, modelled by none. Re-probing a peer (the add_peer call
of line 467) is modelled by appending it to to_probe. -/
def finishPeers (result : SyncClusterResult) (st : SyncState) :
    List PeerId → Option SyncState
  | [] => some st
  | p :: ps =>
    match st.peers p with
    | none => none
    | some v =>
      let cluster_count := v - 1
      let st1 := { st with peers := setA st.peers p cluster_count }
      let st2 :=
        if cluster_count = 0 then
          let st' := { st1 with peers := eraseA st1.peers p }
          if result ≠ SyncClusterResult.error then
            { st' with to_probe := st'.to_probe ++ [p] }
          else st'
        else st1
      finishPeers result st2 ps

/-- The finish_cluster routine (sync_clustering.rs lines 434-476):
decrement the cluster count of every peer of the finished cluster;
peers whose count reaches 0 are removed from the map and, unless the
cluster errored, re-probed. -/
def finish_cluster (st : SyncState) (cluster : SyncCluster)
    (result : SyncClusterResult) : Option SyncState :=
  finishPeers result st cluster.peers

/-- The evict_jobs_by_cluster routine (sync_stream.rs lines 195-210):
pop jobs of the given cluster from the head of the queue, stopping at
the first job of a different cluster (left in place) or at a
FinishCluster of this cluster, whose cluster is returned. -/
def evict_jobs_by_cluster (jobs : List Job) (cluster_id : Nat) :
    List Job × Option SyncCluster :=
  match jobs with
  | [] => ([], none)
  | j :: rest =>
    if j.clusterId ≠ cluster_id then (j :: rest, none)
    else
      match j with
      | .finishCluster c _ => (rest, some c)
      | .pushBatchSet _ _ => evict_jobs_by_cluster rest cluster_id

/-- The body of poll_job_queue for a completed PushBatchSet job
(sync_stream.rs lines 157-182), after the job has been popped from the
head of the queue: on any result other than EpochSuccessful, evict the
jobs of the failing cluster, recover the cluster from its
FinishCluster job or from active_cluster (the expect of line 177 and
the assert of line 179 are panics, modelled by none), and run
finish_cluster on it. -/
def processPushResult (st : SyncState) (cluster_id : Nat)
    (result : SyncClusterResult) : Option SyncState :=
  if result ≠ SyncClusterResult.epochSuccessful then
    let ev := evict_jobs_by_cluster st.job_queue cluster_id
    let st1 := { st with job_queue := ev.1 }
    match ev.2 with
    | some cluster =>
      if cluster_id = cluster.id then finish_cluster st1 cluster result
      else none
    | none =>
      match st1.active_cluster with
      | none => none
      | some cluster =>
        let st2 := { st1 with active_cluster := none }
        if cluster_id = cluster.id then finish_cluster st2 cluster result
        else none
  else some st

/-- One iteration of the poll_job_queue loop (sync_stream.rs lines
145-192). When the head job is a PushBatchSet, the outcome of polling
its pending commit is supplied as the result argument (a Pending poll
would leave the queue untouched and is not represented). The head job
is popped (line 154) and then dispatched. -/
def pollJobQueueStep (st : SyncState) (result : SyncClusterResult) :
    Option SyncState :=
  match st.job_queue with
  | [] => some st
  | Job.pushBatchSet cluster_id _ :: rest =>
    processPushResult { st with job_queue := rest } cluster_id result
  | Job.finishCluster cluster r :: rest =>
    finish_cluster { st with job_queue := rest } cluster r

/-- The reduce of find_best_cluster (sync_clustering.rs lines
401-411) over the enumerated cluster list: keep the pair whose cluster
compares greater, preferring the later pair on ties. Returns the index
of the chosen cluster (0 for an empty list, which the caller rules
out). -/
def bestIdx (current_epoch : Nat) (clusters : List SyncCluster) : Nat :=
  match clusters.enum with
  | [] => 0
  | e :: es =>
    (es.foldl
      (fun a b =>
        if (SyncCluster.compareTo a.2 b.2 current_epoch) = Ordering.gt
        then a else b) e).1

/-- VecDeque swap_remove_front (sync_clustering.rs line 414): remove
the element at the index, replacing it with the front element. none
models an out-of-range index (the source uses expect there). -/
def swapRemoveFront (clusters : List SyncCluster) (i : Nat) :
    Option (SyncCluster × List SyncCluster) :=
  match clusters.get? i with
  | none => none
  | some c =>
    match clusters with
    | [] => none
    | front :: _ => some (c, (clusters.set i front).drop 1)

/-- The find_best_cluster routine (sync_clustering.rs lines 391-425):
pick the best cluster per the scheduler ordering, remove it from the
deque, and trim its front when it starts at or before the current
epoch. -/
def find_best_cluster (current_epoch : Nat) (clusters : List SyncCluster) :
    Option (SyncCluster × List SyncCluster) :=
  if clusters.isEmpty then none
  else
    match swapRemoveFront clusters (bestIdx current_epoch clusters) with
    | none => none
    | some (best, rest) =>
      let best2 :=
        if best.first_epoch_number ≤ current_epoch then
          best.remove_front (current_epoch - best.first_epoch_number + 1)
        else best
      some (best2, rest)

/-- The pop_next_cluster routine (sync_clustering.rs lines 376-389):
draw from epoch_clusters first and only when that yields nothing from
checkpoint_clusters. Returns the chosen cluster and the state with the
corresponding deque shrunk. -/
def pop_next_cluster (current_epoch : Nat) (st : SyncState) :
    Option SyncCluster × SyncState :=
  match find_best_cluster current_epoch st.epoch_clusters with
  | some (best, rest) => (some best, { st with epoch_clusters := rest })
  | none =>
    match find_best_cluster current_epoch st.checkpoint_clusters with
    | some (best, rest) => (some best, { st with checkpoint_clusters := rest })
    | none => (none, st)

/-- A run of len canonical (unforked) hashes for epochs first,
first+1, ..., mirroring generate_epoch_ids of the repository tests. -/
def mkRun (first len : Nat) : List Hash :=
  (List.range len).map (fun j => (first + j, 0))

/-- An EpochIds value with no checkpoint, as built by the tests. -/
def mkEpochIds (sender : PeerId) (first : Nat) (ids : List Hash) : EpochIds :=
  { locator_found := true
    ids := ids
    checkpoint_id := none
    first_epoch_number := first
    sender := sender }

/-- The observable identity of a cluster for multiset comparison: its
first epoch number, its ids and its peer set. The peer set (a
duplicate-free list) is represented canonically by sorting it. -/
def clusterView (c : SyncCluster) : Nat × List Hash × List PeerId :=
  (c.first_epoch_number, c.epoch_ids, c.peers.insertionSort (· ≤ ·))

/-- The multiset of epoch-cluster views of a state. -/
def epochViews (st : SyncState) : Multiset (Nat × List Hash × List PeerId) :=
  (st.epoch_clusters.map clusterView : List _)

/-- The multiset of checkpoint-cluster views of a state. -/
def checkpointViews (st : SyncState) : Multiset (Nat × List Hash × List PeerId) :=
  (st.checkpoint_clusters.map clusterView : List _)

/-- Feed two EpochIds summaries, in order, to a fresh empty engine
(the shape of run_clustering_test in the repository tests). -/
def runPair (our_id : Hash) (our_epoch : Nat) (e1 e2 : EpochIds) :
    Option (SyncState × Option PeerId) :=
  match cluster_epoch_ids our_id our_epoch SyncState.init e1 with
  | none => none
  | some (st1, _) => cluster_epoch_ids our_id our_epoch st1 e2

/-- Auxiliary for the order-symmetry analysis: the length of the
common prefix of two hash lists (the match_until of Step C when one
fresh cluster holds the first list). -/
def commonPrefixLen : List Hash → List Hash → Nat
  | a :: as, b :: bs => if a = b then commonPrefixLen as bs + 1 else 0
  | _, _ => 0

/-- Auxiliary for the order-symmetry analysis: the sorted peer-set
view of a one-peer cluster that a second peer was added to. -/
def pairView (p q : PeerId) : List PeerId :=
  (({ id := 0, first_epoch_number := 0, epoch_ids := [], peers := [p]
      num_epochs_finished := 0 } : SyncCluster).add_peer q).peers.insertionSort
    (fun a b => a ≤ b)

/-- Auxiliary specification formula for the order-symmetry theorem:
the multiset of epoch-cluster views an empty engine ends with after
absorbing two summaries at the same first epoch number f, one list of
ids from each peer. -/
def twoEpochViews (f : Nat) (ids1 ids2 : List Hash) (p1 p2 : PeerId) :
    Multiset (Nat × List Hash × List PeerId) :=
  if ids1 = [] then (if ids2 = [] then 0 else {(f, ids2, [p2])})
  else if ids2 = [] then {(f, ids1, [p1])}
  else
    let m := commonPrefixLen ids1 ids2
    if m = 0 then {(f, ids1, [p1]), (f, ids2, [p2])}
    else
      ({(f, ids1.take m, pairView p1 p2)} : Multiset _)
        + (if m < ids1.length then {(f + m, ids1.drop m, [p1])} else 0)
        + (if m < ids2.length then {(f + m, ids2.drop m, [p2])} else 0)

/-- Auxiliary specification formula for the order-symmetry theorem:
the multiset of checkpoint-cluster views after the two summaries. -/
def twoCkptViews (f len1 len2 : Nat) (ck1 ck2 : Option Hash)
    (p1 p2 : PeerId) : Multiset (Nat × List Hash × List PeerId) :=
  match ck1, ck2 with
  | none, none => 0
  | some c, none => {(f + len1, [c], [p1])}
  | none, some c => {(f + len2, [c], [p2])}
  | some c1, some c2 =>
    if len1 = len2 ∧ c1 = c2 then {(f + len1, [c1], pairView p1 p2)}
    else {(f + len1, [c1], [p1]), (f + len2, [c2], [p2])}

/-- The engine state after one EpochIds summary (ids, optional
checkpoint, sender p, first epoch f beyond our epoch) on the empty
engine, provided the summary is not completely empty. -/
def stateAfterFirst (f : Nat) (ids : List Hash) (ck : Option Hash)
    (p : PeerId) : SyncState :=
  { epoch_clusters :=
      if ids = [] then []
      else [{ id := 0, first_epoch_number := f, epoch_ids := ids
              peers := [p], num_epochs_finished := 0 }]
    checkpoint_clusters :=
      match ck with
      | none => []
      | some c =>
        [{ id := if ids = [] then 0 else 1
           first_epoch_number := f + ids.length, epoch_ids := [c]
           peers := [p], num_epochs_finished := 0 }]
    active_cluster := none
    job_queue := []
    peers := setA (fun _ => none) p
      ((if ck.isSome then 1 else 0) + (if ids = [] then 0 else 1))
    to_probe := []
    next_id := (if ids = [] then 0 else 1) + (if ck.isSome then 1 else 0) }


/-- The live clusters of a state, in the sense of the bookkeeping
invariant of spec section 8: the epoch clusters, the checkpoint
clusters and the active cluster. -/
def liveClusters (st : SyncState) : List SyncCluster :=
  st.epoch_clusters ++ st.checkpoint_clusters ++ st.active_cluster.toList

/-- The number of clusters in a list whose peer set contains p. -/
def memCount (p : PeerId) (cs : List SyncCluster) : Nat :=
  cs.countP (fun c => decide (p ∈ c.peers))

/-- The number of live clusters of a state whose peer set contains p:
the right-hand side of the bookkeeping invariant. -/
def countLive (p : PeerId) (st : SyncState) : Nat :=
  memCount p (liveClusters st)

/-- The bookkeeping invariant: the peers map holds exactly the peers
contained in at least one live cluster, each with its live-cluster
count; auxiliarily, every live cluster's peer list is duplicate-free
and no live cluster has committed any epochs (batch processing is not
part of the two operations the invariant quantifies over). -/
def Inv (st : SyncState) : Prop :=
  (∀ p : PeerId, st.peers p =
    if countLive p st = 0 then none else some (countLive p st)) ∧
  ∀ c ∈ liveClusters st, c.peers.Nodup ∧ c.num_epochs_finished = 0

/-- Modelled from the spec: the driver discipline under which
cluster_epoch_ids and finish_cluster are exercised (sync.rs is not
among the given source files). A summary is clustered only for a peer
absent from the bookkeeping map (peers are probed afresh exactly when
their count reached 0, spec sections 4.3 and 4.5), with the job queue
drained and ids strictly beyond the node's election epoch; a cluster
becomes active only through pop_next_cluster while no cluster is
active; finish_cluster is applied exactly to the active cluster, taken
out of the engine first. -/
inductive Reachable : SyncState → Prop where
  | init : Reachable SyncState.init
  | recv (st : SyncState) (our_id : Hash) (our_epoch : Nat) (e : EpochIds)
      (st' : SyncState) (out : Option PeerId) :
      Reachable st → st.peers e.sender = none → st.job_queue = [] →
      our_epoch < e.first_epoch_number →
      cluster_epoch_ids our_id our_epoch st e = some (st', out) →
      Reachable st'
  | promote (st : SyncState) (current_epoch : Nat) (c : SyncCluster)
      (st1 : SyncState) :
      Reachable st → st.active_cluster = none →
      pop_next_cluster current_epoch st = (some c, st1) →
      Reachable { st1 with active_cluster := some c }
  | finishActive (st : SyncState) (c : SyncCluster)
      (result : SyncClusterResult) (st' : SyncState) :
      Reachable st → st.active_cluster = some c →
      finish_cluster { st with active_cluster := none } c result = some st' →
      Reachable st'

def eC3 : EpochIds := mkEpochIds 1 1 (mkRun 1 2)

def stC3 : SyncState :=
  { epoch_clusters := [{ id := 0, first_epoch_number := 1, epoch_ids := mkRun 1 2, peers := [1], num_epochs_finished := 0 }]
    checkpoint_clusters := []
    active_cluster := none
    job_queue := []
    peers := setA (setA (fun _ => none) 1 0) 1 1
    to_probe := []
    next_id := 1 }

/-!
Theorems. The claim theorems below check the specification sentences
against the embedded code.
-/

/-- C1. Step A of cluster_epoch_ids is required to continue (dropping
the known prefix) when the peer extends beyond our election head and
its id at our epoch agrees with our election-head hash. The code at
sync_clustering.rs line 121 tests
our_epoch - first_epoch_number <= ids.len() (rather than the
specified >= for the return-sender case) and returns the sender from
the branch whose comment reads "Peer is behind": on the input below
(our epoch 1, our hash (1,0), peer ids for epochs 1 and 2, agreeing at
epoch 1) the code emits the peer as useless instead of truncating to
the single unknown id for epoch 2 and continuing. The second conjunct
records that the outcome the claim mandates is not what the code
produces. -/
theorem claim1_stepA_emits_agreeing_longer_peer :
    stepA (1, 0) 1 (mkEpochIds 7 1 [(1, 0), (2, 0)]) =
      some (StepAOutcome.emit 7) ∧
    stepA (1, 0) 1 (mkEpochIds 7 1 [(1, 0), (2, 0)]) ≠
      some (StepAOutcome.go (mkEpochIds 7 2 [(2, 0)])) := by
  decide

/-- C2. The claim states that the Step A truncation branch only
indexes ids in bounds, so cluster_epoch_ids never panics there. With
the flipped guard of line 121 the truncation branch is entered exactly
when our_epoch - first_epoch_number > ids.len(), so the read
ids[our_epoch - first_epoch_number] at line 128 is always out of
range: on the input below (our epoch 5, peer ids for epochs 1..3) the
embedded function returns none, the model of the indexing panic. -/
theorem claim2_stepA_truncation_panics :
    cluster_epoch_ids (1, 0) 5 SyncState.init (mkEpochIds 7 1 (mkRun 1 3)) =
      none := by
  rfl

/-- C5. Diverging mid-range scenario: with our epoch 0, feeding ids
for epochs 1..10 from peer 1 and then ids for epochs 4..11 from peer 2
that agree up to epoch 9 and diverge from epoch 10 on yields exactly
three epoch clusters: epochs 1..9 with both peers, epoch 10 with peer
1, and the forked epochs 10..11 with peer 2. -/
theorem claim5_diverging_mid_range :
    (runPair (999, 999) 0 (mkEpochIds 1 1 (mkRun 1 10))
        (mkEpochIds 2 4 (mkRun 4 6 ++ [(10, 1), (11, 1)]))).map
      (fun x => (x.1.epoch_clusters.map clusterView, x.2)) =
    some ([(1, mkRun 1 9, [1, 2]),
           (10, [(10, 0)], [1]),
           (10, [(10, 1), (11, 1)], [2])], none) := by
  decide

/-- C6, counterexample. The claimed order symmetry fails for inputs
whose first epoch numbers differ (both strictly greater than our
epoch 0): with E1 covering epochs 5..10 from peer 1 and E2 covering
epochs 2..8 from peer 2 on the same history, feeding E1 first leaves
two disjoint clusters (the overlap test of line 224 only fires when
the existing cluster starts at or before the incoming ids), while
feeding E2 first merges the peers and splits off epochs 9..10. -/
theorem claim6_counterexample_different_offsets :
    (5 : Nat) > 0 ∧ (2 : Nat) > 0 ∧
    (runPair (999, 999) 0 (mkEpochIds 1 5 (mkRun 5 6))
        (mkEpochIds 2 2 (mkRun 2 7))).map
      (fun x => epochViews x.1 + checkpointViews x.1) ≠
    (runPair (999, 999) 0 (mkEpochIds 2 2 (mkRun 2 7))
        (mkEpochIds 1 5 (mkRun 5 6))).map
      (fun x => epochViews x.1 + checkpointViews x.1) := by
  decide

theorem setA_eval (m : PeerId → Option Nat) (p q : PeerId) (v : Nat) :
    setA m p v q = if q = p then some v else m q := rfl

theorem eraseA_eval (m : PeerId → Option Nat) (p q : PeerId) :
    eraseA m p q = if q = p then none else m q := rfl

/-- Characterisation of the finishPeers fold: on a duplicate-free peer
list whose members all have a positive count in the map, it succeeds,
decrements each member (removing those reaching 0 and re-probing them
unless the cluster errored), and leaves every other peer and every
other state field untouched. -/
theorem finishPeers_spec (result : SyncClusterResult) (ps : List PeerId) :
    ∀ st : SyncState, ps.Nodup →
    (∀ p ∈ ps, ∃ n, st.peers p = some n ∧ 1 ≤ n) →
    ∃ st', finishPeers result st ps = some st' ∧
      (∀ p ∈ ps, ∀ n, st.peers p = some n →
        st'.peers p = (if n = 1 then none else some (n - 1)) ∧
        st'.to_probe.count p = st.to_probe.count p +
          (if n = 1 ∧ result ≠ SyncClusterResult.error then 1 else 0)) ∧
      (∀ p, p ∉ ps → st'.peers p = st.peers p ∧
        st'.to_probe.count p = st.to_probe.count p) ∧
      st'.epoch_clusters = st.epoch_clusters ∧
      st'.checkpoint_clusters = st.checkpoint_clusters ∧
      st'.active_cluster = st.active_cluster ∧
      st'.job_queue = st.job_queue ∧
      st'.next_id = st.next_id := by
  induction ps with
  | nil =>
    intro st _ _
    exact ⟨st, rfl, by simp, by simp, rfl, rfl, rfl, rfl, rfl⟩
  | cons p ps ih =>
    intro st hnd hpos
    obtain ⟨n, hn, hn1⟩ := hpos p (by simp)
    have hpns : p ∉ ps := (List.nodup_cons.mp hnd).1
    have hndps : ps.Nodup := (List.nodup_cons.mp hnd).2
    -- the state after processing the head peer
    set st1 : SyncState := { st with peers := setA st.peers p (n - 1) } with hst1
    set st2 : SyncState :=
      if n - 1 = 0 then
        let stE : SyncState := { st1 with peers := eraseA st1.peers p }
        if result ≠ SyncClusterResult.error then
          { stE with to_probe := stE.to_probe ++ [p] }
        else stE
      else st1 with hst2
    have hstep : finishPeers result st (p :: ps) = finishPeers result st2 ps := by
      rw [hst2, hst1]
      simp only [finishPeers, hn]
    have hpeers2 : ∀ q, q ≠ p → st2.peers q = st.peers q := by
      intro q hq
      rw [hst2]
      by_cases h0 : n - 1 = 0 <;>
        by_cases hr : result ≠ SyncClusterResult.error <;>
          simp [h0, hr, hst1, setA_eval, eraseA_eval, hq]
    have hprobe2 : ∀ q, q ≠ p → st2.to_probe.count q = st.to_probe.count q := by
      intro q hq
      rw [hst2]
      by_cases h0 : n - 1 = 0 <;>
        by_cases hr : result ≠ SyncClusterResult.error <;>
          simp [h0, hr, hst1, List.count_append, List.count_cons, hq]
    have hpeers2p : st2.peers p = (if n = 1 then none else some (n - 1)) := by
      rw [hst2]
      rcases Nat.lt_or_ge n 2 with h2 | h2
      · have : n = 1 := by omega
        subst this
        by_cases hr : result ≠ SyncClusterResult.error <;>
          simp [hr, hst1, setA_eval, eraseA_eval]
      · have h0 : ¬ (n - 1 = 0) := by omega
        have h1 : ¬ (n = 1) := by omega
        simp [h0, h1, hst1, setA_eval]
    have hprobe2p : st2.to_probe.count p = st.to_probe.count p +
        (if n = 1 ∧ result ≠ SyncClusterResult.error then 1 else 0) := by
      rw [hst2]
      rcases Nat.lt_or_ge n 2 with h2 | h2
      · have : n = 1 := by omega
        subst this
        by_cases hr : result ≠ SyncClusterResult.error <;>
          simp [hr, hst1, List.count_append, List.count_cons]
      · have h0 : ¬ (n - 1 = 0) := by omega
        have h1 : ¬ (n = 1) := by omega
        simp [h0, h1, hst1]
    have hrest : st2.epoch_clusters = st.epoch_clusters ∧
        st2.checkpoint_clusters = st.checkpoint_clusters ∧
        st2.active_cluster = st.active_cluster ∧
        st2.job_queue = st.job_queue ∧
        st2.next_id = st.next_id := by
      rw [hst2]
      by_cases h0 : n - 1 = 0 <;>
        by_cases hr : result ≠ SyncClusterResult.error <;>
          simp [h0, hr, hst1]
    obtain ⟨st', hrun, hin, hout, h1, h2, h3, h4, h5⟩ := ih st2 hndps (by
      intro q hq
      obtain ⟨m, hm, hm1⟩ := hpos q (by simp [hq])
      exact ⟨m, by rw [hpeers2 q (by rintro rfl; exact hpns hq)]; exact hm, hm1⟩)
    refine ⟨st', by rw [hstep, hrun], ?_, ?_,
      h1.trans hrest.1, h2.trans hrest.2.1, h3.trans hrest.2.2.1,
      h4.trans hrest.2.2.2.1, h5.trans hrest.2.2.2.2⟩
    · intro q hq m hm
      rcases List.mem_cons.mp hq with rfl | hq2
      · have hmn : m = n := by rw [hn] at hm; exact (Option.some_inj.mp hm).symm
        subst hmn
        have hq3 := hout q hpns
        exact ⟨by rw [hq3.1, hpeers2p], by rw [hq3.2, hprobe2p]⟩
      · have hqp : q ≠ p := by rintro rfl; exact hpns hq2
        have hm2 : st2.peers q = some m := by rw [hpeers2 q hqp]; exact hm
        have := hin q hq2 m hm2
        exact ⟨this.1, by rw [this.2, hprobe2 q hqp]⟩
    · intro q hq
      have hqp : q ≠ p := by rintro rfl; exact hq (by simp)
      have hq2 : q ∉ ps := by intro h; exact hq (by simp [h])
      have := hout q hq2
      exact ⟨by rw [this.1, hpeers2 q hqp], by rw [this.2, hprobe2 q hqp]⟩

/-- C9. finish_cluster decrements the bookkeeping count of every peer
of the finished cluster by one; a peer whose count thereby reaches 0
is removed from the map and re-probed (appended to to_probe) exactly
when the result is not Error, while a peer whose count stays positive
is neither removed nor re-probed; peers outside the cluster are
untouched. The hypotheses (a duplicate-free peer set whose members are
all in the map with positive counts) are the bookkeeping invariant the
engine maintains; without them the source would panic or saturate. -/
theorem claim9_finish_cluster_bookkeeping (st : SyncState)
    (cluster : SyncCluster) (result : SyncClusterResult)
    (hnd : cluster.peers.Nodup)
    (hpos : ∀ p ∈ cluster.peers, ∃ n, st.peers p = some n ∧ 1 ≤ n) :
    ∃ st', finish_cluster st cluster result = some st' ∧
      (∀ p ∈ cluster.peers, ∀ n, st.peers p = some n →
        (2 ≤ n → st'.peers p = some (n - 1) ∧
          st'.to_probe.count p = st.to_probe.count p) ∧
        (n = 1 → st'.peers p = none ∧
          (result ≠ SyncClusterResult.error →
            st'.to_probe.count p = st.to_probe.count p + 1) ∧
          (result = SyncClusterResult.error →
            st'.to_probe.count p = st.to_probe.count p))) ∧
      (∀ p, p ∉ cluster.peers → st'.peers p = st.peers p ∧
        st'.to_probe.count p = st.to_probe.count p) := by
  obtain ⟨st', hrun, hin, hout, _⟩ := finishPeers_spec result cluster.peers st hnd hpos
  refine ⟨st', hrun, ?_, hout⟩
  intro p hp n hn
  obtain ⟨hpeers, hprobe⟩ := hin p hp n hn
  constructor
  · intro h2
    have h1 : ¬ (n = 1) := by omega
    refine ⟨by rw [hpeers]; simp [h1], ?_⟩
    rw [hprobe]
    simp [h1]
  · intro h1
    subst h1
    refine ⟨by rw [hpeers]; simp, ?_, ?_⟩
    · intro hr
      rw [hprobe]
      simp [hr]
    · intro hr
      rw [hprobe]
      simp [hr]

/-- Witness for C9 at a concrete input: a cluster with peers 3 and 4,
peer 3 counted in two clusters and peer 4 in one, finished with
NoMoreEpochs. -/
theorem claim9_finish_cluster_bookkeeping_witness :
    (let st : SyncState := { SyncState.init with
        peers := fun q => if q = 3 then some 2 else if q = 4 then some 1 else none }
     let cluster : SyncCluster :=
       { id := 0, first_epoch_number := 1, epoch_ids := [(1, 0)]
         peers := [3, 4], num_epochs_finished := 0 }
     ∃ st', finish_cluster st cluster SyncClusterResult.noMoreEpochs = some st' ∧
       (∀ p ∈ cluster.peers, ∀ n, st.peers p = some n →
         (2 ≤ n → st'.peers p = some (n - 1) ∧
           st'.to_probe.count p = st.to_probe.count p) ∧
         (n = 1 → st'.peers p = none ∧
           (SyncClusterResult.noMoreEpochs ≠ SyncClusterResult.error →
             st'.to_probe.count p = st.to_probe.count p + 1) ∧
           (SyncClusterResult.noMoreEpochs = SyncClusterResult.error →
             st'.to_probe.count p = st.to_probe.count p))) ∧
       (∀ p, p ∉ cluster.peers → st'.peers p = st.peers p ∧
         st'.to_probe.count p = st.to_probe.count p)) :=
  claim9_finish_cluster_bookkeeping _ _ SyncClusterResult.noMoreEpochs
    (by decide)
    (by
      intro p hp
      simp only [List.mem_cons, List.not_mem_nil, or_false] at hp
      rcases hp with rfl | rfl
      · exact ⟨2, rfl, by omega⟩
      · exact ⟨1, rfl, by omega⟩)

/-- Eviction walks over a contiguous run of PushBatchSet jobs of the
failing cluster and stops at its FinishCluster job, returning the
carried cluster and the queue beyond that job. -/
theorem evict_run_found (C : Nat) (pre : List Job)
    (hpre : ∀ j ∈ pre, ∃ h2, j = Job.pushBatchSet C h2)
    (cl : SyncCluster) (r : SyncClusterResult) (post : List Job)
    (hcl : cl.id = C) :
    evict_jobs_by_cluster (pre ++ Job.finishCluster cl r :: post) C =
      (post, some cl) := by
  induction pre with
  | nil =>
    simp only [List.nil_append, evict_jobs_by_cluster, Job.clusterId, hcl]
    simp
  | cons j pre ih =>
    obtain ⟨h2, rfl⟩ := hpre j (by simp)
    simp only [List.cons_append, evict_jobs_by_cluster, Job.clusterId]
    simp only [ne_eq, not_true_eq_false, reduceIte]
    exact ih (fun j hj => hpre j (by simp [hj]))

/-- Eviction walks over a contiguous run of PushBatchSet jobs of the
failing cluster and stops at the first job of a different cluster (or
at the end of the queue), leaving the rest of the queue unchanged and
recovering no cluster. -/
theorem evict_run_stop (C : Nat) (pre : List Job)
    (hpre : ∀ j ∈ pre, ∃ h2, j = Job.pushBatchSet C h2)
    (suffix : List Job)
    (hstop : ∀ j, suffix.head? = some j → j.clusterId ≠ C) :
    evict_jobs_by_cluster (pre ++ suffix) C = (suffix, none) := by
  induction pre with
  | nil =>
    cases suffix with
    | nil => rfl
    | cons j rest =>
      have := hstop j rfl
      simp only [List.nil_append, evict_jobs_by_cluster]
      simp [this]
  | cons j pre ih =>
    obtain ⟨h2, rfl⟩ := hpre j (by simp)
    simp only [List.cons_append, evict_jobs_by_cluster, Job.clusterId]
    simp only [ne_eq, not_true_eq_false, reduceIte]
    exact ih (fun j hj => hpre j (by simp [hj]))

/-- C8. Job-queue poisoning: when the head PushBatchSet job of cluster
C completes with Error, the contiguous run of C jobs is evicted from
the head of the queue. First conjunct: the run stops at the
FinishCluster job of C, whose carried cluster is recovered and handed
to finish_cluster with result Error, the queue continuing past it
(jobs of other clusters untouched). Second conjunct: when the run ends
at a job of a different cluster or at the end of the queue without a
FinishCluster of C, the still-active cluster C is taken from
active_cluster instead, and finish_cluster(C, Error) is called with
the remaining queue left as is. -/
theorem claim8_job_queue_poisoning (st : SyncState) (C : Nat) (h0 : Hash)
    (q1 : List Job) (pre : List Job)
    (hq : st.job_queue = Job.pushBatchSet C h0 :: q1)
    (hpre : ∀ j ∈ pre, ∃ h2, j = Job.pushBatchSet C h2) :
    (∀ cl r post, q1 = pre ++ Job.finishCluster cl r :: post → cl.id = C →
      pollJobQueueStep st SyncClusterResult.error =
        finish_cluster { st with job_queue := post } cl
          SyncClusterResult.error) ∧
    (∀ suffix cl, q1 = pre ++ suffix →
      (∀ j, suffix.head? = some j → j.clusterId ≠ C) →
      st.active_cluster = some cl → cl.id = C →
      pollJobQueueStep st SyncClusterResult.error =
        finish_cluster
          { st with job_queue := suffix, active_cluster := none } cl
          SyncClusterResult.error) := by
  constructor
  · intro cl r post hsplit hcl
    subst hsplit
    simp only [pollJobQueueStep, hq, processPushResult]
    rw [evict_run_found C pre hpre cl r post hcl]
    simp [hcl]
  · intro suffix cl hsplit hstop hactive hcl
    subst hsplit
    simp only [pollJobQueueStep, hq, processPushResult]
    rw [evict_run_stop C pre hpre suffix hstop]
    simp [hactive, hcl]

/-- Witness for C8 at a concrete input: the queue holds two further
PushBatchSet jobs of cluster 5, its FinishCluster job, and then a job
of cluster 9; the poisoned run is evicted and cluster 5 is finished
with Error while the cluster, 9 job survives. -/
theorem claim8_job_queue_poisoning_witness :
    (let cl5 : SyncCluster :=
       { id := 5, first_epoch_number := 1, epoch_ids := [(1, 0), (2, 0)]
         peers := [], num_epochs_finished := 0 }
     let st : SyncState := { SyncState.init with
       job_queue := [Job.pushBatchSet 5 (1, 0), Job.pushBatchSet 5 (2, 0),
         Job.finishCluster cl5 SyncClusterResult.noMoreEpochs,
         Job.pushBatchSet 9 (3, 0)] }
     pollJobQueueStep st SyncClusterResult.error =
       finish_cluster { st with job_queue := [Job.pushBatchSet 9 (3, 0)] } cl5
         SyncClusterResult.error) := by
  exact (claim8_job_queue_poisoning _ 5 (1, 0) _ [Job.pushBatchSet 5 (2, 0)]
      rfl (by
        intro j hj
        simp only [List.mem_cons, List.not_mem_nil, or_false] at hj
        exact ⟨(2, 0), hj⟩)).1
    _ SyncClusterResult.noMoreEpochs [Job.pushBatchSet 9 (3, 0)] rfl rfl

/-- The Step B look-ahead finds the first FinishCluster job with the
recorded cluster id and adds the sender to its cluster in place. -/
theorem findFinish_found (sender : PeerId) (cid : Nat) (pre : List Job)
    (hpre : ∀ cl2 r2, Job.finishCluster cl2 r2 ∈ pre → cl2.id ≠ cid)
    (cl : SyncCluster) (r : SyncClusterResult) (post : List Job)
    (hcl : cl.id = cid) :
    findFinish sender cid (pre ++ Job.finishCluster cl r :: post) =
      some (pre ++ Job.finishCluster (cl.add_peer sender) r :: post) := by
  induction pre with
  | nil => simp [findFinish, hcl]
  | cons j pre ih =>
    have ih2 := ih (fun cl2 r2 hmem => hpre cl2 r2 (by simp [hmem]))
    cases j with
    | finishCluster cl2 r2 =>
      have hne := hpre cl2 r2 (by simp)
      simp [findFinish, hne, ih2]
    | pushBatchSet cid2 bid =>
      simp [findFinish, ih2]

/-- When no FinishCluster job with the recorded cluster id exists in
the remaining queue, the Step B look-ahead finds nothing. -/
theorem findFinish_none (sender : PeerId) (cid : Nat) (jobs : List Job)
    (hnone : ∀ cl r, Job.finishCluster cl r ∈ jobs → cl.id ≠ cid) :
    findFinish sender cid jobs = none := by
  induction jobs with
  | nil => rfl
  | cons j jobs ih =>
    have ih2 := ih (fun cl r hmem => hnone cl r (by simp [hmem]))
    cases j with
    | finishCluster cl2 r2 =>
      have hne := hnone cl2 r2 (by simp)
      simp [findFinish, hne, ih2]
    | pushBatchSet cid2 bid =>
      simp [findFinish, ih2]

/-- C4. Step B of cluster_epoch_ids, reached with Step A inactive
(first_epoch_number beyond our epoch): when the parallel walk over the
ids (and the checkpoint, when one was sent) matches them all against
PushBatchSet jobs, then. First conjunct: if a FinishCluster job whose
cluster id equals the last matched cluster id exists later in the
queue, the sender is added to that pending cluster's peer set, the
sender is inserted into bookkeeping with count 1, and None is
returned. Second conjunct: if no such FinishCluster job exists, the
sender is returned (with the state untouched). -/
theorem claim4_stepB_already_queued (st : SyncState) (e : EpochIds)
    (our_id : Hash) (our_epoch : Nat)
    (num cid : Nat) (consumed rem : List Job)
    (hA : our_epoch < e.first_epoch_number)
    (hmatch : matchJobs st.job_queue (e.ids ++ e.checkpoint_id.toList) 0 0 =
      (num, cid, consumed, rem))
    (hall : num = e.ids.length + e.checkpoint_id.toList.length) :
    (∀ pre cl r post, rem = pre ++ Job.finishCluster cl r :: post →
      (∀ cl2 r2, Job.finishCluster cl2 r2 ∈ pre → cl2.id ≠ cid) →
      cl.id = cid →
      cluster_epoch_ids our_id our_epoch st e =
        some ({ st with
          job_queue := consumed ++
            (pre ++ Job.finishCluster (cl.add_peer e.sender) r :: post)
          peers := setA st.peers e.sender 1 }, none)) ∧
    ((∀ cl r, Job.finishCluster cl r ∈ rem → cl.id ≠ cid) →
      cluster_epoch_ids our_id our_epoch st e = some (st, some e.sender)) := by
  have hAgo : stepA our_id our_epoch e = some (StepAOutcome.go e) := by
    have hnotle : ¬ e.first_epoch_number ≤ our_epoch := by omega
    simp [stepA, hnotle]
  have hcond : (num > e.ids.length ∨
      (num = e.ids.length ∧ e.checkpoint_id = none)) = True := by
    cases hck : e.checkpoint_id with
    | none => simp [hck] at hall; simp [hall]
    | some c => simp [hck] at hall; simp [hall]
  constructor
  · intro pre cl r post hsplit hpre hcl
    subst hsplit
    rw [cluster_epoch_ids, hAgo]
    simp only [hmatch, hcond]
    rw [findFinish_found e.sender cid pre hpre cl r post hcl]
    simp
  · intro hnone
    rw [cluster_epoch_ids, hAgo]
    simp only [hmatch, hcond]
    rw [findFinish_none e.sender cid rem hnone]
    simp

/-- Witness for C4 at a concrete input: one epoch id already queued as
a PushBatchSet of cluster 3, followed by the FinishCluster job of
cluster 3; the sender 7 is parked on that pending cluster with
count 1. -/
theorem claim4_stepB_already_queued_witness :
    (let cl3 : SyncCluster :=
       { id := 3, first_epoch_number := 1, epoch_ids := [(1, 0)]
         peers := [], num_epochs_finished := 0 }
     let st : SyncState := { SyncState.init with
       job_queue := [Job.pushBatchSet 3 (1, 0),
         Job.finishCluster cl3 SyncClusterResult.noMoreEpochs] }
     let e : EpochIds := mkEpochIds 7 1 [(1, 0)]
     cluster_epoch_ids (999, 999) 0 st e =
       some ({ st with
         job_queue := [Job.pushBatchSet 3 (1, 0),
           Job.finishCluster (cl3.add_peer 7) SyncClusterResult.noMoreEpochs]
         peers := setA st.peers 7 1 }, none)) := by
  exact (claim4_stepB_already_queued
      { SyncState.init with
        job_queue := [Job.pushBatchSet 3 (1, 0),
          Job.finishCluster
            { id := 3, first_epoch_number := 1, epoch_ids := [(1, 0)]
              peers := [], num_epochs_finished := 0 }
            SyncClusterResult.noMoreEpochs] }
      (mkEpochIds 7 1 [(1, 0)]) (999, 999) 0 1 3
      [Job.pushBatchSet 3 (1, 0)]
      [Job.finishCluster
        { id := 3, first_epoch_number := 1, epoch_ids := [(1, 0)]
          peers := [], num_epochs_finished := 0 }
        SyncClusterResult.noMoreEpochs]
      (by decide) rfl rfl).1
    [] _ SyncClusterResult.noMoreEpochs [] rfl (by simp) rfl

/-- A cluster is a checkpoint match when it has exactly one epoch id,
sits at the checkpoint epoch, and carries the checkpoint hash
(the condition of sync_clustering.rs lines 324-326). -/
def isCkptMatch (c : Hash) (checkpoint_epoch : Nat) (cl : SyncCluster) : Prop :=
  cl.first_epoch_number = checkpoint_epoch ∧ cl.epoch_ids.length = 1 ∧
    cl.epoch_ids.head? = some c

instance (c : Hash) (ce : Nat) (cl : SyncCluster) :
    Decidable (isCkptMatch c ce cl) := by
  unfold isCkptMatch
  infer_instance

/-- The Step E search adds the sender to the first matching checkpoint
cluster and to it only. -/
theorem stepEFind_found (c : Hash) (ce : Nat) (sender : PeerId)
    (pre : List SyncCluster) (hpre : ∀ cl ∈ pre, ¬ isCkptMatch c ce cl)
    (cl : SyncCluster) (post : List SyncCluster) (hcl : isCkptMatch c ce cl) :
    stepEFind c ce sender (pre ++ cl :: post) =
      some (pre ++ cl.add_peer sender :: post) := by
  induction pre with
  | nil =>
    obtain ⟨h1, h2, h3⟩ := hcl
    simp [stepEFind, h1, h2, h3]
  | cons cl2 pre ih =>
    have hne := hpre cl2 (by simp)
    rw [isCkptMatch] at hne
    have ih2 := ih (fun cl3 hm => hpre cl3 (by simp [hm]))
    simp [stepEFind, hne, ih2]

/-- The Step E search finds nothing when no cluster in the list
matches the checkpoint. -/
theorem stepEFind_none (c : Hash) (ce : Nat) (sender : PeerId)
    (ckpts : List SyncCluster) (hnone : ∀ cl ∈ ckpts, ¬ isCkptMatch c ce cl) :
    stepEFind c ce sender ckpts = none := by
  induction ckpts with
  | nil => rfl
  | cons cl2 ckpts ih =>
    have hne := hnone cl2 (by simp)
    rw [isCkptMatch] at hne
    have ih2 := ih (fun cl3 hm => hnone cl3 (by simp [hm]))
    simp [stepEFind, hne, ih2]

/-- C7. Checkpoint clustering (Step E): with a checkpoint id present,
the sender is added to an existing cluster exactly when some cluster
in checkpoint_clusters followed by the active cluster has one epoch id
equal to the checkpoint id at the checkpoint epoch. First conjunct:
the first matching checkpoint cluster, and only it, gains the peer.
Second conjunct: when no checkpoint cluster matches but the active
cluster does, the active cluster gains the peer. Third conjunct: when
nothing matches, a fresh one-element checkpoint cluster containing
only the sender is appended to checkpoint_clusters. -/
theorem claim7_checkpoint_clustering (c : Hash) (ce : Nat) (sender : PeerId)
    (ckpts : List SyncCluster) (active : Option SyncCluster) (acc : StepCAcc) :
    (∀ pre cl post, ckpts = pre ++ cl :: post →
      (∀ cl2 ∈ pre, ¬ isCkptMatch c ce cl2) → isCkptMatch c ce cl →
      stepE (some c) ce sender ckpts active acc =
        (pre ++ cl.add_peer sender :: post, active,
         { acc with num_clusters := acc.num_clusters + 1 })) ∧
    (∀ a, (∀ cl ∈ ckpts, ¬ isCkptMatch c ce cl) → active = some a →
      isCkptMatch c ce a →
      stepE (some c) ce sender ckpts active acc =
        (ckpts, some (a.add_peer sender),
         { acc with num_clusters := acc.num_clusters + 1 })) ∧
    ((∀ cl ∈ ckpts ++ active.toList, ¬ isCkptMatch c ce cl) →
      stepE (some c) ce sender ckpts active acc =
        (ckpts ++
          [({ id := acc.next_id
              first_epoch_number := ce
              epoch_ids := [c]
              peers := [sender]
              num_epochs_finished := 0 } : SyncCluster)], active,
         { acc with num_clusters := acc.num_clusters + 1
                    next_id := acc.next_id + 1 })) := by
  refine ⟨?_, ?_, ?_⟩
  · intro pre cl post hsplit hpre hcl
    subst hsplit
    simp only [stepE]
    rw [stepEFind_found c ce sender pre hpre cl post hcl]
  · intro a hnone hactive hcl
    subst hactive
    simp only [stepE]
    rw [stepEFind_none c ce sender ckpts hnone]
    obtain ⟨h1, h2, h3⟩ := hcl
    simp [h1, h2, h3]
  · intro hnone
    have hnck : ∀ cl ∈ ckpts, ¬ isCkptMatch c ce cl := by
      intro cl hm
      exact hnone cl (by simp [hm])
    simp only [stepE]
    rw [stepEFind_none c ce sender ckpts hnck]
    cases active with
    | none => rfl
    | some a =>
      have hna := hnone a (by simp)
      rw [isCkptMatch] at hna
      simp [hna]

/-- Witness for C7 at a concrete input: with one non-matching
checkpoint cluster ahead, the matching cluster at epoch 4 gains
peer 7 and the rest is untouched. -/
theorem claim7_checkpoint_clustering_witness :
    (let clNo : SyncCluster :=
       { id := 0, first_epoch_number := 3, epoch_ids := [(3, 0)]
         peers := [1], num_epochs_finished := 0 }
     let clYes : SyncCluster :=
       { id := 1, first_epoch_number := 4, epoch_ids := [(4, 0)]
         peers := [1], num_epochs_finished := 0 }
     stepE (some (4, 0)) 4 7 [clNo, clYes] none
        { id_index := 0, new_clusters := [], num_clusters := 2, next_id := 5 } =
       ([clNo, clYes.add_peer 7], none,
        { id_index := 0, new_clusters := [], num_clusters := 3, next_id := 5 })) := by
  exact (claim7_checkpoint_clustering (4, 0) 4 7 _ none _).1
    [{ id := 0, first_epoch_number := 3, epoch_ids := [(3, 0)]
       peers := [1], num_epochs_finished := 0 }] _ [] rfl (by decide) (by decide)

theorem then_eq_gt (o p : Ordering) :
    (o.then p = Ordering.gt) ↔ (o = Ordering.gt ∨ (o = Ordering.eq ∧ p = Ordering.gt)) := by
  cases o <;> simp [Ordering.then]

/-- The scheduler ordering unfolded to arithmetic: cluster a is
strictly preferred to cluster b when it reaches further, or ties are
broken by smaller start, more peers, then smaller id. -/
theorem compareTo_eq_gt_iff (cur : Nat) (a b : SyncCluster) :
    a.compareTo b cur = Ordering.gt ↔
      (b.first_epoch_number + b.epoch_ids.length <
        a.first_epoch_number + a.epoch_ids.length) ∨
      (a.first_epoch_number + a.epoch_ids.length =
        b.first_epoch_number + b.epoch_ids.length ∧
       (a.first_epoch_number < b.first_epoch_number ∨
        (b.first_epoch_number = a.first_epoch_number ∧
         (b.peers.length < a.peers.length ∨
          (a.peers.length = b.peers.length ∧ a.id < b.id))))) := by
  simp only [SyncCluster.compareTo, then_eq_gt, Nat.compare_eq_gt,
    Nat.compare_eq_eq]

/-- The scheduler preference is irreflexive. -/
theorem compareTo_self_ne_gt (cur : Nat) (a : SyncCluster) :
    ¬ a.compareTo a cur = Ordering.gt := by
  rw [compareTo_eq_gt_iff]
  omega

/-- The scheduler preference is asymmetric. -/
theorem compareTo_asymm (cur : Nat) (a b : SyncCluster)
    (h : a.compareTo b cur = Ordering.gt) :
    ¬ b.compareTo a cur = Ordering.gt := by
  rw [compareTo_eq_gt_iff] at h ⊢
  omega

/-- Non-preference is transitive. -/
theorem compareTo_not_gt_trans (cur : Nat) (a b c : SyncCluster)
    (hab : ¬ a.compareTo b cur = Ordering.gt)
    (hbc : ¬ b.compareTo c cur = Ordering.gt) :
    ¬ a.compareTo c cur = Ordering.gt := by
  rw [compareTo_eq_gt_iff] at hab hbc ⊢
  omega

/-- The reduce of find_best_cluster returns an element of the
enumerated list that no element strictly beats. -/
theorem foldl_best_spec (cur : Nat) (es : List (Nat × SyncCluster)) :
    ∀ e : Nat × SyncCluster,
    (es.foldl
      (fun a b =>
        if (SyncCluster.compareTo a.2 b.2 cur) = Ordering.gt then a else b)
      e) ∈ e :: es ∧
    ∀ x ∈ e :: es,
      ¬ x.2.compareTo
        (es.foldl
          (fun a b =>
            if (SyncCluster.compareTo a.2 b.2 cur) = Ordering.gt then a else b)
          e).2 cur = Ordering.gt := by
  induction es with
  | nil =>
    intro e
    exact ⟨by simp, by
      intro x hx
      simp only [List.mem_singleton] at hx
      subst hx
      exact compareTo_self_ne_gt cur x.2⟩
  | cons b rest ih =>
    intro e
    by_cases hgt : SyncCluster.compareTo e.2 b.2 cur = Ordering.gt
    · have ihe := ih e
      simp only [List.foldl_cons, hgt, reduceIte]
      refine ⟨?_, ?_⟩
      · rcases List.mem_cons.mp ihe.1 with h | h
        · simp [h]
        · simp [h]
      · intro x hx
        rcases List.mem_cons.mp hx with rfl | hx2
        · exact ihe.2 x (by simp)
        · rcases List.mem_cons.mp hx2 with rfl | hx3
          · -- x = b, beaten by e, which does not beat the result
            have hres := ihe.2 e (by simp)
            have hbe := compareTo_asymm cur e.2 x.2 hgt
            exact compareTo_not_gt_trans cur x.2 e.2 _ hbe hres
          · exact ihe.2 x (by simp [hx3])
    · have ihb := ih b
      simp only [List.foldl_cons, hgt, reduceIte]
      refine ⟨?_, ?_⟩
      · rcases List.mem_cons.mp ihb.1 with h | h
        · simp [h]
        · simp [h]
      · intro x hx
        rcases List.mem_cons.mp hx with rfl | hx2
        · -- x = e does not beat b, and b does not beat the result
          have hres := ihb.2 b (by simp)
          exact compareTo_not_gt_trans cur x.2 b.2 _ hgt hres
        · exact ihb.2 x hx2



/-- bestIdx points at a cluster of the list that no cluster strictly
beats in the scheduler ordering. -/
theorem bestIdx_spec (cur : Nat) (l : List SyncCluster) (hne : l ≠ []) :
    ∃ c, l.get? (bestIdx cur l) = some c ∧
      ∀ x ∈ l, ¬ x.compareTo c cur = Ordering.gt := by
  cases l with
  | nil => exact absurd rfl hne
  | cons a as =>
    have henum : (a :: as).enum = (0, a) :: List.enumFrom 1 as := by
      simp [List.enum_cons]
    have hfold := foldl_best_spec cur (List.enumFrom 1 as) (0, a)
    rw [← henum] at hfold
    set r := (List.enumFrom 1 as).foldl
      (fun a b =>
        if (SyncCluster.compareTo a.2 b.2 cur) = Ordering.gt then a else b)
      (0, a) with hr
    have hidx : bestIdx cur (a :: as) = r.1 := by
      simp only [bestIdx, henum]
    refine ⟨r.2, ?_, ?_⟩
    · rw [hidx]
      exact List.mem_enum_iff_get?.mp hfold.1
    · intro x hx
      obtain ⟨i, hi⟩ := List.mem_iff_get?.mp hx
      exact hfold.2 (i, x) (List.mem_enum_iff_get?.mpr hi)

/-- Swap-removing the element at a valid index yields that element
plus a permutation of the rest. -/
theorem perm_cons_set (xs : List SyncCluster) :
    ∀ (j : Nat) (x c : SyncCluster), xs.get? j = some c →
      (c :: xs.set j x).Perm (x :: xs) := by
  induction xs with
  | nil => intro j x c h; simp at h
  | cons y t ih =>
    intro j x c h
    cases j with
    | zero =>
      simp only [List.get?] at h
      obtain rfl : y = c := by
        exact Option.some_inj.mp h
      exact List.Perm.swap _ _ _
    | succ j =>
      simp only [List.get?] at h
      have ihj := ih j x c h
      exact (List.Perm.swap y c (t.set j x)).trans
        ((List.Perm.cons y ihj).trans (List.Perm.swap x y t))

/-- Characterisation of swap_remove_front at a valid index. -/
theorem swapRemoveFront_spec (l : List SyncCluster) (i : Nat)
    (c : SyncCluster) (h : l.get? i = some c) :
    ∃ rest, swapRemoveFront l i = some (c, rest) ∧ (c :: rest).Perm l := by
  cases l with
  | nil => simp at h
  | cons x xs =>
    cases i with
    | zero =>
      simp only [List.get?] at h
      obtain rfl : x = c := Option.some_inj.mp h
      exact ⟨xs, by simp [swapRemoveFront], List.Perm.refl _⟩
    | succ j =>
      simp only [List.get?] at h
      refine ⟨xs.set j x, ?_, perm_cons_set xs j x c h⟩
      have h2 : xs[j]? = some c := by rw [← List.get?_eq_getElem?]; exact h
      simp [swapRemoveFront, h2]

/-- Characterisation of find_best_cluster on a non-empty deque: it
returns the (possibly front-trimmed) scheduler-best cluster and the
remaining clusters, a permutation of the rest of the deque. -/
theorem find_best_cluster_spec (cur : Nat) (l : List SyncCluster)
    (hne : l ≠ []) :
    ∃ c rest,
      find_best_cluster cur l =
        some (if c.first_epoch_number ≤ cur
              then c.remove_front (cur - c.first_epoch_number + 1)
              else c, rest) ∧
      c ∈ l ∧ (∀ x ∈ l, ¬ x.compareTo c cur = Ordering.gt) ∧
      (c :: rest).Perm l := by
  obtain ⟨c, hget, hbest⟩ := bestIdx_spec cur l hne
  obtain ⟨rest, hswap, hperm⟩ := swapRemoveFront_spec l (bestIdx cur l) c hget
  refine ⟨c, rest, ?_, ?_, hbest, hperm⟩
  · simp only [find_best_cluster, List.isEmpty_iff, hne, reduceIte, hswap]
  · exact hperm.mem_iff.mp (by simp)

/-- C10. pop_next_cluster: when epoch_clusters is non-empty it removes
and returns a best cluster from epoch_clusters per the scheduler
ordering, leaving checkpoint_clusters untouched; only when
epoch_clusters is empty does it draw from checkpoint_clusters; and
whenever the chosen cluster starts at or before current_epoch, exactly
current_epoch - first_epoch_number + 1 ids are trimmed from its front
so the returned cluster starts at epoch current_epoch + 1. -/
theorem claim10_pop_next_cluster (cur : Nat) (st : SyncState) :
    (st.epoch_clusters ≠ [] →
      ∃ c rest,
        c ∈ st.epoch_clusters ∧
        (∀ x ∈ st.epoch_clusters, ¬ x.compareTo c cur = Ordering.gt) ∧
        (c :: rest).Perm st.epoch_clusters ∧
        pop_next_cluster cur st =
          (some (if c.first_epoch_number ≤ cur
                 then c.remove_front (cur - c.first_epoch_number + 1)
                 else c),
           { st with epoch_clusters := rest }) ∧
        (c.first_epoch_number ≤ cur →
          (c.remove_front (cur - c.first_epoch_number + 1)).first_epoch_number
              = cur + 1 ∧
          (c.remove_front (cur - c.first_epoch_number + 1)).epoch_ids
              = c.epoch_ids.drop (cur - c.first_epoch_number + 1))) ∧
    (st.epoch_clusters = [] → st.checkpoint_clusters ≠ [] →
      ∃ c rest,
        c ∈ st.checkpoint_clusters ∧
        (∀ x ∈ st.checkpoint_clusters, ¬ x.compareTo c cur = Ordering.gt) ∧
        (c :: rest).Perm st.checkpoint_clusters ∧
        pop_next_cluster cur st =
          (some (if c.first_epoch_number ≤ cur
                 then c.remove_front (cur - c.first_epoch_number + 1)
                 else c),
           { st with checkpoint_clusters := rest }) ∧
        (c.first_epoch_number ≤ cur →
          (c.remove_front (cur - c.first_epoch_number + 1)).first_epoch_number
              = cur + 1 ∧
          (c.remove_front (cur - c.first_epoch_number + 1)).epoch_ids
              = c.epoch_ids.drop (cur - c.first_epoch_number + 1))) ∧
    (st.epoch_clusters = [] → st.checkpoint_clusters = [] →
      pop_next_cluster cur st = (none, st)) := by
  refine ⟨?_, ?_, ?_⟩
  · intro hne
    obtain ⟨c, rest, hfind, hmem, hbest, hperm⟩ :=
      find_best_cluster_spec cur st.epoch_clusters hne
    refine ⟨c, rest, hmem, hbest, hperm, ?_, ?_⟩
    · simp only [pop_next_cluster, hfind]
    · intro hle
      constructor
      · simp only [SyncCluster.remove_front]
        omega
      · rfl
  · intro hemp hne
    obtain ⟨c, rest, hfind, hmem, hbest, hperm⟩ :=
      find_best_cluster_spec cur st.checkpoint_clusters hne
    have hfindE : find_best_cluster cur st.epoch_clusters = none := by
      simp [find_best_cluster, hemp]
    refine ⟨c, rest, hmem, hbest, hperm, ?_, ?_⟩
    · simp only [pop_next_cluster, hfindE, hfind]
    · intro hle
      constructor
      · simp only [SyncCluster.remove_front]
        omega
      · rfl
  · intro hempE hempC
    simp [pop_next_cluster, find_best_cluster, hempE, hempC]

/-- Witness for C10 at a concrete input: with two epoch clusters and
one checkpoint cluster, a scheduler-best epoch cluster is popped, the
checkpoint pool stays untouched, and front trimming starts it at the
epoch after the current one. -/
theorem claim10_pop_next_cluster_witness :
    (let cA : SyncCluster :=
       { id := 0, first_epoch_number := 1, epoch_ids := [(1, 0), (2, 0)]
         peers := [1], num_epochs_finished := 0 }
     let cB : SyncCluster :=
       { id := 1, first_epoch_number := 2, epoch_ids := [(2, 1), (3, 1), (4, 1)]
         peers := [2], num_epochs_finished := 0 }
     let st : SyncState := { SyncState.init with
       epoch_clusters := [cA, cB]
       checkpoint_clusters := [{ id := 2, first_epoch_number := 9
                                 epoch_ids := [(9, 0)], peers := [3]
                                 num_epochs_finished := 0 }] }
     ∃ c rest,
       c ∈ st.epoch_clusters ∧
       (∀ x ∈ st.epoch_clusters, ¬ x.compareTo c 1 = Ordering.gt) ∧
       (c :: rest).Perm st.epoch_clusters ∧
       pop_next_cluster 1 st =
         (some (if c.first_epoch_number ≤ 1
                then c.remove_front (1 - c.first_epoch_number + 1)
                else c),
          { st with epoch_clusters := rest }) ∧
       (c.first_epoch_number ≤ 1 →
         (c.remove_front (1 - c.first_epoch_number + 1)).first_epoch_number
             = 1 + 1 ∧
         (c.remove_front (1 - c.first_epoch_number + 1)).epoch_ids
             = c.epoch_ids.drop (1 - c.first_epoch_number + 1))) := by
  exact (claim10_pop_next_cluster 1 _).1 (by decide)


theorem stepA_skip (our_id : Hash) (our_epoch : Nat) (e : EpochIds)
    (h : our_epoch < e.first_epoch_number) :
    stepA our_id our_epoch e = some (StepAOutcome.go e) := by
  have hnotle : ¬ e.first_epoch_number ≤ our_epoch := by omega
  simp [stepA, hnotle]

theorem setA_setA (m : PeerId → Option Nat) (p : PeerId) (v w : Nat) :
    setA (setA m p v) p w = setA m p w := by
  funext q
  simp only [setA]
  by_cases h : q = p <;> simp [h]

theorem setA_self (m : PeerId → Option Nat) (p : PeerId) (v : Nat) :
    setA m p v p = some v := by
  simp [setA]

theorem matchJobs_nil (l : List Hash) : matchJobs [] l 0 0 = (0, 0, [], []) := by
  cases l <;> rfl

set_option maxHeartbeats 1000000 in
theorem run_init_eq (our_id : Hash) (our_epoch f : Nat) (ids : List Hash)
    (ck : Option Hash) (p : PeerId) (hf : our_epoch < f) :
    cluster_epoch_ids our_id our_epoch SyncState.init
      { locator_found := true, ids := ids, checkpoint_id := ck
        first_epoch_number := f, sender := p } =
      if ids = [] ∧ ck = none then some (SyncState.init, some p)
      else some (stateAfterFirst f ids ck p, none) := by
  have hAgo := stepA_skip our_id our_epoch
    { locator_found := true, ids := ids, checkpoint_id := ck
      first_epoch_number := f, sender := p } hf
  by_cases hempty : ids = [] ∧ ck = none
  · obtain ⟨rfl, rfl⟩ := hempty
    simp only [cluster_epoch_ids, hAgo]
    rfl
  · rw [if_neg hempty]
    rcases ids with - | ⟨a, as⟩
    · -- ids = [], so ck = some c
      rcases ck with - | c
      · exact absurd ⟨rfl, rfl⟩ hempty
      · simp only [cluster_epoch_ids, hAgo]
        simp [stateAfterFirst, stepC, stepE, stepEFind, bumpPeers,
          EpochIds.get_checkpoint_epoch, matchJobs_nil, SyncState.init,
          bumpPeers.bumpPeersOfCluster, setA, findFinish]
    · rcases ck with - | c
      · simp only [cluster_epoch_ids, hAgo]
        simp [stateAfterFirst, stepC, stepE, stepEFind, bumpPeers,
          EpochIds.get_checkpoint_epoch, matchJobs_nil, SyncState.init,
          bumpPeers.bumpPeersOfCluster, findFinish, setA_self, setA_setA]
      · simp only [cluster_epoch_ids, hAgo]
        simp [stateAfterFirst, stepC, stepE, stepEFind, bumpPeers,
          EpochIds.get_checkpoint_epoch, matchJobs_nil, SyncState.init,
          bumpPeers.bumpPeersOfCluster, findFinish, setA_self, setA_setA]

theorem cpl_le_left (xs ys : List Hash) : commonPrefixLen xs ys ≤ xs.length := by
  induction xs generalizing ys with
  | nil => simp [commonPrefixLen]
  | cons a as ih =>
    cases ys with
    | nil => simp [commonPrefixLen]
    | cons b bs =>
      by_cases h : a = b <;> simp [commonPrefixLen, h]
      exact ih bs

theorem cpl_le_right (xs ys : List Hash) : commonPrefixLen xs ys ≤ ys.length := by
  induction xs generalizing ys with
  | nil => simp [commonPrefixLen]
  | cons a as ih =>
    cases ys with
    | nil => simp [commonPrefixLen]
    | cons b bs =>
      by_cases h : a = b <;> simp [commonPrefixLen, h]
      exact ih bs

theorem cpl_comm (xs ys : List Hash) :
    commonPrefixLen xs ys = commonPrefixLen ys xs := by
  induction xs generalizing ys with
  | nil => cases ys <;> simp [commonPrefixLen]
  | cons a as ih =>
    cases ys with
    | nil => simp [commonPrefixLen]
    | cons b bs =>
      by_cases h : a = b
      · subst h
        simp [commonPrefixLen, ih bs]
      · have h2 : ¬ b = a := fun hh => h hh.symm
        simp [commonPrefixLen, h, h2]

theorem cpl_take_eq (xs ys : List Hash) :
    xs.take (commonPrefixLen xs ys) = ys.take (commonPrefixLen xs ys) := by
  induction xs generalizing ys with
  | nil => cases ys <;> simp [commonPrefixLen]
  | cons a as ih =>
    cases ys with
    | nil => simp [commonPrefixLen]
    | cons b bs =>
      by_cases h : a = b
      · subst h
        simp [commonPrefixLen, ih bs]
      · simp [commonPrefixLen, h]

theorem findIdx_ne_zip_take (xs ys : List Hash) (n : Nat) :
    ((xs.take n).zip (ys.take n)).findIdx (fun ab => ab.1 ≠ ab.2) =
      min (commonPrefixLen xs ys) n := by
  induction xs generalizing ys n with
  | nil => simp [commonPrefixLen]
  | cons a as ih =>
    cases ys with
    | nil => simp [commonPrefixLen]
    | cons b bs =>
      cases n with
      | zero => simp
      | succ n =>
        by_cases h : a = b
        · subst h
          have hpred : ((fun (ab : Hash × Hash) => decide (ab.1 ≠ ab.2)) (a, a))
              = false := by simp
          simp only [List.take_succ_cons, List.zip_cons_cons,
            List.findIdx_cons, hpred, cond_false, commonPrefixLen]
          rw [ih bs n]
          simp only [if_true]
          omega
        · have hpred : ((fun (ab : Hash × Hash) => decide (ab.1 ≠ ab.2)) (a, b))
              = true := by simp [h]
          simp only [List.take_succ_cons, List.zip_cons_cons,
            List.findIdx_cons, hpred, cond_true, commonPrefixLen]
          simp [h]

theorem pairView_comm (p q : PeerId) : pairView p q = pairView q p := by
  by_cases h : p = q
  · subst h; rfl
  · have h1 : ¬ q = p := fun hh => h hh.symm
    rcases Nat.lt_or_ge p q with hlt | hge
    · have ha : p ≤ q := Nat.le_of_lt hlt
      have hb : ¬ q ≤ p := Nat.not_le.mpr hlt
      simp [pairView, SyncCluster.add_peer, h, h1,
        List.insertionSort, List.orderedInsert, ha, hb]
    · have ha : q ≤ p := hge
      have hb : ¬ p ≤ q := Nat.not_le.mpr (Nat.lt_of_le_of_ne hge h1)
      simp [pairView, SyncCluster.add_peer, h, h1,
        List.insertionSort, List.orderedInsert, ha, hb]

theorem twoEpochViews_comm (f : Nat) (ids1 ids2 : List Hash) (p1 p2 : PeerId) :
    twoEpochViews f ids1 ids2 p1 p2 = twoEpochViews f ids2 ids1 p2 p1 := by
  unfold twoEpochViews
  by_cases h1 : ids1 = []
  · by_cases h2 : ids2 = [] <;> simp [h1, h2]
  · by_cases h2 : ids2 = []
    · simp [h1, h2]
    · simp only [h1, h2, reduceIte]
      have hm := cpl_comm ids1 ids2
      by_cases hm0 : commonPrefixLen ids1 ids2 = 0
      · have hm0b : commonPrefixLen ids2 ids1 = 0 := by rw [← hm]; exact hm0
        simp only [hm0, hm0b, reduceIte]
        exact Multiset.pair_comm _ _
      · have hm0b : ¬ commonPrefixLen ids2 ids1 = 0 := by rw [← hm]; exact hm0
        simp only [hm0, hm0b, reduceIte]
        rw [← hm, cpl_take_eq ids1 ids2, pairView_comm p1 p2]
        exact add_right_comm _ _ _

theorem twoCkptViews_comm (f len1 len2 : Nat) (ck1 ck2 : Option Hash)
    (p1 p2 : PeerId) :
    twoCkptViews f len1 len2 ck1 ck2 p1 p2 =
      twoCkptViews f len2 len1 ck2 ck1 p2 p1 := by
  cases ck1 with
  | none => cases ck2 <;> rfl
  | some c1 =>
    cases ck2 with
    | none => rfl
    | some c2 =>
      simp only [twoCkptViews]
      by_cases h : len1 = len2 ∧ c1 = c2
      · obtain ⟨rfl, rfl⟩ := h
        simp [pairView_comm p1 p2]
      · have h2 : ¬ (len2 = len1 ∧ c2 = c1) := by
          rintro ⟨rfl, rfl⟩
          exact h ⟨rfl, rfl⟩
        simp only [h, h2, reduceIte]
        exact Multiset.pair_comm _ _


set_option maxHeartbeats 1000000 in
theorem stepC_single (f : Nat) (ids1 ids2 : List Hash) (p1 p2 : PeerId)
    (nid : Nat) (h1 : ids1 ≠ []) (h2 : ids2 ≠ []) :
    stepC f ids2 p2
      [{ id := 0, first_epoch_number := f, epoch_ids := ids1,
         peers := [p1], num_epochs_finished := 0 }]
      { id_index := 0, new_clusters := [], num_clusters := 0, next_id := nid } =
    (if commonPrefixLen ids1 ids2 = 0 then
      ([{ id := 0, first_epoch_number := f, epoch_ids := ids1,
          peers := [p1], num_epochs_finished := 0 }],
       { id_index := 0, new_clusters := [], num_clusters := 0, next_id := nid })
     else if commonPrefixLen ids1 ids2 < ids1.length then
      ([SyncCluster.add_peer
          { id := 0, first_epoch_number := f,
            epoch_ids := ids1.take (commonPrefixLen ids1 ids2),
            peers := [p1], num_epochs_finished := 0 } p2],
       { id_index := commonPrefixLen ids1 ids2,
         new_clusters := [{ id := nid, first_epoch_number := f + commonPrefixLen ids1 ids2, epoch_ids := ids1.drop (commonPrefixLen ids1 ids2), peers := [p1], num_epochs_finished := 0 }],
         num_clusters := 1, next_id := nid + 1 })
     else
      ([SyncCluster.add_peer
          { id := 0, first_epoch_number := f, epoch_ids := ids1,
            peers := [p1], num_epochs_finished := 0 } p2],
       { id_index := commonPrefixLen ids1 ids2,
         new_clusters := [], num_clusters := 1, next_id := nid })) := by
  have hl1 : 0 < ids1.length := List.length_pos.mpr h1
  have hl2 : 0 < ids2.length := List.length_pos.mpr h2
  have hcov : f ≤ f ∧ f < f + ids1.length := ⟨le_refl f, by omega⟩
  have hmu : ((ids1.take (min ids1.length ids2.length)).zip
      (ids2.take (min ids1.length ids2.length))).findIdx
        (fun ab => ab.1 ≠ ab.2) = commonPrefixLen ids1 ids2 := by
    rw [findIdx_ne_zip_take]
    exact Nat.min_eq_left
      (le_min (cpl_le_left ids1 ids2) (cpl_le_right ids1 ids2))
  simp only [stepC, hcov, and_self, reduceIte, Nat.sub_self, Nat.sub_zero,
    List.drop_zero, hmu]
  by_cases hm0 : commonPrefixLen ids1 ids2 = 0
  · simp [hm0]
  · have hmpos : 0 < commonPrefixLen ids1 ids2 := Nat.pos_of_ne_zero hm0
    by_cases hms : commonPrefixLen ids1 ids2 < ids1.length
    · simp only [hm0, hms, reduceIte, hmpos, SyncCluster.split_off, stepC]
      by_cases hbr : ids2.length ≤ commonPrefixLen ids1 ids2 <;>
        simp [hbr, stepC]
    · simp only [hm0, hms, reduceIte, hmpos, stepC]
      by_cases hbr : ids2.length ≤ commonPrefixLen ids1 ids2 <;>
        simp [hbr, stepC]

theorem setA_ne (m : PeerId → Option Nat) (p q : PeerId) (v : Nat)
    (h : ¬ q = p) : setA m p v q = m q := by
  simp [setA, h]


set_option maxHeartbeats 2000000 in
theorem run_second_views (our_id : Hash) (our_epoch f : Nat)
    (ids1 ids2 : List Hash) (ck1 ck2 : Option Hash) (p1 p2 : PeerId)
    (hf : our_epoch < f) (h1 : ¬ (ids1 = [] ∧ ck1 = none)) :
    (cluster_epoch_ids our_id our_epoch (stateAfterFirst f ids1 ck1 p1)
      { locator_found := true, ids := ids2, checkpoint_id := ck2
        first_epoch_number := f, sender := p2 }).map
      (fun x => (epochViews x.1, checkpointViews x.1)) =
    some (twoEpochViews f ids1 ids2 p1 p2,
          twoCkptViews f ids1.length ids2.length ck1 ck2 p1 p2) := by
  have hAgo := stepA_skip our_id our_epoch
    { locator_found := true, ids := ids2, checkpoint_id := ck2
      first_epoch_number := f, sender := p2 } hf
  by_cases h2 : ids2 = [] ∧ ck2 = none
  · obtain ⟨rfl, rfl⟩ := h2
    simp only [cluster_epoch_ids, hAgo]
    rcases ids1 with - | ⟨a, as⟩
    · rcases ck1 with - | c
      · exact absurd ⟨rfl, rfl⟩ h1
      · simp [stateAfterFirst, matchJobs, findFinish, epochViews,
          checkpointViews, clusterView, twoEpochViews, twoCkptViews]
    · rcases ck1 with - | c
      · simp [stateAfterFirst, matchJobs, findFinish, epochViews,
          checkpointViews, clusterView, twoEpochViews, twoCkptViews]
      · simp [stateAfterFirst, matchJobs, findFinish, epochViews,
          checkpointViews, clusterView, twoEpochViews, twoCkptViews]
  · -- main case: the second summary is not empty
    simp only [cluster_epoch_ids, hAgo]
    rcases ids1 with - | ⟨a1, as1⟩
    · -- first summary had no ids, so ck1 = some c1
      rcases ck1 with - | c1
      · exact absurd ⟨rfl, rfl⟩ h1
      · rcases ids2 with - | ⟨a2, as2⟩
        · -- no new ids either, so ck2 = some c2
          rcases ck2 with - | c2
          · exact absurd ⟨rfl, rfl⟩ h2
          · by_cases hcc : c1 = c2
            · subst hcc
              simp [stateAfterFirst, matchJobs, scanJobs, findFinish, stepC,
                stepE, stepEFind, bumpPeers, bumpPeers.bumpPeersOfCluster,
                setA_self, setA_setA, EpochIds.get_checkpoint_epoch,
                SyncCluster.add_peer, epochViews, checkpointViews,
                clusterView, twoEpochViews, twoCkptViews, pairView]
              by_cases hp : p2 = p1 <;> simp [hp]
            · simp [stateAfterFirst, matchJobs, scanJobs, findFinish, stepC,
                stepE, stepEFind, bumpPeers, bumpPeers.bumpPeersOfCluster,
                setA_self, setA_setA, EpochIds.get_checkpoint_epoch,
                SyncCluster.add_peer, epochViews, checkpointViews,
                clusterView, twoEpochViews, twoCkptViews, pairView, hcc]
              rfl
        · -- fresh tail cluster from the new ids
          rcases ck2 with - | c2
          · simp [stateAfterFirst, matchJobs, scanJobs, findFinish, stepC,
              stepE, stepEFind, bumpPeers, bumpPeers.bumpPeersOfCluster,
              setA_self, setA_setA, EpochIds.get_checkpoint_epoch,
              SyncCluster.add_peer, epochViews, checkpointViews,
              clusterView, twoEpochViews, twoCkptViews, pairView]
          · simp [stateAfterFirst, matchJobs, scanJobs, findFinish, stepC,
              stepE, stepEFind, bumpPeers, bumpPeers.bumpPeersOfCluster,
              setA_self, setA_setA, EpochIds.get_checkpoint_epoch,
              SyncCluster.add_peer, epochViews, checkpointViews,
              clusterView, twoEpochViews, twoCkptViews, pairView]
            rfl
    · -- first summary created an epoch cluster
      rcases ids2 with - | ⟨a2, as2⟩
      · -- no new ids, ck2 = some c2
        rcases ck2 with - | c2
        · exact absurd ⟨rfl, rfl⟩ h2
        · rcases ck1 with - | c1
          · simp [stateAfterFirst, matchJobs, scanJobs, findFinish, stepC,
              stepE, stepEFind, bumpPeers, bumpPeers.bumpPeersOfCluster,
              setA_self, setA_setA, EpochIds.get_checkpoint_epoch,
              SyncCluster.add_peer, epochViews, checkpointViews,
              clusterView, twoEpochViews, twoCkptViews, pairView]
          · simp [stateAfterFirst, matchJobs, scanJobs, findFinish, stepC,
              stepE, stepEFind, bumpPeers, bumpPeers.bumpPeersOfCluster,
              setA_self, setA_setA, EpochIds.get_checkpoint_epoch,
              SyncCluster.add_peer, epochViews, checkpointViews,
              clusterView, twoEpochViews, twoCkptViews, pairView]
            rfl
      · -- both id lists non-empty
        by_cases hp : p2 = p1
        · subst hp
          rcases ck1 with - | c1
          · have hsc := stepC_single f (a1 :: as1) (a2 :: as2) p2 p2 1
              (by simp) (by simp)
            by_cases hm0 : commonPrefixLen (a1 :: as1) (a2 :: as2) = 0
            · rcases ck2 with - | c2
              · simp [hsc, hm0,
                  stateAfterFirst, matchJobs, scanJobs, findFinish, stepE, stepEFind, bumpPeers, bumpPeers.bumpPeersOfCluster, setA_self, setA_setA, setA_ne, EpochIds.get_checkpoint_epoch, SyncCluster.add_peer, epochViews, checkpointViews, clusterView, twoEpochViews, twoCkptViews, pairView]
                try rfl
                try omega
                try (constructor <;> first | rfl | omega)
              · simp [hsc, hm0,
                  stateAfterFirst, matchJobs, scanJobs, findFinish, stepE, stepEFind, bumpPeers, bumpPeers.bumpPeersOfCluster, setA_self, setA_setA, setA_ne, EpochIds.get_checkpoint_epoch, SyncCluster.add_peer, epochViews, checkpointViews, clusterView, twoEpochViews, twoCkptViews, pairView]
                try rfl
                try omega
                try (constructor <;> first | rfl | omega)
            · by_cases hms : commonPrefixLen (a1 :: as1) (a2 :: as2) < as1.length + 1
              · by_cases hm2 : commonPrefixLen (a1 :: as1) (a2 :: as2) < as2.length + 1
                · rcases ck2 with - | c2
                  · simp [hsc, hm0, hms, hm2,
                      stateAfterFirst, matchJobs, scanJobs, findFinish, stepE, stepEFind, bumpPeers, bumpPeers.bumpPeersOfCluster, setA_self, setA_setA, setA_ne, EpochIds.get_checkpoint_epoch, SyncCluster.add_peer, epochViews, checkpointViews, clusterView, twoEpochViews, twoCkptViews, pairView]
                    try rfl
                    try omega
                    try (constructor <;> first | rfl | omega)
                  · simp [hsc, hm0, hms, hm2,
                      stateAfterFirst, matchJobs, scanJobs, findFinish, stepE, stepEFind, bumpPeers, bumpPeers.bumpPeersOfCluster, setA_self, setA_setA, setA_ne, EpochIds.get_checkpoint_epoch, SyncCluster.add_peer, epochViews, checkpointViews, clusterView, twoEpochViews, twoCkptViews, pairView]
                    try rfl
                    try omega
                    try (constructor <;> first | rfl | omega)
                · have hm2eq : commonPrefixLen (a1 :: as1) (a2 :: as2) = as2.length + 1 := by
                    have h := cpl_le_right (a1 :: as1) (a2 :: as2)
                    simp only [List.length_cons] at h
                    omega
                  have htake2 : List.take (as2.length + 1) (a2 :: as2) = a2 :: as2 := by
                    simp
                  have hordA : as2.length < as1.length := by
                    omega
                  rcases ck2 with - | c2
                  · simp [hsc, hm0, hms, hm2, hm2eq, htake2, hordA,
                      stateAfterFirst, matchJobs, scanJobs, findFinish, stepE, stepEFind, bumpPeers, bumpPeers.bumpPeersOfCluster, setA_self, setA_setA, setA_ne, EpochIds.get_checkpoint_epoch, SyncCluster.add_peer, epochViews, checkpointViews, clusterView, twoEpochViews, twoCkptViews, pairView]
                    try rfl
                    try omega
                    try (constructor <;> first | rfl | omega)
                  · simp [hsc, hm0, hms, hm2, hm2eq, htake2, hordA,
                      stateAfterFirst, matchJobs, scanJobs, findFinish, stepE, stepEFind, bumpPeers, bumpPeers.bumpPeersOfCluster, setA_self, setA_setA, setA_ne, EpochIds.get_checkpoint_epoch, SyncCluster.add_peer, epochViews, checkpointViews, clusterView, twoEpochViews, twoCkptViews, pairView]
                    try rfl
                    try omega
                    try (constructor <;> first | rfl | omega)
              · have hmeq : commonPrefixLen (a1 :: as1) (a2 :: as2) = as1.length + 1 := by
                  have h := cpl_le_left (a1 :: as1) (a2 :: as2)
                  simp only [List.length_cons] at h
                  omega
                have htake : List.take (as1.length + 1) (a1 :: as1) = a1 :: as1 := by
                  simp
                by_cases hm2 : commonPrefixLen (a1 :: as1) (a2 :: as2) < as2.length + 1
                · have hordB : as1.length < as2.length := by
                    omega
                  rcases ck2 with - | c2
                  · simp [hsc, hm0, hms, hm2, hmeq, htake, hordB,
                      stateAfterFirst, matchJobs, scanJobs, findFinish, stepE, stepEFind, bumpPeers, bumpPeers.bumpPeersOfCluster, setA_self, setA_setA, setA_ne, EpochIds.get_checkpoint_epoch, SyncCluster.add_peer, epochViews, checkpointViews, clusterView, twoEpochViews, twoCkptViews, pairView]
                    try rfl
                    try omega
                    try (constructor <;> first | rfl | omega)
                  · simp [hsc, hm0, hms, hm2, hmeq, htake, hordB,
                      stateAfterFirst, matchJobs, scanJobs, findFinish, stepE, stepEFind, bumpPeers, bumpPeers.bumpPeersOfCluster, setA_self, setA_setA, setA_ne, EpochIds.get_checkpoint_epoch, SyncCluster.add_peer, epochViews, checkpointViews, clusterView, twoEpochViews, twoCkptViews, pairView]
                    try rfl
                    try omega
                    try (constructor <;> first | rfl | omega)
                · have hm2eq : commonPrefixLen (a1 :: as1) (a2 :: as2) = as2.length + 1 := by
                    have h := cpl_le_right (a1 :: as1) (a2 :: as2)
                    simp only [List.length_cons] at h
                    omega
                  have htake2 : List.take (as2.length + 1) (a2 :: as2) = a2 :: as2 := by
                    simp
                  have hordC : as1.length = as2.length := by
                    omega
                  have hna : ¬ as1.length < as2.length := by
                    omega
                  have hnb : ¬ as2.length < as1.length := by
                    omega
                  rcases ck2 with - | c2
                  · simp [hsc, hm0, hms, hm2, hmeq, htake, hm2eq, htake2, hordC, hna, hnb,
                      stateAfterFirst, matchJobs, scanJobs, findFinish, stepE, stepEFind, bumpPeers, bumpPeers.bumpPeersOfCluster, setA_self, setA_setA, setA_ne, EpochIds.get_checkpoint_epoch, SyncCluster.add_peer, epochViews, checkpointViews, clusterView, twoEpochViews, twoCkptViews, pairView]
                    try rfl
                    try omega
                    try (constructor <;> first | rfl | omega)
                  · simp [hsc, hm0, hms, hm2, hmeq, htake, hm2eq, htake2, hordC, hna, hnb,
                      stateAfterFirst, matchJobs, scanJobs, findFinish, stepE, stepEFind, bumpPeers, bumpPeers.bumpPeersOfCluster, setA_self, setA_setA, setA_ne, EpochIds.get_checkpoint_epoch, SyncCluster.add_peer, epochViews, checkpointViews, clusterView, twoEpochViews, twoCkptViews, pairView]
                    try rfl
                    try omega
                    try (constructor <;> first | rfl | omega)
          · have hsc := stepC_single f (a1 :: as1) (a2 :: as2) p2 p2 2
              (by simp) (by simp)
            by_cases hm0 : commonPrefixLen (a1 :: as1) (a2 :: as2) = 0
            · rcases ck2 with - | c2
              · simp [hsc, hm0,
                  stateAfterFirst, matchJobs, scanJobs, findFinish, stepE, stepEFind, bumpPeers, bumpPeers.bumpPeersOfCluster, setA_self, setA_setA, setA_ne, EpochIds.get_checkpoint_epoch, SyncCluster.add_peer, epochViews, checkpointViews, clusterView, twoEpochViews, twoCkptViews, pairView]
                try rfl
                try omega
                try (constructor <;> first | rfl | omega)
              · by_cases hlen : as1.length = as2.length
                · by_cases hc : c1 = c2
                  · simp [hsc, hm0, hlen, hc,
                      stateAfterFirst, matchJobs, scanJobs, findFinish, stepE, stepEFind, bumpPeers, bumpPeers.bumpPeersOfCluster, setA_self, setA_setA, setA_ne, EpochIds.get_checkpoint_epoch, SyncCluster.add_peer, epochViews, checkpointViews, clusterView, twoEpochViews, twoCkptViews, pairView]
                    try rfl
                    try omega
                    try (constructor <;> first | rfl | omega)
                  · simp [hsc, hm0, hlen, hc,
                      stateAfterFirst, matchJobs, scanJobs, findFinish, stepE, stepEFind, bumpPeers, bumpPeers.bumpPeersOfCluster, setA_self, setA_setA, setA_ne, EpochIds.get_checkpoint_epoch, SyncCluster.add_peer, epochViews, checkpointViews, clusterView, twoEpochViews, twoCkptViews, pairView]
                    try rfl
                    try omega
                    try (constructor <;> first | rfl | omega)
                · simp [hsc, hm0, hlen,
                    stateAfterFirst, matchJobs, scanJobs, findFinish, stepE, stepEFind, bumpPeers, bumpPeers.bumpPeersOfCluster, setA_self, setA_setA, setA_ne, EpochIds.get_checkpoint_epoch, SyncCluster.add_peer, epochViews, checkpointViews, clusterView, twoEpochViews, twoCkptViews, pairView]
                  try rfl
                  try omega
                  try (constructor <;> first | rfl | omega)
            · by_cases hms : commonPrefixLen (a1 :: as1) (a2 :: as2) < as1.length + 1
              · by_cases hm2 : commonPrefixLen (a1 :: as1) (a2 :: as2) < as2.length + 1
                · rcases ck2 with - | c2
                  · simp [hsc, hm0, hms, hm2,
                      stateAfterFirst, matchJobs, scanJobs, findFinish, stepE, stepEFind, bumpPeers, bumpPeers.bumpPeersOfCluster, setA_self, setA_setA, setA_ne, EpochIds.get_checkpoint_epoch, SyncCluster.add_peer, epochViews, checkpointViews, clusterView, twoEpochViews, twoCkptViews, pairView]
                    try rfl
                    try omega
                    try (constructor <;> first | rfl | omega)
                  · by_cases hlen : as1.length = as2.length
                    · by_cases hc : c1 = c2
                      · simp [hsc, hm0, hms, hm2, hlen, hc,
                          stateAfterFirst, matchJobs, scanJobs, findFinish, stepE, stepEFind, bumpPeers, bumpPeers.bumpPeersOfCluster, setA_self, setA_setA, setA_ne, EpochIds.get_checkpoint_epoch, SyncCluster.add_peer, epochViews, checkpointViews, clusterView, twoEpochViews, twoCkptViews, pairView]
                        try rfl
                        try omega
                        try (constructor <;> first | rfl | omega)
                      · simp [hsc, hm0, hms, hm2, hlen, hc,
                          stateAfterFirst, matchJobs, scanJobs, findFinish, stepE, stepEFind, bumpPeers, bumpPeers.bumpPeersOfCluster, setA_self, setA_setA, setA_ne, EpochIds.get_checkpoint_epoch, SyncCluster.add_peer, epochViews, checkpointViews, clusterView, twoEpochViews, twoCkptViews, pairView]
                        try rfl
                        try omega
                        try (constructor <;> first | rfl | omega)
                    · simp [hsc, hm0, hms, hm2, hlen,
                        stateAfterFirst, matchJobs, scanJobs, findFinish, stepE, stepEFind, bumpPeers, bumpPeers.bumpPeersOfCluster, setA_self, setA_setA, setA_ne, EpochIds.get_checkpoint_epoch, SyncCluster.add_peer, epochViews, checkpointViews, clusterView, twoEpochViews, twoCkptViews, pairView]
                      try rfl
                      try omega
                      try (constructor <;> first | rfl | omega)
                · have hm2eq : commonPrefixLen (a1 :: as1) (a2 :: as2) = as2.length + 1 := by
                    have h := cpl_le_right (a1 :: as1) (a2 :: as2)
                    simp only [List.length_cons] at h
                    omega
                  have htake2 : List.take (as2.length + 1) (a2 :: as2) = a2 :: as2 := by
                    simp
                  have hordA : as2.length < as1.length := by
                    omega
                  rcases ck2 with - | c2
                  · simp [hsc, hm0, hms, hm2, hm2eq, htake2, hordA,
                      stateAfterFirst, matchJobs, scanJobs, findFinish, stepE, stepEFind, bumpPeers, bumpPeers.bumpPeersOfCluster, setA_self, setA_setA, setA_ne, EpochIds.get_checkpoint_epoch, SyncCluster.add_peer, epochViews, checkpointViews, clusterView, twoEpochViews, twoCkptViews, pairView]
                    try rfl
                    try omega
                    try (constructor <;> first | rfl | omega)
                  · by_cases hlen : as1.length = as2.length
                    · by_cases hc : c1 = c2
                      · simp [hsc, hm0, hms, hm2, hm2eq, htake2, hordA, hlen, hc,
                          stateAfterFirst, matchJobs, scanJobs, findFinish, stepE, stepEFind, bumpPeers, bumpPeers.bumpPeersOfCluster, setA_self, setA_setA, setA_ne, EpochIds.get_checkpoint_epoch, SyncCluster.add_peer, epochViews, checkpointViews, clusterView, twoEpochViews, twoCkptViews, pairView]
                        try rfl
                        try omega
                        try (constructor <;> first | rfl | omega)
                      · simp [hsc, hm0, hms, hm2, hm2eq, htake2, hordA, hlen, hc,
                          stateAfterFirst, matchJobs, scanJobs, findFinish, stepE, stepEFind, bumpPeers, bumpPeers.bumpPeersOfCluster, setA_self, setA_setA, setA_ne, EpochIds.get_checkpoint_epoch, SyncCluster.add_peer, epochViews, checkpointViews, clusterView, twoEpochViews, twoCkptViews, pairView]
                        try rfl
                        try omega
                        try (constructor <;> first | rfl | omega)
                    · simp [hsc, hm0, hms, hm2, hm2eq, htake2, hordA, hlen,
                        stateAfterFirst, matchJobs, scanJobs, findFinish, stepE, stepEFind, bumpPeers, bumpPeers.bumpPeersOfCluster, setA_self, setA_setA, setA_ne, EpochIds.get_checkpoint_epoch, SyncCluster.add_peer, epochViews, checkpointViews, clusterView, twoEpochViews, twoCkptViews, pairView]
                      try rfl
                      try omega
                      try (constructor <;> first | rfl | omega)
              · have hmeq : commonPrefixLen (a1 :: as1) (a2 :: as2) = as1.length + 1 := by
                  have h := cpl_le_left (a1 :: as1) (a2 :: as2)
                  simp only [List.length_cons] at h
                  omega
                have htake : List.take (as1.length + 1) (a1 :: as1) = a1 :: as1 := by
                  simp
                by_cases hm2 : commonPrefixLen (a1 :: as1) (a2 :: as2) < as2.length + 1
                · have hordB : as1.length < as2.length := by
                    omega
                  rcases ck2 with - | c2
                  · simp [hsc, hm0, hms, hm2, hmeq, htake, hordB,
                      stateAfterFirst, matchJobs, scanJobs, findFinish, stepE, stepEFind, bumpPeers, bumpPeers.bumpPeersOfCluster, setA_self, setA_setA, setA_ne, EpochIds.get_checkpoint_epoch, SyncCluster.add_peer, epochViews, checkpointViews, clusterView, twoEpochViews, twoCkptViews, pairView]
                    try rfl
                    try omega
                    try (constructor <;> first | rfl | omega)
                  · by_cases hlen : as1.length = as2.length
                    · by_cases hc : c1 = c2
                      · simp [hsc, hm0, hms, hm2, hmeq, htake, hordB, hlen, hc,
                          stateAfterFirst, matchJobs, scanJobs, findFinish, stepE, stepEFind, bumpPeers, bumpPeers.bumpPeersOfCluster, setA_self, setA_setA, setA_ne, EpochIds.get_checkpoint_epoch, SyncCluster.add_peer, epochViews, checkpointViews, clusterView, twoEpochViews, twoCkptViews, pairView]
                        try rfl
                        try omega
                        try (constructor <;> first | rfl | omega)
                      · simp [hsc, hm0, hms, hm2, hmeq, htake, hordB, hlen, hc,
                          stateAfterFirst, matchJobs, scanJobs, findFinish, stepE, stepEFind, bumpPeers, bumpPeers.bumpPeersOfCluster, setA_self, setA_setA, setA_ne, EpochIds.get_checkpoint_epoch, SyncCluster.add_peer, epochViews, checkpointViews, clusterView, twoEpochViews, twoCkptViews, pairView]
                        try rfl
                        try omega
                        try (constructor <;> first | rfl | omega)
                    · simp [hsc, hm0, hms, hm2, hmeq, htake, hordB, hlen,
                        stateAfterFirst, matchJobs, scanJobs, findFinish, stepE, stepEFind, bumpPeers, bumpPeers.bumpPeersOfCluster, setA_self, setA_setA, setA_ne, EpochIds.get_checkpoint_epoch, SyncCluster.add_peer, epochViews, checkpointViews, clusterView, twoEpochViews, twoCkptViews, pairView]
                      try rfl
                      try omega
                      try (constructor <;> first | rfl | omega)
                · have hm2eq : commonPrefixLen (a1 :: as1) (a2 :: as2) = as2.length + 1 := by
                    have h := cpl_le_right (a1 :: as1) (a2 :: as2)
                    simp only [List.length_cons] at h
                    omega
                  have htake2 : List.take (as2.length + 1) (a2 :: as2) = a2 :: as2 := by
                    simp
                  have hordC : as1.length = as2.length := by
                    omega
                  have hna : ¬ as1.length < as2.length := by
                    omega
                  have hnb : ¬ as2.length < as1.length := by
                    omega
                  rcases ck2 with - | c2
                  · simp [hsc, hm0, hms, hm2, hmeq, htake, hm2eq, htake2, hordC, hna, hnb,
                      stateAfterFirst, matchJobs, scanJobs, findFinish, stepE, stepEFind, bumpPeers, bumpPeers.bumpPeersOfCluster, setA_self, setA_setA, setA_ne, EpochIds.get_checkpoint_epoch, SyncCluster.add_peer, epochViews, checkpointViews, clusterView, twoEpochViews, twoCkptViews, pairView]
                    try rfl
                    try omega
                    try (constructor <;> first | rfl | omega)
                  · by_cases hlen : as1.length = as2.length
                    · by_cases hc : c1 = c2
                      · simp [hsc, hm0, hms, hm2, hmeq, htake, hm2eq, htake2, hordC, hna, hnb, hlen, hc,
                          stateAfterFirst, matchJobs, scanJobs, findFinish, stepE, stepEFind, bumpPeers, bumpPeers.bumpPeersOfCluster, setA_self, setA_setA, setA_ne, EpochIds.get_checkpoint_epoch, SyncCluster.add_peer, epochViews, checkpointViews, clusterView, twoEpochViews, twoCkptViews, pairView]
                        try rfl
                        try omega
                        try (constructor <;> first | rfl | omega)
                      · simp [hsc, hm0, hms, hm2, hmeq, htake, hm2eq, htake2, hordC, hna, hnb, hlen, hc,
                          stateAfterFirst, matchJobs, scanJobs, findFinish, stepE, stepEFind, bumpPeers, bumpPeers.bumpPeersOfCluster, setA_self, setA_setA, setA_ne, EpochIds.get_checkpoint_epoch, SyncCluster.add_peer, epochViews, checkpointViews, clusterView, twoEpochViews, twoCkptViews, pairView]
                        try rfl
                        try omega
                        try (constructor <;> first | rfl | omega)
                    · simp [hsc, hm0, hms, hm2, hmeq, htake, hm2eq, htake2, hordC, hna, hnb, hlen,
                        stateAfterFirst, matchJobs, scanJobs, findFinish, stepE, stepEFind, bumpPeers, bumpPeers.bumpPeersOfCluster, setA_self, setA_setA, setA_ne, EpochIds.get_checkpoint_epoch, SyncCluster.add_peer, epochViews, checkpointViews, clusterView, twoEpochViews, twoCkptViews, pairView]
                      try rfl
                      try omega
                      try (constructor <;> first | rfl | omega)
        · have hp2 : ¬ p1 = p2 := fun h => hp h.symm
          rcases ck1 with - | c1
          · have hsc := stepC_single f (a1 :: as1) (a2 :: as2) p1 p2 1
              (by simp) (by simp)
            by_cases hm0 : commonPrefixLen (a1 :: as1) (a2 :: as2) = 0
            · rcases ck2 with - | c2
              · simp [hsc, hm0, hp, hp2,
                  stateAfterFirst, matchJobs, scanJobs, findFinish, stepE, stepEFind, bumpPeers, bumpPeers.bumpPeersOfCluster, setA_self, setA_setA, setA_ne, EpochIds.get_checkpoint_epoch, SyncCluster.add_peer, epochViews, checkpointViews, clusterView, twoEpochViews, twoCkptViews, pairView]
                try rfl
                try omega
                try (constructor <;> first | rfl | omega)
              · simp [hsc, hm0, hp, hp2,
                  stateAfterFirst, matchJobs, scanJobs, findFinish, stepE, stepEFind, bumpPeers, bumpPeers.bumpPeersOfCluster, setA_self, setA_setA, setA_ne, EpochIds.get_checkpoint_epoch, SyncCluster.add_peer, epochViews, checkpointViews, clusterView, twoEpochViews, twoCkptViews, pairView]
                try rfl
                try omega
                try (constructor <;> first | rfl | omega)
            · by_cases hms : commonPrefixLen (a1 :: as1) (a2 :: as2) < as1.length + 1
              · by_cases hm2 : commonPrefixLen (a1 :: as1) (a2 :: as2) < as2.length + 1
                · rcases ck2 with - | c2
                  · simp [hsc, hm0, hms, hm2, hp, hp2,
                      stateAfterFirst, matchJobs, scanJobs, findFinish, stepE, stepEFind, bumpPeers, bumpPeers.bumpPeersOfCluster, setA_self, setA_setA, setA_ne, EpochIds.get_checkpoint_epoch, SyncCluster.add_peer, epochViews, checkpointViews, clusterView, twoEpochViews, twoCkptViews, pairView]
                    try rfl
                    try omega
                    try (constructor <;> first | rfl | omega)
                  · simp [hsc, hm0, hms, hm2, hp, hp2,
                      stateAfterFirst, matchJobs, scanJobs, findFinish, stepE, stepEFind, bumpPeers, bumpPeers.bumpPeersOfCluster, setA_self, setA_setA, setA_ne, EpochIds.get_checkpoint_epoch, SyncCluster.add_peer, epochViews, checkpointViews, clusterView, twoEpochViews, twoCkptViews, pairView]
                    try rfl
                    try omega
                    try (constructor <;> first | rfl | omega)
                · have hm2eq : commonPrefixLen (a1 :: as1) (a2 :: as2) = as2.length + 1 := by
                    have h := cpl_le_right (a1 :: as1) (a2 :: as2)
                    simp only [List.length_cons] at h
                    omega
                  have htake2 : List.take (as2.length + 1) (a2 :: as2) = a2 :: as2 := by
                    simp
                  have hordA : as2.length < as1.length := by
                    omega
                  rcases ck2 with - | c2
                  · simp [hsc, hm0, hms, hm2, hm2eq, htake2, hordA, hp, hp2,
                      stateAfterFirst, matchJobs, scanJobs, findFinish, stepE, stepEFind, bumpPeers, bumpPeers.bumpPeersOfCluster, setA_self, setA_setA, setA_ne, EpochIds.get_checkpoint_epoch, SyncCluster.add_peer, epochViews, checkpointViews, clusterView, twoEpochViews, twoCkptViews, pairView]
                    try rfl
                    try omega
                    try (constructor <;> first | rfl | omega)
                  · simp [hsc, hm0, hms, hm2, hm2eq, htake2, hordA, hp, hp2,
                      stateAfterFirst, matchJobs, scanJobs, findFinish, stepE, stepEFind, bumpPeers, bumpPeers.bumpPeersOfCluster, setA_self, setA_setA, setA_ne, EpochIds.get_checkpoint_epoch, SyncCluster.add_peer, epochViews, checkpointViews, clusterView, twoEpochViews, twoCkptViews, pairView]
                    try rfl
                    try omega
                    try (constructor <;> first | rfl | omega)
              · have hmeq : commonPrefixLen (a1 :: as1) (a2 :: as2) = as1.length + 1 := by
                  have h := cpl_le_left (a1 :: as1) (a2 :: as2)
                  simp only [List.length_cons] at h
                  omega
                have htake : List.take (as1.length + 1) (a1 :: as1) = a1 :: as1 := by
                  simp
                by_cases hm2 : commonPrefixLen (a1 :: as1) (a2 :: as2) < as2.length + 1
                · have hordB : as1.length < as2.length := by
                    omega
                  rcases ck2 with - | c2
                  · simp [hsc, hm0, hms, hm2, hmeq, htake, hordB, hp, hp2,
                      stateAfterFirst, matchJobs, scanJobs, findFinish, stepE, stepEFind, bumpPeers, bumpPeers.bumpPeersOfCluster, setA_self, setA_setA, setA_ne, EpochIds.get_checkpoint_epoch, SyncCluster.add_peer, epochViews, checkpointViews, clusterView, twoEpochViews, twoCkptViews, pairView]
                    try rfl
                    try omega
                    try (constructor <;> first | rfl | omega)
                  · simp [hsc, hm0, hms, hm2, hmeq, htake, hordB, hp, hp2,
                      stateAfterFirst, matchJobs, scanJobs, findFinish, stepE, stepEFind, bumpPeers, bumpPeers.bumpPeersOfCluster, setA_self, setA_setA, setA_ne, EpochIds.get_checkpoint_epoch, SyncCluster.add_peer, epochViews, checkpointViews, clusterView, twoEpochViews, twoCkptViews, pairView]
                    try rfl
                    try omega
                    try (constructor <;> first | rfl | omega)
                · have hm2eq : commonPrefixLen (a1 :: as1) (a2 :: as2) = as2.length + 1 := by
                    have h := cpl_le_right (a1 :: as1) (a2 :: as2)
                    simp only [List.length_cons] at h
                    omega
                  have htake2 : List.take (as2.length + 1) (a2 :: as2) = a2 :: as2 := by
                    simp
                  have hordC : as1.length = as2.length := by
                    omega
                  have hna : ¬ as1.length < as2.length := by
                    omega
                  have hnb : ¬ as2.length < as1.length := by
                    omega
                  rcases ck2 with - | c2
                  · simp [hsc, hm0, hms, hm2, hmeq, htake, hm2eq, htake2, hordC, hna, hnb, hp, hp2,
                      stateAfterFirst, matchJobs, scanJobs, findFinish, stepE, stepEFind, bumpPeers, bumpPeers.bumpPeersOfCluster, setA_self, setA_setA, setA_ne, EpochIds.get_checkpoint_epoch, SyncCluster.add_peer, epochViews, checkpointViews, clusterView, twoEpochViews, twoCkptViews, pairView]
                    try rfl
                    try omega
                    try (constructor <;> first | rfl | omega)
                  · simp [hsc, hm0, hms, hm2, hmeq, htake, hm2eq, htake2, hordC, hna, hnb, hp, hp2,
                      stateAfterFirst, matchJobs, scanJobs, findFinish, stepE, stepEFind, bumpPeers, bumpPeers.bumpPeersOfCluster, setA_self, setA_setA, setA_ne, EpochIds.get_checkpoint_epoch, SyncCluster.add_peer, epochViews, checkpointViews, clusterView, twoEpochViews, twoCkptViews, pairView]
                    try rfl
                    try omega
                    try (constructor <;> first | rfl | omega)
          · have hsc := stepC_single f (a1 :: as1) (a2 :: as2) p1 p2 2
              (by simp) (by simp)
            by_cases hm0 : commonPrefixLen (a1 :: as1) (a2 :: as2) = 0
            · rcases ck2 with - | c2
              · simp [hsc, hm0, hp, hp2,
                  stateAfterFirst, matchJobs, scanJobs, findFinish, stepE, stepEFind, bumpPeers, bumpPeers.bumpPeersOfCluster, setA_self, setA_setA, setA_ne, EpochIds.get_checkpoint_epoch, SyncCluster.add_peer, epochViews, checkpointViews, clusterView, twoEpochViews, twoCkptViews, pairView]
                try rfl
                try omega
                try (constructor <;> first | rfl | omega)
              · by_cases hlen : as1.length = as2.length
                · by_cases hc : c1 = c2
                  · simp [hsc, hm0, hp, hp2, hlen, hc,
                      stateAfterFirst, matchJobs, scanJobs, findFinish, stepE, stepEFind, bumpPeers, bumpPeers.bumpPeersOfCluster, setA_self, setA_setA, setA_ne, EpochIds.get_checkpoint_epoch, SyncCluster.add_peer, epochViews, checkpointViews, clusterView, twoEpochViews, twoCkptViews, pairView]
                    try rfl
                    try omega
                    try (constructor <;> first | rfl | omega)
                  · simp [hsc, hm0, hp, hp2, hlen, hc,
                      stateAfterFirst, matchJobs, scanJobs, findFinish, stepE, stepEFind, bumpPeers, bumpPeers.bumpPeersOfCluster, setA_self, setA_setA, setA_ne, EpochIds.get_checkpoint_epoch, SyncCluster.add_peer, epochViews, checkpointViews, clusterView, twoEpochViews, twoCkptViews, pairView]
                    try rfl
                    try omega
                    try (constructor <;> first | rfl | omega)
                · simp [hsc, hm0, hp, hp2, hlen,
                    stateAfterFirst, matchJobs, scanJobs, findFinish, stepE, stepEFind, bumpPeers, bumpPeers.bumpPeersOfCluster, setA_self, setA_setA, setA_ne, EpochIds.get_checkpoint_epoch, SyncCluster.add_peer, epochViews, checkpointViews, clusterView, twoEpochViews, twoCkptViews, pairView]
                  try rfl
                  try omega
                  try (constructor <;> first | rfl | omega)
            · by_cases hms : commonPrefixLen (a1 :: as1) (a2 :: as2) < as1.length + 1
              · by_cases hm2 : commonPrefixLen (a1 :: as1) (a2 :: as2) < as2.length + 1
                · rcases ck2 with - | c2
                  · simp [hsc, hm0, hms, hm2, hp, hp2,
                      stateAfterFirst, matchJobs, scanJobs, findFinish, stepE, stepEFind, bumpPeers, bumpPeers.bumpPeersOfCluster, setA_self, setA_setA, setA_ne, EpochIds.get_checkpoint_epoch, SyncCluster.add_peer, epochViews, checkpointViews, clusterView, twoEpochViews, twoCkptViews, pairView]
                    try rfl
                    try omega
                    try (constructor <;> first | rfl | omega)
                  · by_cases hlen : as1.length = as2.length
                    · by_cases hc : c1 = c2
                      · simp [hsc, hm0, hms, hm2, hp, hp2, hlen, hc,
                          stateAfterFirst, matchJobs, scanJobs, findFinish, stepE, stepEFind, bumpPeers, bumpPeers.bumpPeersOfCluster, setA_self, setA_setA, setA_ne, EpochIds.get_checkpoint_epoch, SyncCluster.add_peer, epochViews, checkpointViews, clusterView, twoEpochViews, twoCkptViews, pairView]
                        try rfl
                        try omega
                        try (constructor <;> first | rfl | omega)
                      · simp [hsc, hm0, hms, hm2, hp, hp2, hlen, hc,
                          stateAfterFirst, matchJobs, scanJobs, findFinish, stepE, stepEFind, bumpPeers, bumpPeers.bumpPeersOfCluster, setA_self, setA_setA, setA_ne, EpochIds.get_checkpoint_epoch, SyncCluster.add_peer, epochViews, checkpointViews, clusterView, twoEpochViews, twoCkptViews, pairView]
                        try rfl
                        try omega
                        try (constructor <;> first | rfl | omega)
                    · simp [hsc, hm0, hms, hm2, hp, hp2, hlen,
                        stateAfterFirst, matchJobs, scanJobs, findFinish, stepE, stepEFind, bumpPeers, bumpPeers.bumpPeersOfCluster, setA_self, setA_setA, setA_ne, EpochIds.get_checkpoint_epoch, SyncCluster.add_peer, epochViews, checkpointViews, clusterView, twoEpochViews, twoCkptViews, pairView]
                      try rfl
                      try omega
                      try (constructor <;> first | rfl | omega)
                · have hm2eq : commonPrefixLen (a1 :: as1) (a2 :: as2) = as2.length + 1 := by
                    have h := cpl_le_right (a1 :: as1) (a2 :: as2)
                    simp only [List.length_cons] at h
                    omega
                  have htake2 : List.take (as2.length + 1) (a2 :: as2) = a2 :: as2 := by
                    simp
                  have hordA : as2.length < as1.length := by
                    omega
                  rcases ck2 with - | c2
                  · simp [hsc, hm0, hms, hm2, hm2eq, htake2, hordA, hp, hp2,
                      stateAfterFirst, matchJobs, scanJobs, findFinish, stepE, stepEFind, bumpPeers, bumpPeers.bumpPeersOfCluster, setA_self, setA_setA, setA_ne, EpochIds.get_checkpoint_epoch, SyncCluster.add_peer, epochViews, checkpointViews, clusterView, twoEpochViews, twoCkptViews, pairView]
                    try rfl
                    try omega
                    try (constructor <;> first | rfl | omega)
                  · by_cases hlen : as1.length = as2.length
                    · by_cases hc : c1 = c2
                      · simp [hsc, hm0, hms, hm2, hm2eq, htake2, hordA, hp, hp2, hlen, hc,
                          stateAfterFirst, matchJobs, scanJobs, findFinish, stepE, stepEFind, bumpPeers, bumpPeers.bumpPeersOfCluster, setA_self, setA_setA, setA_ne, EpochIds.get_checkpoint_epoch, SyncCluster.add_peer, epochViews, checkpointViews, clusterView, twoEpochViews, twoCkptViews, pairView]
                        try rfl
                        try omega
                        try (constructor <;> first | rfl | omega)
                      · simp [hsc, hm0, hms, hm2, hm2eq, htake2, hordA, hp, hp2, hlen, hc,
                          stateAfterFirst, matchJobs, scanJobs, findFinish, stepE, stepEFind, bumpPeers, bumpPeers.bumpPeersOfCluster, setA_self, setA_setA, setA_ne, EpochIds.get_checkpoint_epoch, SyncCluster.add_peer, epochViews, checkpointViews, clusterView, twoEpochViews, twoCkptViews, pairView]
                        try rfl
                        try omega
                        try (constructor <;> first | rfl | omega)
                    · simp [hsc, hm0, hms, hm2, hm2eq, htake2, hordA, hp, hp2, hlen,
                        stateAfterFirst, matchJobs, scanJobs, findFinish, stepE, stepEFind, bumpPeers, bumpPeers.bumpPeersOfCluster, setA_self, setA_setA, setA_ne, EpochIds.get_checkpoint_epoch, SyncCluster.add_peer, epochViews, checkpointViews, clusterView, twoEpochViews, twoCkptViews, pairView]
                      try rfl
                      try omega
                      try (constructor <;> first | rfl | omega)
              · have hmeq : commonPrefixLen (a1 :: as1) (a2 :: as2) = as1.length + 1 := by
                  have h := cpl_le_left (a1 :: as1) (a2 :: as2)
                  simp only [List.length_cons] at h
                  omega
                have htake : List.take (as1.length + 1) (a1 :: as1) = a1 :: as1 := by
                  simp
                by_cases hm2 : commonPrefixLen (a1 :: as1) (a2 :: as2) < as2.length + 1
                · have hordB : as1.length < as2.length := by
                    omega
                  rcases ck2 with - | c2
                  · simp [hsc, hm0, hms, hm2, hmeq, htake, hordB, hp, hp2,
                      stateAfterFirst, matchJobs, scanJobs, findFinish, stepE, stepEFind, bumpPeers, bumpPeers.bumpPeersOfCluster, setA_self, setA_setA, setA_ne, EpochIds.get_checkpoint_epoch, SyncCluster.add_peer, epochViews, checkpointViews, clusterView, twoEpochViews, twoCkptViews, pairView]
                    try rfl
                    try omega
                    try (constructor <;> first | rfl | omega)
                  · by_cases hlen : as1.length = as2.length
                    · by_cases hc : c1 = c2
                      · simp [hsc, hm0, hms, hm2, hmeq, htake, hordB, hp, hp2, hlen, hc,
                          stateAfterFirst, matchJobs, scanJobs, findFinish, stepE, stepEFind, bumpPeers, bumpPeers.bumpPeersOfCluster, setA_self, setA_setA, setA_ne, EpochIds.get_checkpoint_epoch, SyncCluster.add_peer, epochViews, checkpointViews, clusterView, twoEpochViews, twoCkptViews, pairView]
                        try rfl
                        try omega
                        try (constructor <;> first | rfl | omega)
                      · simp [hsc, hm0, hms, hm2, hmeq, htake, hordB, hp, hp2, hlen, hc,
                          stateAfterFirst, matchJobs, scanJobs, findFinish, stepE, stepEFind, bumpPeers, bumpPeers.bumpPeersOfCluster, setA_self, setA_setA, setA_ne, EpochIds.get_checkpoint_epoch, SyncCluster.add_peer, epochViews, checkpointViews, clusterView, twoEpochViews, twoCkptViews, pairView]
                        try rfl
                        try omega
                        try (constructor <;> first | rfl | omega)
                    · simp [hsc, hm0, hms, hm2, hmeq, htake, hordB, hp, hp2, hlen,
                        stateAfterFirst, matchJobs, scanJobs, findFinish, stepE, stepEFind, bumpPeers, bumpPeers.bumpPeersOfCluster, setA_self, setA_setA, setA_ne, EpochIds.get_checkpoint_epoch, SyncCluster.add_peer, epochViews, checkpointViews, clusterView, twoEpochViews, twoCkptViews, pairView]
                      try rfl
                      try omega
                      try (constructor <;> first | rfl | omega)
                · have hm2eq : commonPrefixLen (a1 :: as1) (a2 :: as2) = as2.length + 1 := by
                    have h := cpl_le_right (a1 :: as1) (a2 :: as2)
                    simp only [List.length_cons] at h
                    omega
                  have htake2 : List.take (as2.length + 1) (a2 :: as2) = a2 :: as2 := by
                    simp
                  have hordC : as1.length = as2.length := by
                    omega
                  have hna : ¬ as1.length < as2.length := by
                    omega
                  have hnb : ¬ as2.length < as1.length := by
                    omega
                  rcases ck2 with - | c2
                  · simp [hsc, hm0, hms, hm2, hmeq, htake, hm2eq, htake2, hordC, hna, hnb, hp, hp2,
                      stateAfterFirst, matchJobs, scanJobs, findFinish, stepE, stepEFind, bumpPeers, bumpPeers.bumpPeersOfCluster, setA_self, setA_setA, setA_ne, EpochIds.get_checkpoint_epoch, SyncCluster.add_peer, epochViews, checkpointViews, clusterView, twoEpochViews, twoCkptViews, pairView]
                    try rfl
                    try omega
                    try (constructor <;> first | rfl | omega)
                  · by_cases hlen : as1.length = as2.length
                    · by_cases hc : c1 = c2
                      · simp [hsc, hm0, hms, hm2, hmeq, htake, hm2eq, htake2, hordC, hna, hnb, hp, hp2, hlen, hc,
                          stateAfterFirst, matchJobs, scanJobs, findFinish, stepE, stepEFind, bumpPeers, bumpPeers.bumpPeersOfCluster, setA_self, setA_setA, setA_ne, EpochIds.get_checkpoint_epoch, SyncCluster.add_peer, epochViews, checkpointViews, clusterView, twoEpochViews, twoCkptViews, pairView]
                        try rfl
                        try omega
                        try (constructor <;> first | rfl | omega)
                      · simp [hsc, hm0, hms, hm2, hmeq, htake, hm2eq, htake2, hordC, hna, hnb, hp, hp2, hlen, hc,
                          stateAfterFirst, matchJobs, scanJobs, findFinish, stepE, stepEFind, bumpPeers, bumpPeers.bumpPeersOfCluster, setA_self, setA_setA, setA_ne, EpochIds.get_checkpoint_epoch, SyncCluster.add_peer, epochViews, checkpointViews, clusterView, twoEpochViews, twoCkptViews, pairView]
                        try rfl
                        try omega
                        try (constructor <;> first | rfl | omega)
                    · simp [hsc, hm0, hms, hm2, hmeq, htake, hm2eq, htake2, hordC, hna, hnb, hp, hp2, hlen,
                        stateAfterFirst, matchJobs, scanJobs, findFinish, stepE, stepEFind, bumpPeers, bumpPeers.bumpPeersOfCluster, setA_self, setA_setA, setA_ne, EpochIds.get_checkpoint_epoch, SyncCluster.add_peer, epochViews, checkpointViews, clusterView, twoEpochViews, twoCkptViews, pairView]
                      try rfl
                      try omega
                      try (constructor <;> first | rfl | omega)

theorem stateAfterFirst_views (f : Nat) (ids : List Hash) (ck : Option Hash)
    (p : PeerId) :
    epochViews (stateAfterFirst f ids ck p) =
      (if ids = [] then 0 else {(f, ids, [p])}) ∧
    checkpointViews (stateAfterFirst f ids ck p) =
      (match ck with
       | none => 0
       | some c => {(f + ids.length, [c], [p])}) := by
  constructor
  · by_cases h : ids = [] <;>
      simp [stateAfterFirst, epochViews, checkpointViews, clusterView, h]
  · cases ck <;> by_cases h : ids = [] <;>
      simp [stateAfterFirst, epochViews, checkpointViews, clusterView, h]

set_option maxHeartbeats 1000000 in
theorem runPair_views (our_id : Hash) (our_epoch f : Nat)
    (ids1 ids2 : List Hash) (ck1 ck2 : Option Hash) (p1 p2 : PeerId)
    (hf : our_epoch < f) :
    (runPair our_id our_epoch
      { locator_found := true, ids := ids1, checkpoint_id := ck1
        first_epoch_number := f, sender := p1 }
      { locator_found := true, ids := ids2, checkpoint_id := ck2
        first_epoch_number := f, sender := p2 }).map
      (fun x => (epochViews x.1, checkpointViews x.1)) =
    some (twoEpochViews f ids1 ids2 p1 p2,
          twoCkptViews f ids1.length ids2.length ck1 ck2 p1 p2) := by
  have hrun1 := run_init_eq our_id our_epoch f ids1 ck1 p1 hf
  by_cases h1 : ids1 = [] ∧ ck1 = none
  · obtain ⟨rfl, rfl⟩ := h1
    rw [if_pos ⟨rfl, rfl⟩] at hrun1
    have hrun2 := run_init_eq our_id our_epoch f ids2 ck2 p2 hf
    by_cases h2 : ids2 = [] ∧ ck2 = none
    · obtain ⟨rfl, rfl⟩ := h2
      rw [if_pos ⟨rfl, rfl⟩] at hrun2
      simp only [runPair, hrun1, hrun2, Option.map_some]
      simp [epochViews, checkpointViews, SyncState.init, twoEpochViews,
        twoCkptViews]
    · rw [if_neg h2] at hrun2
      have hv := stateAfterFirst_views f ids2 ck2 p2
      simp only [runPair, hrun1, hrun2, Option.map_some]
      rcases ids2 with - | ⟨a2, as2⟩
      · rcases ck2 with - | c2
        · exact absurd ⟨rfl, rfl⟩ h2
        · simp [hv.1, hv.2, twoEpochViews, twoCkptViews]
      · cases ck2 <;> simp [hv.1, hv.2, twoEpochViews, twoCkptViews]
  · rw [if_neg h1] at hrun1
    have hsecond := run_second_views our_id our_epoch f ids1 ids2 ck1 ck2
      p1 p2 hf h1
    simp only [runPair, hrun1]
    exact hsecond

/-- C6, amended. Order symmetry holds for inputs with equal first
epoch number strictly beyond our election epoch: feeding E1 then E2 to
the fresh empty engine yields the same multiset of cluster views
(first epoch number, epoch ids, sorted peer set), per pool, as feeding
E2 then E1. -/
theorem claim6_order_symmetry_same_offset (our_id : Hash) (our_epoch f : Nat)
    (ids1 ids2 : List Hash) (ck1 ck2 : Option Hash) (p1 p2 : PeerId)
    (hf : our_epoch < f) :
    (runPair our_id our_epoch
      { locator_found := true, ids := ids1, checkpoint_id := ck1
        first_epoch_number := f, sender := p1 }
      { locator_found := true, ids := ids2, checkpoint_id := ck2
        first_epoch_number := f, sender := p2 }).map
      (fun x => (epochViews x.1, checkpointViews x.1)) =
    (runPair our_id our_epoch
      { locator_found := true, ids := ids2, checkpoint_id := ck2
        first_epoch_number := f, sender := p2 }
      { locator_found := true, ids := ids1, checkpoint_id := ck1
        first_epoch_number := f, sender := p1 }).map
      (fun x => (epochViews x.1, checkpointViews x.1)) := by
  rw [runPair_views our_id our_epoch f ids1 ids2 ck1 ck2 p1 p2 hf,
    runPair_views our_id our_epoch f ids2 ids1 ck2 ck1 p2 p1 hf,
    twoEpochViews_comm, twoCkptViews_comm]

/-- Witness for the amended C6 at a concrete input: epochs 1..2 from
peer 1 with a checkpoint, against a diverging list from peer 2 at the
same first epoch 1, our epoch 0. -/
theorem claim6_order_symmetry_same_offset_witness :
    (runPair (9, 9) 0
      { locator_found := true, ids := [(1, 0), (2, 0)]
        checkpoint_id := some (3, 0), first_epoch_number := 1, sender := 1 }
      { locator_found := true, ids := [(1, 0), (2, 1)]
        checkpoint_id := none, first_epoch_number := 1, sender := 2 }).map
      (fun x => (epochViews x.1, checkpointViews x.1)) =
    (runPair (9, 9) 0
      { locator_found := true, ids := [(1, 0), (2, 1)]
        checkpoint_id := none, first_epoch_number := 1, sender := 2 }
      { locator_found := true, ids := [(1, 0), (2, 0)]
        checkpoint_id := some (3, 0), first_epoch_number := 1, sender := 1 }).map
      (fun x => (epochViews x.1, checkpointViews x.1)) :=
  claim6_order_symmetry_same_offset (9, 9) 0 1 [(1, 0), (2, 0)]
    [(1, 0), (2, 1)] (some (3, 0)) none 1 2 (by decide)

theorem memCount_nil (p : PeerId) : memCount p [] = 0 := rfl

theorem memCount_cons (p : PeerId) (c : SyncCluster) (cs : List SyncCluster) :
    memCount p (c :: cs) = memCount p cs + (if p ∈ c.peers then 1 else 0) := by
  simp [memCount, List.countP_cons]

theorem memCount_append (p : PeerId) (l1 l2 : List SyncCluster) :
    memCount p (l1 ++ l2) = memCount p l1 + memCount p l2 := by
  simp [memCount, List.countP_append]

theorem memCount_eq_zero (p : PeerId) (cs : List SyncCluster)
    (h : ∀ c ∈ cs, p ∉ c.peers) : memCount p cs = 0 := by
  rw [memCount, List.countP_eq_zero]
  intro c hc
  simpa using h c hc

theorem memCount_pos (p : PeerId) (cs : List SyncCluster) (c : SyncCluster)
    (hc : c ∈ cs) (hp : p ∈ c.peers) : 0 < memCount p cs := by
  rw [memCount, List.countP_pos]
  exact ⟨c, hc, by simpa using hp⟩

theorem memCount_perm (p : PeerId) (l1 l2 : List SyncCluster)
    (h : l1.Perm l2) : memCount p l1 = memCount p l2 :=
  h.countP_eq _

theorem add_peer_mem (c : SyncCluster) (q p : PeerId) :
    p ∈ (c.add_peer q).peers ↔ p ∈ c.peers ∨ p = q := by
  by_cases hq : q ∈ c.peers
  · simp only [SyncCluster.add_peer, hq, if_pos]
    constructor
    · exact Or.inl
    · rintro (h | rfl)
      · exact h
      · exact hq
  · simp [SyncCluster.add_peer, hq]

theorem add_peer_nodup (c : SyncCluster) (q : PeerId) (h : c.peers.Nodup) :
    (c.add_peer q).peers.Nodup := by
  by_cases hq : q ∈ c.peers <;>
    simp [SyncCluster.add_peer, hq, h, List.nodup_append, List.disjoint_singleton]

theorem add_peer_fin (c : SyncCluster) (q : PeerId) :
    (c.add_peer q).num_epochs_finished = c.num_epochs_finished := by
  by_cases hq : q ∈ c.peers <;> simp [SyncCluster.add_peer, hq]

theorem add_peer_first (c : SyncCluster) (q : PeerId) :
    (c.add_peer q).first_epoch_number = c.first_epoch_number := by
  by_cases hq : q ∈ c.peers <;> simp [SyncCluster.add_peer, hq]

theorem add_peer_ids (c : SyncCluster) (q : PeerId) :
    (c.add_peer q).epoch_ids = c.epoch_ids := by
  by_cases hq : q ∈ c.peers <;> simp [SyncCluster.add_peer, hq]

theorem headToList (l : List SyncCluster) (h : l.length ≤ 1) :
    l.head?.toList = l := by
  match l with
  | [] => rfl
  | [x] => rfl
  | x :: y :: t => simp at h

theorem init_inv : Inv SyncState.init := by
  constructor
  · intro p
    rfl
  · intro c hc
    simp [liveClusters, SyncState.init] at hc

theorem stepEFind_spec (ckh : Hash) (ce : Nat) (sender : PeerId) :
    ∀ (l l2 : List SyncCluster), stepEFind ckh ce sender l = some l2 →
    (∀ p, p ≠ sender → memCount p l2 = memCount p l) ∧
    ((∀ c ∈ l, sender ∉ c.peers) →
      memCount sender l2 = memCount sender l + 1) ∧
    ((∀ c ∈ l, c.peers.Nodup ∧ c.num_epochs_finished = 0) →
      ∀ c ∈ l2, c.peers.Nodup ∧ c.num_epochs_finished = 0) := by
  intro l
  induction l with
  | nil => intro l2 h; simp [stepEFind] at h
  | cons c cs ih =>
    intro l2 h
    by_cases hm : c.first_epoch_number = ce ∧ c.epoch_ids.length = 1 ∧
        c.epoch_ids.head? = some ckh
    · rw [stepEFind, if_pos hm] at h
      obtain rfl : c.add_peer sender :: cs = l2 := Option.some_inj.mp h
      refine ⟨?_, ?_, ?_⟩
      · intro p hp
        rw [memCount_cons, memCount_cons]
        have : p ∈ (c.add_peer sender).peers ↔ p ∈ c.peers := by
          rw [add_peer_mem]
          exact ⟨fun h2 => h2.elim id (fun h3 => absurd h3 hp), Or.inl⟩
        rw [if_congr this rfl rfl]
      · intro hno
        rw [memCount_cons, memCount_cons]
        have h1 : sender ∈ (c.add_peer sender).peers := by
          rw [add_peer_mem]; exact Or.inr rfl
        have h2 : sender ∉ c.peers := hno c (by simp)
        simp [h1, h2]
      · intro hnd d hd
        rcases List.mem_cons.mp hd with rfl | hd2
        · have := hnd c (by simp)
          exact ⟨add_peer_nodup c sender this.1,
            (add_peer_fin c sender).trans this.2⟩
        · exact hnd d (by simp [hd2])
    · rw [stepEFind, if_neg hm] at h
      obtain ⟨t, ht, rfl⟩ : ∃ t, stepEFind ckh ce sender cs = some t ∧ c :: t = l2 := by
        rcases h2 : stepEFind ckh ce sender cs with - | t
        · rw [h2] at h; simp at h
        · rw [h2] at h
          exact ⟨t, rfl, Option.some_inj.mp h⟩
      obtain ⟨ih1, ih2, ih3⟩ := ih t ht
      refine ⟨?_, ?_, ?_⟩
      · intro p hp
        rw [memCount_cons, memCount_cons, ih1 p hp]
      · intro hno
        rw [memCount_cons, memCount_cons,
          ih2 (fun d hd => hno d (by simp [hd]))]
        have h2 : sender ∉ c.peers := hno c (by simp)
        simp [h2]
      · intro hnd d hd
        rcases List.mem_cons.mp hd with rfl | hd2
        · exact hnd d (by simp)
        · exact ih3 (fun x hx => hnd x (by simp [hx])) d hd2

theorem stepE_spec (ck : Option Hash) (ce : Nat) (sender : PeerId)
    (ckpts : List SyncCluster) (active : Option SyncCluster) (acc : StepCAcc) :
    (stepE ck ce sender ckpts active acc).2.2.new_clusters = acc.new_clusters ∧
    (∀ p, p ≠ sender →
      memCount p (stepE ck ce sender ckpts active acc).1 +
        memCount p (stepE ck ce sender ckpts active acc).2.1.toList =
      memCount p ckpts + memCount p active.toList) ∧
    ((∀ c ∈ ckpts, sender ∉ c.peers) →
      (∀ c ∈ active.toList,
        c.first_epoch_number = ce ∧ c.epoch_ids.length = 1 →
          sender ∉ c.peers) →
      memCount sender (stepE ck ce sender ckpts active acc).1 +
        memCount sender (stepE ck ce sender ckpts active acc).2.1.toList +
        acc.num_clusters =
      memCount sender ckpts + memCount sender active.toList +
        (stepE ck ce sender ckpts active acc).2.2.num_clusters) ∧
    ((∀ c ∈ ckpts, c.peers.Nodup ∧ c.num_epochs_finished = 0) →
      (∀ c ∈ active.toList, c.peers.Nodup ∧ c.num_epochs_finished = 0) →
      (∀ c ∈ (stepE ck ce sender ckpts active acc).1,
        c.peers.Nodup ∧ c.num_epochs_finished = 0) ∧
      (∀ c ∈ (stepE ck ce sender ckpts active acc).2.1.toList,
        c.peers.Nodup ∧ c.num_epochs_finished = 0)) ∧
    (ck = none → stepE ck ce sender ckpts active acc = (ckpts, active, acc)) ∧
    (ck.isSome →
      acc.num_clusters <
        (stepE ck ce sender ckpts active acc).2.2.num_clusters) := by
  match ck with
  | none =>
    refine ⟨rfl, fun p hp => rfl, ?_, fun h1 h2 => ⟨h1, h2⟩, fun _ => rfl,
      fun h => by simp at h⟩
    intro h1 h2
    show memCount sender ckpts + memCount sender active.toList +
      acc.num_clusters =
      memCount sender ckpts + memCount sender active.toList + acc.num_clusters
    rfl
  | some ckh =>
    rcases hfind : stepEFind ckh ce sender ckpts with - | ckpts2
    · match active with
      | some a =>
        by_cases hm : a.first_epoch_number = ce ∧ a.epoch_ids.length = 1 ∧
            a.epoch_ids.head? = some ckh
        · refine ⟨?_, ?_, ?_, ?_, by rintro ⟨⟩, ?_⟩
          · simp [stepE, hfind, hm]
          · intro p hp
            simp only [stepE, hfind, hm, and_self, if_pos, Option.toList_some]
            rw [memCount_cons, memCount_cons]
            have : p ∈ (a.add_peer sender).peers ↔ p ∈ a.peers := by
              rw [add_peer_mem]
              exact ⟨fun h2 => h2.elim id (fun h3 => absurd h3 hp), Or.inl⟩
            rw [if_congr this rfl rfl]
          · intro h1 h2
            simp only [stepE, hfind, hm, and_self, if_pos, Option.toList_some]
            have hs1 : sender ∈ (a.add_peer sender).peers := by
              rw [add_peer_mem]; exact Or.inr rfl
            have hs2 : sender ∉ a.peers := h2 a (by simp) ⟨hm.1, hm.2.1⟩
            rw [memCount_cons, memCount_nil, memCount_cons, memCount_nil]
            simp [hs1, hs2]
            omega
          · intro h1 h2
            simp only [stepE, hfind, hm, and_self, if_pos, Option.toList_some]
            refine ⟨h1, ?_⟩
            intro d hd
            rcases List.mem_cons.mp hd with rfl | hd2
            · have := h2 a (by simp)
              exact ⟨add_peer_nodup a sender this.1,
                (add_peer_fin a sender).trans this.2⟩
            · simp at hd2
          · intro _
            simp only [stepE, hfind, hm, and_self, if_pos]
            omega
        · refine ⟨?_, ?_, ?_, ?_, by rintro ⟨⟩, ?_⟩
          · simp [stepE, hfind, hm]
          · intro p hp
            simp only [stepE, hfind, hm, if_neg, if_false, Option.toList_some]
            rw [memCount_append, memCount_cons, memCount_nil]
            simp [hp]
          · intro h1 h2
            simp only [stepE, hfind, hm, if_neg, if_false, Option.toList_some]
            rw [memCount_append, memCount_cons, memCount_nil]
            simp
            omega
          · intro h1 h2
            simp only [stepE, hfind, hm, if_neg, if_false, Option.toList_some]
            refine ⟨?_, h2⟩
            intro d hd
            rcases List.mem_append.mp hd with hd2 | hd2
            · exact h1 d hd2
            · rcases List.mem_cons.mp hd2 with rfl | hd3
              · exact ⟨by simp, rfl⟩
              · simp at hd3
          · intro _
            simp only [stepE, hfind, hm, if_neg, if_false]
            omega
      | none =>
        refine ⟨?_, ?_, ?_, ?_, by rintro ⟨⟩, ?_⟩
        · simp [stepE, hfind]
        · intro p hp
          simp only [stepE, hfind, Option.toList_none]
          rw [memCount_append, memCount_cons, memCount_nil]
          simp [hp]
        · intro h1 h2
          simp only [stepE, hfind, Option.toList_none]
          rw [memCount_append, memCount_cons, memCount_nil]
          simp
          omega
        · intro h1 h2
          simp only [stepE, hfind, Option.toList_none]
          refine ⟨?_, by simp⟩
          intro d hd
          rcases List.mem_append.mp hd with hd2 | hd2
          · exact h1 d hd2
          · rcases List.mem_cons.mp hd2 with rfl | hd3
            · exact ⟨by simp, rfl⟩
            · simp at hd3
        · intro _
          simp only [stepE, hfind]
          omega
    · obtain ⟨hf1, hf2, hf3⟩ := stepEFind_spec ckh ce sender ckpts ckpts2 hfind
      refine ⟨?_, ?_, ?_, ?_, by rintro ⟨⟩, ?_⟩
      · simp [stepE, hfind]
      · intro p hp
        simp only [stepE, hfind]
        rw [hf1 p hp]
      · intro h1 h2
        simp only [stepE, hfind]
        rw [hf2 h1]
        omega
      · intro h1 h2
        simp only [stepE, hfind]
        exact ⟨hf3 h1, h2⟩
      · intro _
        simp only [stepE, hfind]
        omega

theorem bumpPeersOfCluster_spec (ps : List PeerId) :
    ∀ m : PeerId → Option Nat, ps.Nodup →
    (∀ p ∈ ps, (m p).isSome) →
    ∃ m', bumpPeers.bumpPeersOfCluster m ps = some m' ∧
      ∀ p, m' p = if p ∈ ps then (m p).map (fun v => v + 1) else m p := by
  induction ps with
  | nil =>
    intro m _ _
    exact ⟨m, rfl, fun p => by simp⟩
  | cons q ps ih =>
    intro m hnd hdom
    obtain ⟨v, hv⟩ := Option.isSome_iff_exists.mp (hdom q (by simp))
    have hqps : q ∉ ps := (List.nodup_cons.mp hnd).1
    obtain ⟨m', hrun, hm'⟩ := ih (setA m q (v + 1)) (List.nodup_cons.mp hnd).2
      (fun p hp => by
        rw [setA_eval]
        by_cases h : p = q
        · simp [h]
        · simp only [h, if_false]
          exact hdom p (by simp [hp]))
    refine ⟨m', ?_, ?_⟩
    · simp only [bumpPeers.bumpPeersOfCluster, hv]
      exact hrun
    · intro p
      rw [hm' p]
      by_cases hp : p = q
      · subst hp
        simp [hqps, setA_eval, hv]
      · by_cases hps : p ∈ ps
        · simp [hps, hp, setA_eval]
        · simp [hps, hp, setA_eval]

theorem bumpPeers_spec (cs : List SyncCluster) :
    ∀ m : PeerId → Option Nat,
    (∀ c ∈ cs, c.peers.Nodup) →
    (∀ c ∈ cs, ∀ p ∈ c.peers, (m p).isSome) →
    ∃ m', bumpPeers m cs = some m' ∧
      ∀ p, m' p = (m p).map (fun v => v + memCount p cs) := by
  induction cs with
  | nil =>
    intro m _ _
    refine ⟨m, rfl, fun p => ?_⟩
    rw [memCount_nil]
    rcases m p with - | v <;> simp
  | cons c cs ih =>
    intro m hnd hdom
    obtain ⟨m1, hrun1, hm1⟩ := bumpPeersOfCluster_spec c.peers m
      (hnd c (by simp)) (fun p hp => hdom c (by simp) p hp)
    obtain ⟨m', hrun, hm'⟩ := ih m1 (fun d hd => hnd d (by simp [hd]))
      (fun d hd p hp => by
        rw [hm1 p]
        by_cases h : p ∈ c.peers
        · obtain ⟨v, hv⟩ := Option.isSome_iff_exists.mp (hdom c (by simp) p h)
          simp [h, hv]
        · simp only [h, if_false]
          exact hdom d (by simp [hd]) p hp)
    refine ⟨m', ?_, ?_⟩
    · simp only [bumpPeers, hrun1]
      exact hrun
    · intro p
      rw [hm' p, hm1 p, memCount_cons]
      by_cases h : p ∈ c.peers
      · simp only [h, if_pos]
        rcases m p with - | v
        · simp
        · simp
          omega
      · simp [h]

theorem stepC_cons_skip (first : Nat) (ids : List Hash) (sender : PeerId)
    (c : SyncCluster) (cs : List SyncCluster) (acc : StepCAcc)
    (hov : ¬ (c.first_epoch_number ≤ first ∧
      first < c.first_epoch_number + c.epoch_ids.length)) :
    stepC first ids sender (c :: cs) acc =
      (c :: (stepC first ids sender cs acc).1,
       (stepC first ids sender cs acc).2) := by
  simp only [stepC, if_neg hov]

theorem stepC_cons_nomatch (first : Nat) (ids : List Hash) (sender : PeerId)
    (c : SyncCluster) (cs : List SyncCluster) (acc : StepCAcc) (mu : Nat)
    (hmu : (((c.epoch_ids.drop (first - c.first_epoch_number)).take
        (min (c.epoch_ids.length - (first - c.first_epoch_number))
             (ids.length - acc.id_index))).zip
       ((ids.drop acc.id_index).take
        (min (c.epoch_ids.length - (first - c.first_epoch_number))
             (ids.length - acc.id_index)))).findIdx
        (fun ab => ab.1 ≠ ab.2) = mu)
    (hov : c.first_epoch_number ≤ first ∧
      first < c.first_epoch_number + c.epoch_ids.length)
    (hm0 : mu = 0) :
    stepC first ids sender (c :: cs) acc =
      (c :: (stepC first ids sender cs acc).1,
       (stepC first ids sender cs acc).2) := by
  have hng : ¬ ((((c.epoch_ids.drop (first - c.first_epoch_number)).take
        (min (c.epoch_ids.length - (first - c.first_epoch_number))
             (ids.length - acc.id_index))).zip
       ((ids.drop acc.id_index).take
        (min (c.epoch_ids.length - (first - c.first_epoch_number))
             (ids.length - acc.id_index)))).findIdx
        (fun ab => ab.1 ≠ ab.2) > 0) := by
    rw [hmu]; omega
  simp only [stepC, if_pos hov, if_neg hng]

theorem stepC_cons_split_brk (first : Nat) (ids : List Hash) (sender : PeerId)
    (c : SyncCluster) (cs : List SyncCluster) (acc : StepCAcc) (mu : Nat)
    (hmu : (((c.epoch_ids.drop (first - c.first_epoch_number)).take
        (min (c.epoch_ids.length - (first - c.first_epoch_number))
             (ids.length - acc.id_index))).zip
       ((ids.drop acc.id_index).take
        (min (c.epoch_ids.length - (first - c.first_epoch_number))
             (ids.length - acc.id_index)))).findIdx
        (fun ab => ab.1 ≠ ab.2) = mu)
    (hov : c.first_epoch_number ≤ first ∧
      first < c.first_epoch_number + c.epoch_ids.length)
    (hmpos : 0 < mu)
    (hms : mu < c.epoch_ids.length - (first - c.first_epoch_number))
    (hfin : c.num_epochs_finished = 0)
    (hbrk : ids.length ≤ acc.id_index + mu) :
    stepC first ids sender (c :: cs) acc =
      (((c.split_off (first - c.first_epoch_number + mu) acc.next_id).1.add_peer
          sender) :: cs,
       { id_index := acc.id_index + mu
         new_clusters := acc.new_clusters ++
           [(c.split_off (first - c.first_epoch_number + mu) acc.next_id).2]
         num_clusters := acc.num_clusters + 1
         next_id := acc.next_id + 1 }) := by
  have hnfin : ¬ c.num_epochs_finished >
      first - c.first_epoch_number + mu := by omega
  simp only [stepC, hmu, if_pos hov, if_pos hmpos, if_pos hms, if_neg hnfin,
    ge_iff_le, if_pos hbrk]

theorem stepC_cons_split_go (first : Nat) (ids : List Hash) (sender : PeerId)
    (c : SyncCluster) (cs : List SyncCluster) (acc : StepCAcc) (mu : Nat)
    (hmu : (((c.epoch_ids.drop (first - c.first_epoch_number)).take
        (min (c.epoch_ids.length - (first - c.first_epoch_number))
             (ids.length - acc.id_index))).zip
       ((ids.drop acc.id_index).take
        (min (c.epoch_ids.length - (first - c.first_epoch_number))
             (ids.length - acc.id_index)))).findIdx
        (fun ab => ab.1 ≠ ab.2) = mu)
    (hov : c.first_epoch_number ≤ first ∧
      first < c.first_epoch_number + c.epoch_ids.length)
    (hmpos : 0 < mu)
    (hms : mu < c.epoch_ids.length - (first - c.first_epoch_number))
    (hfin : c.num_epochs_finished = 0)
    (hbrk : ¬ ids.length ≤ acc.id_index + mu) :
    stepC first ids sender (c :: cs) acc =
      (((c.split_off (first - c.first_epoch_number + mu) acc.next_id).1.add_peer
          sender) ::
         (stepC first ids sender cs
           { id_index := acc.id_index + mu
             new_clusters := acc.new_clusters ++
               [(c.split_off (first - c.first_epoch_number + mu) acc.next_id).2]
             num_clusters := acc.num_clusters + 1
             next_id := acc.next_id + 1 }).1,
       (stepC first ids sender cs
         { id_index := acc.id_index + mu
           new_clusters := acc.new_clusters ++
             [(c.split_off (first - c.first_epoch_number + mu) acc.next_id).2]
           num_clusters := acc.num_clusters + 1
           next_id := acc.next_id + 1 }).2) := by
  have hnfin : ¬ c.num_epochs_finished >
      first - c.first_epoch_number + mu := by omega
  simp only [stepC, hmu, if_pos hov, if_pos hmpos, if_pos hms, if_neg hnfin,
    ge_iff_le, if_neg hbrk]

theorem stepC_cons_full_brk (first : Nat) (ids : List Hash) (sender : PeerId)
    (c : SyncCluster) (cs : List SyncCluster) (acc : StepCAcc) (mu : Nat)
    (hmu : (((c.epoch_ids.drop (first - c.first_epoch_number)).take
        (min (c.epoch_ids.length - (first - c.first_epoch_number))
             (ids.length - acc.id_index))).zip
       ((ids.drop acc.id_index).take
        (min (c.epoch_ids.length - (first - c.first_epoch_number))
             (ids.length - acc.id_index)))).findIdx
        (fun ab => ab.1 ≠ ab.2) = mu)
    (hov : c.first_epoch_number ≤ first ∧
      first < c.first_epoch_number + c.epoch_ids.length)
    (hmpos : 0 < mu)
    (hms : ¬ mu < c.epoch_ids.length - (first - c.first_epoch_number))
    (hbrk : ids.length ≤ acc.id_index + mu) :
    stepC first ids sender (c :: cs) acc =
      (c.add_peer sender :: cs,
       { id_index := acc.id_index + mu
         new_clusters := acc.new_clusters
         num_clusters := acc.num_clusters + 1
         next_id := acc.next_id }) := by
  simp only [stepC, hmu, if_pos hov, if_pos hmpos, if_neg hms,
    ge_iff_le, if_pos hbrk]

theorem stepC_cons_full_go (first : Nat) (ids : List Hash) (sender : PeerId)
    (c : SyncCluster) (cs : List SyncCluster) (acc : StepCAcc) (mu : Nat)
    (hmu : (((c.epoch_ids.drop (first - c.first_epoch_number)).take
        (min (c.epoch_ids.length - (first - c.first_epoch_number))
             (ids.length - acc.id_index))).zip
       ((ids.drop acc.id_index).take
        (min (c.epoch_ids.length - (first - c.first_epoch_number))
             (ids.length - acc.id_index)))).findIdx
        (fun ab => ab.1 ≠ ab.2) = mu)
    (hov : c.first_epoch_number ≤ first ∧
      first < c.first_epoch_number + c.epoch_ids.length)
    (hmpos : 0 < mu)
    (hms : ¬ mu < c.epoch_ids.length - (first - c.first_epoch_number))
    (hbrk : ¬ ids.length ≤ acc.id_index + mu) :
    stepC first ids sender (c :: cs) acc =
      (c.add_peer sender ::
         (stepC first ids sender cs
           { id_index := acc.id_index + mu
             new_clusters := acc.new_clusters
             num_clusters := acc.num_clusters + 1
             next_id := acc.next_id }).1,
       (stepC first ids sender cs
         { id_index := acc.id_index + mu
           new_clusters := acc.new_clusters
           num_clusters := acc.num_clusters + 1
           next_id := acc.next_id }).2) := by
  simp only [stepC, hmu, if_pos hov, if_pos hmpos, if_neg hms,
    ge_iff_le, if_neg hbrk]

theorem stepC_noids (first : Nat) (ids : List Hash) (sender : PeerId) :
    ∀ (chain : List SyncCluster) (acc : StepCAcc),
    ids.length ≤ acc.id_index →
    stepC first ids sender chain acc = (chain, acc) := by
  intro chain
  induction chain with
  | nil => intro acc h; rfl
  | cons c cs ih =>
    intro acc h
    by_cases hov : c.first_epoch_number ≤ first ∧
        first < c.first_epoch_number + c.epoch_ids.length
    · have hmu : (((c.epoch_ids.drop (first - c.first_epoch_number)).take
          (min (c.epoch_ids.length - (first - c.first_epoch_number))
               (ids.length - acc.id_index))).zip
         ((ids.drop acc.id_index).take
          (min (c.epoch_ids.length - (first - c.first_epoch_number))
               (ids.length - acc.id_index)))).findIdx
            (fun ab => ab.1 ≠ ab.2) = 0 := by
        have h0 : ids.length - acc.id_index = 0 := by omega
        rw [h0]
        simp
      rw [stepC_cons_nomatch first ids sender c cs acc 0 hmu hov rfl,
        ih acc h]
    · rw [stepC_cons_skip first ids sender c cs acc hov, ih acc h]

theorem stepC_spec (first : Nat) (ids : List Hash) (sender : PeerId) :
    ∀ (chain : List SyncCluster) (acc : StepCAcc),
    (∀ c ∈ chain, c.num_epochs_finished = 0) →
    (stepC first ids sender chain acc).1.length = chain.length ∧
    (∀ c ∈ (stepC first ids sender chain acc).1,
      c.num_epochs_finished = 0) ∧
    ((∀ c ∈ chain, c.peers.Nodup) →
      ∀ c ∈ (stepC first ids sender chain acc).1, c.peers.Nodup) ∧
    (∀ p, p ≠ sender →
      memCount p (stepC first ids sender chain acc).1 = memCount p chain) ∧
    ((∀ c ∈ chain, sender ∉ c.peers) →
      memCount sender (stepC first ids sender chain acc).1 +
        acc.num_clusters =
        (stepC first ids sender chain acc).2.num_clusters) ∧
    (∀ c ∈ (stepC first ids sender chain acc).2.new_clusters,
      c ∈ acc.new_clusters ∨
        (c.num_epochs_finished = 0 ∧ ∃ d ∈ chain, c.peers = d.peers)) ∧
    acc.num_clusters ≤ (stepC first ids sender chain acc).2.num_clusters ∧
    ((stepC first ids sender chain acc).2.id_index ≠ acc.id_index →
      acc.num_clusters < (stepC first ids sender chain acc).2.num_clusters) ∧
    ((∀ c ∈ chain, sender ∉ c.peers) →
      ∀ x ∈ (stepC first ids sender chain acc).1, sender ∈ x.peers →
        x.first_epoch_number ≤ first ∧
        first < x.first_epoch_number + x.epoch_ids.length) := by
  intro chain
  induction chain with
  | nil =>
    intro acc hfin
    refine ⟨rfl, hfin, fun h => h, fun p hp => rfl, ?_, ?_, le_refl _,
      fun h => absurd rfl h, ?_⟩
    · intro h
      show memCount sender [] + acc.num_clusters = acc.num_clusters
      rw [memCount_nil]
      omega
    · intro c hc
      exact Or.inl hc
    · intro hno x hx
      exact absurd hx (List.not_mem_nil x)
  | cons c cs ih =>
    intro acc hfin
    have hc0 : c.num_epochs_finished = 0 := hfin c (by simp)
    have hfin' : ∀ d ∈ cs, d.num_epochs_finished = 0 :=
      fun d hd => hfin d (by simp [hd])
    by_cases hov : c.first_epoch_number ≤ first ∧
        first < c.first_epoch_number + c.epoch_ids.length
    case neg =>
      have hstep := stepC_cons_skip first ids sender c cs acc hov
      have h1 : (stepC first ids sender (c :: cs) acc).1 =
          c :: (stepC first ids sender cs acc).1 := by rw [hstep]
      have h2 : (stepC first ids sender (c :: cs) acc).2 =
          (stepC first ids sender cs acc).2 := by rw [hstep]
      obtain ⟨ihlen, ihfin, ihnd, ihmem, ihsend, ihnew, ihmono, ihprog,
        ihshape⟩ := ih acc hfin'
      rw [h1, h2]
      refine ⟨by simp [ihlen], ?_, ?_, ?_, ?_, ?_, ihmono, ihprog, ?_⟩
      · intro d hd
        rcases List.mem_cons.mp hd with rfl | hd2
        · exact hc0
        · exact ihfin d hd2
      · intro hnd d hd
        rcases List.mem_cons.mp hd with rfl | hd2
        · exact hnd d (by simp)
        · exact ihnd (fun x hx => hnd x (by simp [hx])) d hd2
      · intro p hp
        rw [memCount_cons, memCount_cons, ihmem p hp]
      · intro hno
        have hcs := ihsend (fun x hx => hno x (by simp [hx]))
        have hnc : sender ∉ c.peers := hno c (by simp)
        rw [memCount_cons, if_neg hnc]
        omega
      · intro x hx
        rcases ihnew x hx with hl | ⟨hf0, d, hd, hpe⟩
        · exact Or.inl hl
        · exact Or.inr ⟨hf0, d, by simp [hd], hpe⟩
      · intro hno x hx hsx
        rcases List.mem_cons.mp hx with rfl | hx2
        · exact absurd hsx (hno x (by simp))
        · exact ihshape (fun d hd => hno d (by simp [hd])) x hx2 hsx
    case pos =>
      by_cases hm0 : (((c.epoch_ids.drop (first - c.first_epoch_number)).take
          (min (c.epoch_ids.length - (first - c.first_epoch_number))
               (ids.length - acc.id_index))).zip
         ((ids.drop acc.id_index).take
          (min (c.epoch_ids.length - (first - c.first_epoch_number))
               (ids.length - acc.id_index)))).findIdx
          (fun ab => ab.1 ≠ ab.2) = 0
      · -- no match at all: skipped like the no-overlap case
        have hstep := stepC_cons_nomatch first ids sender c cs acc 0 hm0 hov rfl
        have h1 : (stepC first ids sender (c :: cs) acc).1 =
            c :: (stepC first ids sender cs acc).1 := by rw [hstep]
        have h2 : (stepC first ids sender (c :: cs) acc).2 =
            (stepC first ids sender cs acc).2 := by rw [hstep]
        obtain ⟨ihlen, ihfin, ihnd, ihmem, ihsend, ihnew, ihmono, ihprog,
          ihshape⟩ := ih acc hfin'
        rw [h1, h2]
        refine ⟨by simp [ihlen], ?_, ?_, ?_, ?_, ?_, ihmono, ihprog, ?_⟩
        · intro d hd
          rcases List.mem_cons.mp hd with rfl | hd2
          · exact hc0
          · exact ihfin d hd2
        · intro hnd d hd
          rcases List.mem_cons.mp hd with rfl | hd2
          · exact hnd d (by simp)
          · exact ihnd (fun x hx => hnd x (by simp [hx])) d hd2
        · intro p hp
          rw [memCount_cons, memCount_cons, ihmem p hp]
        · intro hno
          have hcs := ihsend (fun x hx => hno x (by simp [hx]))
          have hnc : sender ∉ c.peers := hno c (by simp)
          rw [memCount_cons, if_neg hnc]
          omega
        · intro x hx
          rcases ihnew x hx with hl | ⟨hf0, d, hd, hpe⟩
          · exact Or.inl hl
          · exact Or.inr ⟨hf0, d, by simp [hd], hpe⟩
        · intro hno x hx hsx
          rcases List.mem_cons.mp hx with rfl | hx2
          · exact absurd hsx (hno x (by simp))
          · exact ihshape (fun d hd => hno d (by simp [hd])) x hx2 hsx
      · obtain ⟨mu, hmudef⟩ :
            ∃ m, (((c.epoch_ids.drop (first - c.first_epoch_number)).take
              (min (c.epoch_ids.length - (first - c.first_epoch_number))
                   (ids.length - acc.id_index))).zip
             ((ids.drop acc.id_index).take
              (min (c.epoch_ids.length - (first - c.first_epoch_number))
                   (ids.length - acc.id_index)))).findIdx
              (fun ab => ab.1 ≠ ab.2) = m := ⟨_, rfl⟩
        rw [hmudef] at hm0
        have hmpos : 0 < mu := Nat.pos_of_ne_zero hm0
        by_cases hms : mu < c.epoch_ids.length - (first - c.first_epoch_number)
        · -- partial overlap: the cluster is split
          set c1 := (c.split_off (first - c.first_epoch_number + mu)
            acc.next_id).1.add_peer sender with hc1
          set accS : StepCAcc :=
            { id_index := acc.id_index + mu
              new_clusters := acc.new_clusters ++
                [(c.split_off (first - c.first_epoch_number + mu)
                   acc.next_id).2]
              num_clusters := acc.num_clusters + 1
              next_id := acc.next_id + 1 } with haccS
          have haccSnum : accS.num_clusters = acc.num_clusters + 1 := rfl
          have haccSnew : accS.new_clusters = acc.new_clusters ++
            [(c.split_off (first - c.first_epoch_number + mu) acc.next_id).2] :=
            rfl
          have hc1mem : ∀ p, p ∈ c1.peers ↔ p ∈ c.peers ∨ p = sender := by
            intro p
            rw [hc1]
            exact add_peer_mem _ sender p
          have hc1fin : c1.num_epochs_finished = 0 := by
            rw [hc1, add_peer_fin]
            exact hc0
          have hc1nd : c.peers.Nodup → c1.peers.Nodup := by
            intro h
            rw [hc1]
            exact add_peer_nodup _ sender h
          have hc1first : c1.first_epoch_number = c.first_epoch_number := by
            rw [hc1, add_peer_first]
            rfl
          have hc1len : c1.epoch_ids.length =
              min (first - c.first_epoch_number + mu) c.epoch_ids.length := by
            rw [hc1, add_peer_ids]
            simp [SyncCluster.split_off]
          have hc1shape : c1.first_epoch_number ≤ first ∧
              first < c1.first_epoch_number + c1.epoch_ids.length := by
            rw [hc1first, hc1len]
            exact ⟨hov.1, by omega⟩
          have hp2peers : (c.split_off (first - c.first_epoch_number + mu)
              acc.next_id).2.peers = c.peers := rfl
          have hp2fin : (c.split_off (first - c.first_epoch_number + mu)
              acc.next_id).2.num_epochs_finished = 0 := rfl
          by_cases hbrk : ids.length ≤ acc.id_index + mu
          · have hstep := stepC_cons_split_brk first ids sender c cs acc mu
              hmudef hov hmpos hms hc0 hbrk
            have h1 : (stepC first ids sender (c :: cs) acc).1 = c1 :: cs := by
              rw [hstep]
            have h2 : (stepC first ids sender (c :: cs) acc).2 = accS := by
              rw [hstep]
            rw [h1, h2]
            refine ⟨by simp, ?_, ?_, ?_, ?_, ?_, ?_, ?_, ?_⟩
            · intro d hd
              rcases List.mem_cons.mp hd with rfl | hd2
              · exact hc1fin
              · exact hfin' d hd2
            · intro hnd d hd
              rcases List.mem_cons.mp hd with rfl | hd2
              · exact hc1nd (hnd c (by simp))
              · exact hnd d (by simp [hd2])
            · intro p hp
              rw [memCount_cons, memCount_cons]
              have : p ∈ c1.peers ↔ p ∈ c.peers := by
                rw [hc1mem]
                exact ⟨fun h => h.elim id (fun h3 => absurd h3 hp), Or.inl⟩
              rw [if_congr this rfl rfl]
            · intro hno
              have hs1 : sender ∈ c1.peers := (hc1mem sender).mpr (Or.inr rfl)
              have hz : memCount sender cs = 0 :=
                memCount_eq_zero sender cs (fun x hx => hno x (by simp [hx]))
              rw [memCount_cons, if_pos hs1, hz, haccSnum]
              omega
            · intro x hx
              rw [haccSnew] at hx
              rcases List.mem_append.mp hx with hl | hr
              · exact Or.inl hl
              · rcases List.mem_singleton.mp hr with rfl
                exact Or.inr ⟨hp2fin, c, by simp, hp2peers⟩
            · rw [haccSnum]
              omega
            · intro h
              rw [haccSnum]
              omega
            · intro hno x hx hsx
              rcases List.mem_cons.mp hx with rfl | hx2
              · exact hc1shape
              · exact absurd hsx (hno x (by simp [hx2]))
          · have hstep := stepC_cons_split_go first ids sender c cs acc mu
              hmudef hov hmpos hms hc0 hbrk
            have h1 : (stepC first ids sender (c :: cs) acc).1 =
                c1 :: (stepC first ids sender cs accS).1 := by rw [hstep]
            have h2 : (stepC first ids sender (c :: cs) acc).2 =
                (stepC first ids sender cs accS).2 := by rw [hstep]
            obtain ⟨ihlen, ihfin, ihnd, ihmem, ihsend, ihnew, ihmono, ihprog,
              ihshape⟩ := ih accS hfin'
            rw [h1, h2]
            refine ⟨by simp [ihlen], ?_, ?_, ?_, ?_, ?_, ?_, ?_, ?_⟩
            · intro d hd
              rcases List.mem_cons.mp hd with rfl | hd2
              · exact hc1fin
              · exact ihfin d hd2
            · intro hnd d hd
              rcases List.mem_cons.mp hd with rfl | hd2
              · exact hc1nd (hnd c (by simp))
              · exact ihnd (fun x hx => hnd x (by simp [hx])) d hd2
            · intro p hp
              rw [memCount_cons, memCount_cons, ihmem p hp]
              have : p ∈ c1.peers ↔ p ∈ c.peers := by
                rw [hc1mem]
                exact ⟨fun h => h.elim id (fun h3 => absurd h3 hp), Or.inl⟩
              rw [if_congr this rfl rfl]
            · intro hno
              have hcs := ihsend (fun x hx => hno x (by simp [hx]))
              have hs1 : sender ∈ c1.peers := (hc1mem sender).mpr (Or.inr rfl)
              rw [memCount_cons, if_pos hs1]
              rw [haccSnum] at hcs
              omega
            · intro x hx
              rcases ihnew x hx with hl | ⟨hf0, d, hd, hpe⟩
              · rw [haccSnew] at hl
                rcases List.mem_append.mp hl with hll | hlr
                · exact Or.inl hll
                · rcases List.mem_singleton.mp hlr with rfl
                  exact Or.inr ⟨hp2fin, c, by simp, hp2peers⟩
              · exact Or.inr ⟨hf0, d, by simp [hd], hpe⟩
            · have hm2 := ihmono
              rw [haccSnum] at hm2
              omega
            · intro h
              have hm2 := ihmono
              rw [haccSnum] at hm2
              omega
            · intro hno x hx hsx
              rcases List.mem_cons.mp hx with rfl | hx2
              · exact hc1shape
              · exact ihshape (fun d hd => hno d (by simp [hd])) x hx2 hsx
        · -- full overlap of the remaining cluster ids: no split
          set accF : StepCAcc :=
            { id_index := acc.id_index + mu
              new_clusters := acc.new_clusters
              num_clusters := acc.num_clusters + 1
              next_id := acc.next_id } with haccF
          have haccFnum : accF.num_clusters = acc.num_clusters + 1 := rfl
          have haccFnew : accF.new_clusters = acc.new_clusters := rfl
          have hcF : ∀ p, p ∈ (c.add_peer sender).peers ↔
              p ∈ c.peers ∨ p = sender := fun p => add_peer_mem c sender p
          have hcFfin : (c.add_peer sender).num_epochs_finished = 0 := by
            rw [add_peer_fin]
            exact hc0
          have hcFshape : (c.add_peer sender).first_epoch_number ≤ first ∧
              first < (c.add_peer sender).first_epoch_number +
                (c.add_peer sender).epoch_ids.length := by
            rw [add_peer_first, add_peer_ids]
            exact hov
          by_cases hbrk : ids.length ≤ acc.id_index + mu
          · have hstep := stepC_cons_full_brk first ids sender c cs acc mu
              hmudef hov hmpos hms hbrk
            have h1 : (stepC first ids sender (c :: cs) acc).1 =
                c.add_peer sender :: cs := by rw [hstep]
            have h2 : (stepC first ids sender (c :: cs) acc).2 = accF := by
              rw [hstep]
            rw [h1, h2]
            refine ⟨by simp, ?_, ?_, ?_, ?_, ?_, ?_, ?_, ?_⟩
            · intro d hd
              rcases List.mem_cons.mp hd with rfl | hd2
              · exact hcFfin
              · exact hfin' d hd2
            · intro hnd d hd
              rcases List.mem_cons.mp hd with rfl | hd2
              · exact add_peer_nodup c sender (hnd c (by simp))
              · exact hnd d (by simp [hd2])
            · intro p hp
              rw [memCount_cons, memCount_cons]
              have : p ∈ (c.add_peer sender).peers ↔ p ∈ c.peers := by
                rw [hcF]
                exact ⟨fun h => h.elim id (fun h3 => absurd h3 hp), Or.inl⟩
              rw [if_congr this rfl rfl]
            · intro hno
              have hs1 : sender ∈ (c.add_peer sender).peers :=
                (hcF sender).mpr (Or.inr rfl)
              have hz : memCount sender cs = 0 :=
                memCount_eq_zero sender cs (fun x hx => hno x (by simp [hx]))
              rw [memCount_cons, if_pos hs1, hz, haccFnum]
              omega
            · intro x hx
              rw [haccFnew] at hx
              exact Or.inl hx
            · rw [haccFnum]
              omega
            · intro h
              rw [haccFnum]
              omega
            · intro hno x hx hsx
              rcases List.mem_cons.mp hx with rfl | hx2
              · exact hcFshape
              · exact absurd hsx (hno x (by simp [hx2]))
          · have hstep := stepC_cons_full_go first ids sender c cs acc mu
              hmudef hov hmpos hms hbrk
            have h1 : (stepC first ids sender (c :: cs) acc).1 =
                c.add_peer sender :: (stepC first ids sender cs accF).1 := by
              rw [hstep]
            have h2 : (stepC first ids sender (c :: cs) acc).2 =
                (stepC first ids sender cs accF).2 := by rw [hstep]
            obtain ⟨ihlen, ihfin, ihnd, ihmem, ihsend, ihnew, ihmono, ihprog,
              ihshape⟩ := ih accF hfin'
            rw [h1, h2]
            refine ⟨by simp [ihlen], ?_, ?_, ?_, ?_, ?_, ?_, ?_, ?_⟩
            · intro d hd
              rcases List.mem_cons.mp hd with rfl | hd2
              · exact hcFfin
              · exact ihfin d hd2
            · intro hnd d hd
              rcases List.mem_cons.mp hd with rfl | hd2
              · exact add_peer_nodup c sender (hnd c (by simp))
              · exact ihnd (fun x hx => hnd x (by simp [hx])) d hd2
            · intro p hp
              rw [memCount_cons, memCount_cons, ihmem p hp]
              have : p ∈ (c.add_peer sender).peers ↔ p ∈ c.peers := by
                rw [hcF]
                exact ⟨fun h => h.elim id (fun h3 => absurd h3 hp), Or.inl⟩
              rw [if_congr this rfl rfl]
            · intro hno
              have hcs := ihsend (fun x hx => hno x (by simp [hx]))
              have hs1 : sender ∈ (c.add_peer sender).peers :=
                (hcF sender).mpr (Or.inr rfl)
              rw [memCount_cons, if_pos hs1]
              rw [haccFnum] at hcs
              omega
            · intro x hx
              rcases ihnew x hx with hl | ⟨hf0, d, hd, hpe⟩
              · rw [haccFnew] at hl
                exact Or.inl hl
              · exact Or.inr ⟨hf0, d, by simp [hd], hpe⟩
            · have hm2 := ihmono
              rw [haccFnum] at hm2
              omega
            · intro h
              have hm2 := ihmono
              rw [haccFnum] at hm2
              omega
            · intro hno x hx hsx
              rcases List.mem_cons.mp hx with rfl | hx2
              · exact hcFshape
              · exact ihshape (fun d hd => hno d (by simp [hd])) x hx2 hsx

set_option maxHeartbeats 2000000 in
theorem cluster_inv (our_id : Hash) (our_epoch : Nat) (st st' : SyncState)
    (e : EpochIds) (out : Option PeerId)
    (hinv : Inv st) (hfresh : st.peers e.sender = none)
    (hjq : st.job_queue = []) (hf : our_epoch < e.first_epoch_number)
    (hrun : cluster_epoch_ids our_id our_epoch st e = some (st', out)) :
    Inv st' := by
  obtain ⟨hmap, hcl⟩ := hinv
  have hA := stepA_skip our_id our_epoch e hf
  by_cases hempty : e.ids = [] ∧ e.checkpoint_id = none
  · obtain ⟨hids, hck⟩ := hempty
    simp only [cluster_epoch_ids, hA, hjq, hids, hck, matchJobs_nil,
      findFinish] at hrun
    simp at hrun
    obtain ⟨rfl, rfl⟩ := hrun
    exact ⟨hmap, hcl⟩
  · -- the main clustering path
    have hno : ∀ c ∈ liveClusters st, e.sender ∉ c.peers := by
      intro c hc hs
      have hpos := memCount_pos e.sender (liveClusters st) c hc hs
      have h0 : countLive e.sender st ≠ 0 := by
        simp only [countLive]
        omega
      have hm := hmap e.sender
      rw [if_neg h0, hfresh] at hm
      cases hm
    have hlivedef : liveClusters st =
        st.epoch_clusters ++ st.checkpoint_clusters ++
          st.active_cluster.toList := rfl
    have hchainsub : ∀ c, c ∈ st.epoch_clusters ++ st.active_cluster.toList →
        c ∈ liveClusters st := by
      intro c hc
      rw [hlivedef]
      rcases List.mem_append.mp hc with h | h
      · exact List.mem_append.mpr (Or.inl (List.mem_append.mpr (Or.inl h)))
      · exact List.mem_append.mpr (Or.inr h)
    have hcksub : ∀ c, c ∈ st.checkpoint_clusters → c ∈ liveClusters st := by
      intro c hc
      rw [hlivedef]
      exact List.mem_append.mpr (Or.inl (List.mem_append.mpr (Or.inr hc)))
    have hchainfin : ∀ c ∈ st.epoch_clusters ++ st.active_cluster.toList,
        c.num_epochs_finished = 0 := fun c hc => (hcl c (hchainsub c hc)).2
    have hchainnd : ∀ c ∈ st.epoch_clusters ++ st.active_cluster.toList,
        c.peers.Nodup := fun c hc => (hcl c (hchainsub c hc)).1
    have hchainno : ∀ c ∈ st.epoch_clusters ++ st.active_cluster.toList,
        e.sender ∉ c.peers := fun c hc => hno c (hchainsub c hc)
    have hckno : ∀ c ∈ st.checkpoint_clusters, e.sender ∉ c.peers :=
      fun c hc => hno c (hcksub c hc)
    -- normalize the run equation
    simp only [cluster_epoch_ids, hA, hjq, matchJobs_nil] at hrun
    simp only [List.drop_zero, Nat.add_zero,
      EpochIds.get_checkpoint_epoch] at hrun
    have hcond : ¬ (0 > e.ids.length ∨ 0 = e.ids.length ∧
        e.checkpoint_id = none) := by
      rintro (h | ⟨h1, h2⟩)
      · omega
      · exact hempty ⟨List.length_eq_zero.mp h1.symm, h2⟩
    rw [if_neg hcond] at hrun
    -- the Step C run over the chained clusters
    obtain ⟨hlen2, hfin2, hnd2, hmem2, hsend2, hnew2, hmono2, hprog2,
      hshape2⟩ :=
      stepC_spec e.first_epoch_number e.ids e.sender
        (st.epoch_clusters ++ st.active_cluster.toList)
        { id_index := 0, new_clusters := [], num_clusters := 0,
          next_id := st.next_id } hchainfin
    set r := stepC e.first_epoch_number e.ids e.sender
      (st.epoch_clusters ++ st.active_cluster.toList)
      { id_index := 0, new_clusters := [], num_clusters := 0,
        next_id := st.next_id } with hr
    have hacc0num : ({ id_index := 0, new_clusters := [], num_clusters := 0, next_id := st.next_id } : StepCAcc).num_clusters = 0 := rfl
    have hacc0idx : ({ id_index := 0, new_clusters := [], num_clusters := 0, next_id := st.next_id } : StepCAcc).id_index = 0 := rfl
    set acc2 := if r.2.id_index < e.ids.length then
        ({ id_index := r.2.id_index
           new_clusters := r.2.new_clusters ++
             [{ id := r.2.next_id
                first_epoch_number := e.first_epoch_number + r.2.id_index
                epoch_ids := List.drop r.2.id_index e.ids
                peers := [e.sender], num_epochs_finished := 0 }]
           num_clusters := r.2.num_clusters
           next_id := r.2.next_id + 1 } : StepCAcc)
      else r.2 with hacc2
    set active2 := (List.drop st.epoch_clusters.length r.1).head? with hact2
    set r2 := stepE e.checkpoint_id (e.first_epoch_number + e.ids.length)
      e.sender st.checkpoint_clusters active2 acc2 with hr2
    -- decomposition of the Step C output
    have htl1 : st.active_cluster.toList.length ≤ 1 := by
      cases st.active_cluster <;> simp
    have hdroplen : (List.drop st.epoch_clusters.length r.1).length ≤ 1 := by
      rw [List.length_drop, hlen2, List.length_append]
      omega
    have hsplit2 : List.take st.epoch_clusters.length r.1 ++
        List.drop st.epoch_clusters.length r.1 = r.1 :=
      List.take_append_drop _ _
    have hact2list : active2.toList =
        List.drop st.epoch_clusters.length r.1 := by
      rw [hact2]
      exact headToList _ hdroplen
    have hmemr1 : ∀ p, memCount p r.1 =
        memCount p (List.take st.epoch_clusters.length r.1) +
        memCount p active2.toList := by
      intro p
      rw [hact2list, ← memCount_append, hsplit2]
    -- Step D bookkeeping
    have hacc2num : acc2.num_clusters = r.2.num_clusters := by
      rw [hacc2]
      split_ifs <;> rfl
    have hacc2memne : ∀ p, p ≠ e.sender →
        memCount p acc2.new_clusters = memCount p r.2.new_clusters := by
      intro p hp
      rw [hacc2]
      split_ifs with h
      · rw [memCount_append, memCount_cons, memCount_nil]
        simp [hp]
      · rfl
    have hacc2mems : memCount e.sender acc2.new_clusters =
        memCount e.sender r.2.new_clusters +
          (if r.2.id_index < e.ids.length then 1 else 0) := by
      rw [hacc2]
      split_ifs with h
      · rw [memCount_append, memCount_cons, memCount_nil]
        simp
      · omega
    have hacc2new : ∀ x ∈ acc2.new_clusters,
        x ∈ r.2.new_clusters ∨ x.peers = [e.sender] ∧
          x.num_epochs_finished = 0 := by
      intro x hx
      rw [hacc2] at hx
      split_ifs at hx with h
      · rcases List.mem_append.mp hx with h1 | h1
        · exact Or.inl h1
        · rcases List.mem_singleton.mp h1 with rfl
          exact Or.inr ⟨rfl, rfl⟩
      · exact Or.inl hx
    -- the Step E run
    obtain ⟨hEnew, hEmem, hEsend, hEnds, hEnone, hEsome⟩ :=
      stepE_spec e.checkpoint_id (e.first_epoch_number + e.ids.length)
        e.sender st.checkpoint_clusters active2 acc2
    rw [← hr2] at hEnew hEmem hEsend hEnds hEnone hEsome
    -- the active cluster cannot also match the checkpoint test
    have hactE : ∀ c ∈ active2.toList,
        c.first_epoch_number = e.first_epoch_number + e.ids.length ∧
          c.epoch_ids.length = 1 → e.sender ∉ c.peers := by
      intro c hc hmatch hsc
      have hcr1 : c ∈ r.1 := by
        rw [hact2list] at hc
        exact List.drop_subset _ _ hc
      have hsh := hshape2 hchainno c hcr1 hsc
      by_cases hL : e.ids.length = 0
      · have hre : r = (st.epoch_clusters ++ st.active_cluster.toList,
            { id_index := 0, new_clusters := [], num_clusters := 0,
              next_id := st.next_id }) := by
          rw [hr]
          exact stepC_noids _ _ _ _ _ (by omega)
        rw [hre] at hcr1
        exact hchainno c hcr1 hsc
      · have h1 := hsh.1
        have h2 := hmatch.1
        omega
    -- facts about the buffered new clusters
    have hnewfacts : ∀ x ∈ r2.2.2.new_clusters,
        (x.peers.Nodup ∧ x.num_epochs_finished = 0) ∧
        (∀ p ∈ x.peers, p = e.sender ∨ 0 < countLive p st) := by
      intro x hx
      rw [hEnew] at hx
      rcases hacc2new x hx with h1 | ⟨hp, hf0⟩
      · rcases hnew2 x h1 with h2 | ⟨hf0, d, hd, hpe⟩
        · exact absurd h2 (List.not_mem_nil x)
        · refine ⟨⟨?_, hf0⟩, ?_⟩
          · rw [hpe]
            exact hchainnd d hd
          · intro p hp2
            rw [hpe] at hp2
            right
            have := memCount_pos p (liveClusters st) d (hchainsub d hd) hp2
            simp only [countLive]
            omega
      · refine ⟨⟨by rw [hp]; simp, hf0⟩, ?_⟩
        intro p hp2
        rw [hp] at hp2
        left
        exact List.mem_singleton.mp hp2
    -- bookkeeping of Step F
    obtain ⟨m', hbump, hm'⟩ := bumpPeers_spec r2.2.2.new_clusters
      (setA st.peers e.sender r2.2.2.num_clusters)
      (fun c hc => (hnewfacts c hc).1.1)
      (fun c hc p hp => by
        by_cases hps : p = e.sender
        · rw [hps, setA_self]
          rfl
        · rw [setA_ne st.peers e.sender p r2.2.2.num_clusters hps]
          rcases (hnewfacts c hc).2 p hp with h | hpos
          · exact absurd h hps
          · have hm := hmap p
            rw [if_neg (by omega : ¬ countLive p st = 0)] at hm
            rw [hm]
            rfl)
    rw [hbump] at hrun
    simp only [Option.some.injEq, Prod.mk.injEq] at hrun
    obtain ⟨hst', hout⟩ := hrun
    have hpe : st'.peers = m' := by rw [← hst']
    have hec : st'.epoch_clusters =
        List.take st.epoch_clusters.length r.1 ++ r2.2.2.new_clusters := by
      rw [← hst']
    have hcc : st'.checkpoint_clusters = r2.1 := by rw [← hst']
    have hac : st'.active_cluster = r2.2.1 := by rw [← hst']
    have hlive' : liveClusters st' =
        (List.take st.epoch_clusters.length r.1 ++ r2.2.2.new_clusters) ++
          r2.1 ++ r2.2.1.toList := by
      simp only [liveClusters, hec, hcc, hac]
    have hcount' : ∀ p, countLive p st' =
        memCount p (List.take st.epoch_clusters.length r.1) +
        memCount p r2.2.2.new_clusters + memCount p r2.1 +
        memCount p r2.2.1.toList := by
      intro p
      simp only [countLive, hlive', memCount_append]
    have hact2facts : ∀ c ∈ active2.toList,
        c.peers.Nodup ∧ c.num_epochs_finished = 0 := by
      intro c hc
      rw [hact2list] at hc
      have hcr : c ∈ r.1 := List.drop_subset _ _ hc
      exact ⟨hnd2 hchainnd c hcr, hfin2 c hcr⟩
    have hEnds' := hEnds (fun d hd => hcl d (hcksub d hd)) hact2facts
    constructor
    · -- the bookkeeping map matches the live-cluster counts
      intro p
      rw [hpe, hm' p]
      by_cases hps : p = e.sender
      · subst hps
        rw [setA_self]
        have hsendnew0 : memCount e.sender r.2.new_clusters = 0 := by
          apply memCount_eq_zero
          intro c hc hsc
          rcases hnew2 c hc with h2 | ⟨hf0, d, hd, hpe2⟩
          · exact absurd h2 (List.not_mem_nil c)
          · rw [hpe2] at hsc
            exact hchainno d hd hsc
        have hsend2' : memCount e.sender r.1 = r.2.num_clusters := by
          have h := hsend2 hchainno
          rw [hacc0num] at h
          omega
        have hEsend' := hEsend hckno hactE
        have hck0 : memCount e.sender st.checkpoint_clusters = 0 :=
          memCount_eq_zero _ _ hckno
        have hmcA3 : memCount e.sender r2.2.2.new_clusters =
            memCount e.sender acc2.new_clusters := by rw [hEnew]
        have hcnt : countLive e.sender st' =
            r2.2.2.num_clusters + memCount e.sender r2.2.2.new_clusters := by
          have h1 := hmemr1 e.sender
          rw [hacc2num] at hEsend'
          rw [hcount' e.sender, hmcA3, hacc2mems]
          omega
        have hpos' : countLive e.sender st' ≠ 0 := by
          rw [hcnt]
          rcases hcko : e.checkpoint_id with - | ck
          · have hidsne : e.ids ≠ [] := fun h => hempty ⟨h, hcko⟩
            have hlpos : 0 < e.ids.length := List.length_pos.mpr hidsne
            have hnone := hEnone hcko
            have hr2num : r2.2.2.num_clusters = acc2.num_clusters := by
              rw [hnone]
            by_cases hD : r.2.id_index < e.ids.length
            · have hms := hacc2mems
              rw [if_pos hD] at hms
              rw [hEnew, hms]
              omega
            · have hidx : r.2.id_index ≠ 0 := by omega
              have hprog' := hprog2
              rw [hacc0idx, hacc0num] at hprog'
              have hpp := hprog' hidx
              rw [hr2num, hacc2num]
              omega
          · have hsome := hEsome (by rw [hcko]; rfl)
            rw [hacc2num] at hsome
            omega
        rw [if_neg hpos', hcnt, Option.map_some']
      · rw [setA_ne st.peers e.sender p r2.2.2.num_clusters hps]
        have h1 := hmemr1 p
        have hEmem' := hEmem p hps
        have hacc2ne := hacc2memne p hps
        have hmcA3 : memCount p r2.2.2.new_clusters =
            memCount p acc2.new_clusters := by rw [hEnew]
        have hcl2 : countLive p st = memCount p st.epoch_clusters +
            memCount p st.checkpoint_clusters +
            memCount p st.active_cluster.toList := by
          simp only [countLive, hlivedef, memCount_append]
        have hchainmem : memCount p r.1 = memCount p st.epoch_clusters +
            memCount p st.active_cluster.toList := by
          rw [hmem2 p hps, memCount_append]
        have hcnt : countLive p st' = countLive p st +
            memCount p r2.2.2.new_clusters := by
          rw [hcount' p, hcl2]
          omega
        rcases hmp : st.peers p with - | n
        · have hc0 : countLive p st = 0 := by
            have hm := hmap p
            rw [hmp] at hm
            by_cases h : countLive p st = 0
            · exact h
            · rw [if_neg h] at hm
              cases hm
          have hmc0 : memCount p r2.2.2.new_clusters = 0 := by
            apply memCount_eq_zero
            intro c hc hpc
            rcases (hnewfacts c hc).2 p hpc with h | h
            · exact hps h
            · omega
          rw [hcnt, hc0, hmc0]
          simp
        · have hm := hmap p
          rw [hmp] at hm
          have hcn : countLive p st = n ∧ countLive p st ≠ 0 := by
            by_cases h : countLive p st = 0
            · rw [if_pos h] at hm
              cases hm
            · rw [if_neg h] at hm
              exact ⟨(Option.some_inj.mp hm).symm, h⟩
          have hne : countLive p st' ≠ 0 := by
            rw [hcnt]
            have := hcn.1
            have := hcn.2
            omega
          rw [if_neg hne, hcnt, hcn.1, Option.map_some']
    · -- every live cluster is duplicate-free with no finished epochs
      intro c hc
      rw [hlive'] at hc
      rcases List.mem_append.mp hc with hc1 | hcD
      · rcases List.mem_append.mp hc1 with hc2 | hcC
        · rcases List.mem_append.mp hc2 with hc3 | hcB
          · have hcr : c ∈ r.1 := List.take_subset _ _ hc3
            exact ⟨hnd2 hchainnd c hcr, hfin2 c hcr⟩
          · exact (hnewfacts c hcB).1
        · exact hEnds'.1 c hcC
      · exact hEnds'.2 c hcD

theorem promote_inv (cur : Nat) (st st1 : SyncState) (c : SyncCluster)
    (hinv : Inv st) (hact : st.active_cluster = none)
    (hpop : pop_next_cluster cur st = (some c, st1)) :
    Inv { st1 with active_cluster := some c } := by
  obtain ⟨hmap, hcl⟩ := hinv
  by_cases hep : st.epoch_clusters = []
  · have hfb1 : find_best_cluster cur st.epoch_clusters = none := by
      rw [hep]
      rfl
    by_cases hck : st.checkpoint_clusters = []
    · have hfb2 : find_best_cluster cur st.checkpoint_clusters = none := by
        rw [hck]
        rfl
      simp only [pop_next_cluster, hfb1, hfb2, Prod.mk.injEq] at hpop
      exact absurd hpop.1 (by simp)
    · obtain ⟨c0, rest, hfb, hmem, hbest, hperm⟩ :=
        find_best_cluster_spec cur st.checkpoint_clusters hck
      simp only [pop_next_cluster, hfb1, hfb, Prod.mk.injEq] at hpop
      obtain ⟨hc, hst1⟩ := hpop
      have hc0live : c0 ∈ liveClusters st := by
        simp only [liveClusters]
        exact List.mem_append.mpr (Or.inl (List.mem_append.mpr (Or.inr hmem)))
      have hcbest : c = if c0.first_epoch_number ≤ cur then
          c0.remove_front (cur - c0.first_epoch_number + 1) else c0 :=
        (Option.some_inj.mp hc).symm
      have hcp : c.peers = c0.peers := by
        rw [hcbest]
        split_ifs <;> rfl
      have hcfin : c.num_epochs_finished = 0 := by
        rw [hcbest]
        have h0 := (hcl c0 hc0live).2
        split_ifs
        · simp [SyncCluster.remove_front, h0]
        · exact h0
      have hst1e : st1.epoch_clusters = st.epoch_clusters := by rw [← hst1]
      have hst1c : st1.checkpoint_clusters = rest := by rw [← hst1]
      have hst1p : st1.peers = st.peers := by rw [← hst1]
      have hlive' :
          liveClusters { st1 with active_cluster := some c } =
            st.epoch_clusters ++ rest ++ [c] := by
        simp only [liveClusters, hst1e, hst1c]
        rfl
      have hliveSt : liveClusters st =
          st.epoch_clusters ++ st.checkpoint_clusters := by
        simp only [liveClusters, hact]
        simp
      have hcount : ∀ p, countLive p { st1 with active_cluster := some c } =
          countLive p st := by
        intro p
        simp only [countLive, hlive', hliveSt, memCount_append]
        have hpm := memCount_perm p _ _ hperm
        rw [memCount_cons] at hpm
        have hcpm : (if p ∈ c.peers then 1 else 0) =
            (if p ∈ c0.peers then 1 else 0) := by rw [hcp]
        rw [memCount_cons, memCount_nil, hcpm]
        omega
      constructor
      · intro p
        show st1.peers p = _
        rw [hcount p, hst1p]
        exact hmap p
      · intro x hx
        rw [hlive'] at hx
        rcases List.mem_append.mp hx with hx1 | hx1
        · rcases List.mem_append.mp hx1 with hx2 | hx2
          · exact hcl x (by
              simp only [liveClusters]
              exact List.mem_append.mpr (Or.inl (List.mem_append.mpr
                (Or.inl hx2))))
          · have : x ∈ st.checkpoint_clusters :=
              hperm.subset (List.mem_cons.mpr (Or.inr hx2))
            exact hcl x (by
              simp only [liveClusters]
              exact List.mem_append.mpr (Or.inl (List.mem_append.mpr
                (Or.inr this))))
        · rcases List.mem_singleton.mp hx1 with rfl
          refine ⟨?_, hcfin⟩
          rw [hcp]
          exact (hcl c0 hc0live).1
  · obtain ⟨c0, rest, hfb, hmem, hbest, hperm⟩ :=
      find_best_cluster_spec cur st.epoch_clusters hep
    simp only [pop_next_cluster, hfb, Prod.mk.injEq] at hpop
    obtain ⟨hc, hst1⟩ := hpop
    have hc0live : c0 ∈ liveClusters st := by
      simp only [liveClusters]
      exact List.mem_append.mpr (Or.inl (List.mem_append.mpr (Or.inl hmem)))
    have hcbest : c = if c0.first_epoch_number ≤ cur then
        c0.remove_front (cur - c0.first_epoch_number + 1) else c0 :=
      (Option.some_inj.mp hc).symm
    have hcp : c.peers = c0.peers := by
      rw [hcbest]
      split_ifs <;> rfl
    have hcfin : c.num_epochs_finished = 0 := by
      rw [hcbest]
      have h0 := (hcl c0 hc0live).2
      split_ifs
      · simp [SyncCluster.remove_front, h0]
      · exact h0
    have hst1e : st1.epoch_clusters = rest := by rw [← hst1]
    have hst1c : st1.checkpoint_clusters = st.checkpoint_clusters := by
      rw [← hst1]
    have hst1p : st1.peers = st.peers := by rw [← hst1]
    have hlive' :
        liveClusters { st1 with active_cluster := some c } =
          rest ++ st.checkpoint_clusters ++ [c] := by
      simp only [liveClusters, hst1e, hst1c]
      rfl
    have hliveSt : liveClusters st =
        st.epoch_clusters ++ st.checkpoint_clusters := by
      simp only [liveClusters, hact]
      simp
    have hcount : ∀ p, countLive p { st1 with active_cluster := some c } =
        countLive p st := by
      intro p
      simp only [countLive, hlive', hliveSt, memCount_append]
      have hpm := memCount_perm p _ _ hperm
      rw [memCount_cons] at hpm
      have hcpm : (if p ∈ c.peers then 1 else 0) =
          (if p ∈ c0.peers then 1 else 0) := by rw [hcp]
      rw [memCount_cons, memCount_nil, hcpm]
      omega
    constructor
    · intro p
      show st1.peers p = _
      rw [hcount p, hst1p]
      exact hmap p
    · intro x hx
      rw [hlive'] at hx
      rcases List.mem_append.mp hx with hx1 | hx1
      · rcases List.mem_append.mp hx1 with hx2 | hx2
        · have : x ∈ st.epoch_clusters :=
            hperm.subset (List.mem_cons.mpr (Or.inr hx2))
          exact hcl x (by
            simp only [liveClusters]
            exact List.mem_append.mpr (Or.inl (List.mem_append.mpr
              (Or.inl this))))
        · exact hcl x (by
            simp only [liveClusters]
            exact List.mem_append.mpr (Or.inl (List.mem_append.mpr
              (Or.inr hx2))))
      · rcases List.mem_singleton.mp hx1 with rfl
        refine ⟨?_, hcfin⟩
        rw [hcp]
        exact (hcl c0 hc0live).1

theorem finish_inv (st : SyncState) (c : SyncCluster)
    (result : SyncClusterResult) (st' : SyncState)
    (hinv : Inv st) (hact : st.active_cluster = some c)
    (hrun : finish_cluster { st with active_cluster := none } c result =
      some st') :
    Inv st' := by
  obtain ⟨hmap, hcl⟩ := hinv
  have hclive : c ∈ liveClusters st := by
    simp only [liveClusters, hact, Option.toList_some]
    exact List.mem_append.mpr (Or.inr (List.mem_singleton.mpr rfl))
  have hcnd : c.peers.Nodup := (hcl c hclive).1
  have hposall : ∀ p ∈ c.peers, ∃ n,
      ({ st with active_cluster := none } : SyncState).peers p = some n ∧
        1 ≤ n := by
    intro p hp
    have hpos0 := memCount_pos p (liveClusters st) c hclive hp
    have hpos : 0 < countLive p st := by
      simp only [countLive]
      omega
    refine ⟨countLive p st, ?_, by omega⟩
    show st.peers p = some (countLive p st)
    rw [hmap p, if_neg (by omega)]
  obtain ⟨st'', hrun2, hin, hout2, he1, he2, he3, he4, he5⟩ :=
    finishPeers_spec result c.peers { st with active_cluster := none }
      hcnd hposall
  simp only [finish_cluster] at hrun
  rw [hrun2] at hrun
  have heq : st'' = st' := Option.some_inj.mp hrun
  rw [heq] at hin hout2 he1 he2 he3 he4 he5
  have hlive' : liveClusters st' =
      st.epoch_clusters ++ st.checkpoint_clusters := by
    simp only [liveClusters, he1, he2, he3]
    simp
  have hliveSt : liveClusters st =
      st.epoch_clusters ++ st.checkpoint_clusters ++ [c] := by
    simp only [liveClusters, hact]
    rfl
  have hcount : ∀ p, countLive p st =
      countLive p st' + (if p ∈ c.peers then 1 else 0) := by
    intro p
    simp only [countLive, hlive', hliveSt, memCount_append]
    rw [memCount_cons, memCount_nil]
    omega
  constructor
  · intro p
    by_cases hp : p ∈ c.peers
    · have hpos0 := memCount_pos p (liveClusters st) c hclive hp
      have hpos : 0 < countLive p st := by
        simp only [countLive]
        omega
      have hn : ({ st with active_cluster := none } : SyncState).peers p =
          some (countLive p st) := by
        show st.peers p = some (countLive p st)
        rw [hmap p, if_neg (by omega)]
      have hi := hin p hp (countLive p st) hn
      have hc' : countLive p st' = countLive p st - 1 := by
        have := hcount p
        rw [if_pos hp] at this
        omega
      rw [hi.1, hc']
      by_cases h1 : countLive p st = 1
      · rw [if_pos h1, if_pos (by omega)]
      · rw [if_neg h1, if_neg (by omega)]
    · have ho := (hout2 p hp).1
      have hc' : countLive p st' = countLive p st := by
        have := hcount p
        rw [if_neg hp] at this
        omega
      rw [ho, hc']
      show st.peers p = _
      exact hmap p
  · intro x hx
    rw [hlive'] at hx
    rcases List.mem_append.mp hx with hx1 | hx1
    · exact hcl x (by
        simp only [liveClusters]
        exact List.mem_append.mpr (Or.inl (List.mem_append.mpr
          (Or.inl hx1))))
    · exact hcl x (by
        simp only [liveClusters]
        exact List.mem_append.mpr (Or.inl (List.mem_append.mpr
          (Or.inr hx1))))

theorem reachable_inv (st : SyncState) (h : Reachable st) : Inv st := by
  induction h with
  | init => exact init_inv
  | recv st our_id our_epoch e st2 out hR hfresh hjq hf hrun ih =>
    exact cluster_inv our_id our_epoch st st2 e out ih hfresh hjq hf hrun
  | promote st cur c st1 hR hact hpop ih =>
    exact promote_inv cur st st1 c ih hact hpop
  | finishActive st c result st2 hR hact hrun ih =>
    exact finish_inv st c result st2 ih hact hrun

/-- C3. Peer-count invariant: in every state reachable by the modelled
driver discipline (cluster_epoch_ids on fresh peers with a drained job
queue and ids beyond the election epoch, pop_next_cluster promotions,
and finish_cluster on the removed active cluster), every peer present
in the bookkeeping map is mapped to exactly the number of live
clusters (epoch clusters, checkpoint clusters and the active cluster)
whose peer set contains it. -/
theorem claim3_peer_count_invariant (st : SyncState) (h : Reachable st)
    (p : PeerId) (n : Nat) (hp : st.peers p = some n) :
    n = countLive p st := by
  have h1 := (reachable_inv st h).1 p
  rw [hp] at h1
  by_cases h0 : countLive p st = 0
  · rw [if_pos h0] at h1
    cases h1
  · rw [if_neg h0] at h1
    exact Option.some_inj.mp h1

/-- Witness for C3 at a concrete input: the state reached by
clustering two epoch ids from peer 1 on the empty engine maps peer 1
to count 1, which equals the number of live clusters containing it. -/
theorem claim3_peer_count_invariant_witness :
    stC3.peers 1 = some 1 ∧ (1 : Nat) = countLive 1 stC3 :=
  ⟨rfl, claim3_peer_count_invariant stC3
    (Reachable.recv SyncState.init (9, 9) 0 eC3 stC3 none Reachable.init rfl
      rfl (by decide) rfl) 1 1 rfl⟩

end HistorySyncModel
